import Mathlib

/-!
Collateral deposits of the CDP keeper (`x/cdp/keeper/deposit.go`)

A shallow embedding of `Keeper.DepositCollateral`, `Keeper.WithdrawCollateral` and of the
deposit ledger (`GetDeposit`, `SetDeposit`, `DeleteDeposit`, `IterateDeposits`,
`GetDeposits`), followed by theorems about them.

Conventions of the embedding.

* The Go functions thread an `sdk.Context`; here the context is the record `Ctx` holding the
  deposit store, the events emitted by this file's code and the state `ext` of everything the
  collaborators own (positions, indexes, bank balances, parameters, price feed, hooks).
* The collaborators called by `deposit.go` but defined elsewhere are the fields of `Keeper`.
  They read and write `ext` only.
* A Go function returning `error` returns a `Result` together with the context it leaves
  behind: nothing is rolled back by this code, so the context at an `error` or a `panic` is
  the context reached when the function stopped.
* `sdk.Int` is `Int`; `sdk.Dec` is represented by its underlying integer, only its order is
  used; `uint64` position identifiers are `Nat` (no arithmetic is performed on them).
-/

namespace Cdp

/-! ## Coins -/

/-- Account address `sdk.AccAddress`: a byte string. -/
abbrev AccAddress := List Nat

/-- Fixed-point decimal `sdk.Dec`, represented by its underlying integer. -/
abbrev Dec := Int

/-- Coin `sdk.Coin`: a denomination and a signed big-integer amount. -/
structure Coin where
  Denom : String
  Amount : Int
deriving DecidableEq

/-- Coin addition `Coin.Add`: panics (`none`) when the denominations differ. -/
def Coin.Add (coin coinB : Coin) : Option Coin :=
  if coin.Denom ≠ coinB.Denom then none
  else some { Denom := coin.Denom, Amount := coin.Amount + coinB.Amount }

/-- Coin subtraction `Coin.Sub`: panics (`none`) when the denominations differ or when the
difference is negative. -/
def Coin.Sub (coin coinB : Coin) : Option Coin :=
  if coin.Denom ≠ coinB.Denom then none
  else
    let res : Coin := { Denom := coin.Denom, Amount := coin.Amount - coinB.Amount }
    if res.Amount < 0 then none else some res

/-- Zero test `Coin.IsZero`. -/
def Coin.IsZero (coin : Coin) : Bool := coin.Amount == 0

/-- Coin set constructor `sdk.NewCoins` applied to one coin: a zero coin is dropped, and the
call panics (`none`) when the remaining coin has an invalid denomination or a non-positive
amount. The denomination check `validDenom` is a parameter. -/
def NewCoins (validDenom : String → Bool) (coin : Coin) : Option (List Coin) :=
  if coin.Amount = 0 then some []
  else if validDenom coin.Denom ∧ 0 < coin.Amount then some [coin]
  else none

/-! ## Ordered key-value store -/

section KV

variable {K V : Type} [LinearOrder K]

/-- Point lookup `store.Get`. -/
def kvGet : List (K × V) → K → Option V
  | [], _ => none
  | (k', v) :: rest, k => if k' = k then some v else kvGet rest k

/-- Upsert `store.Set`: the entries stay ordered by key. -/
def kvSet (k : K) (v : V) : List (K × V) → List (K × V)
  | [] => [(k, v)]
  | (k', v') :: rest =>
    if k = k' then (k, v) :: rest
    else if k < k' then (k, v) :: (k', v') :: rest
    else (k', v') :: kvSet k v rest

/-- Removal `store.Delete`: a no-op when the key is absent. -/
def kvDelete (k : K) : List (K × V) → List (K × V)
  | [] => []
  | (k', v') :: rest => if k = k' then kvDelete k rest else (k', v') :: kvDelete k rest

/-- Well-formed store: the keys are strictly increasing (in particular, distinct). -/
def kvSorted (l : List (K × V)) : Prop := l.Pairwise (fun a b => a.1 < b.1)

end KV

/-! ## Deposits and their store -/

/-- Deposit record `types.Deposit`. -/
structure Deposit where
  CdpID : Nat
  Depositor : AccAddress
  Amount : Coin
deriving DecidableEq

/-- Constructor `types.NewDeposit`. -/
def NewDeposit (cdpID : Nat) (depositor : AccAddress) (amount : Coin) : Deposit :=
  { CdpID := cdpID, Depositor := depositor, Amount := amount }

/-- Modelled from the spec: `types.DepositKey`, the composite key (position ID, depositor) of
the persisted layout, ordered by position ID and then by depositor bytes. -/
def DepositKey (cdpID : Nat) (depositor : AccAddress) : Nat ×ₗ AccAddress :=
  toLex (cdpID, depositor)

/-- The store under the deposit key namespace: (key, record) entries in key order. The codec
is taken to round-trip, so the store holds the records themselves. -/
abbrev DepositStore := List ((Nat ×ₗ AccAddress) × Deposit)

/-- Event types emitted by this file. -/
inductive EventKind where
  | EventTypeCdpDeposit
  | EventTypeCdpWithdrawal
deriving DecidableEq

/-- Event `sdk.Event` with its two attributes: the amount and the position ID. -/
structure Event where
  Kind : EventKind
  Amount : Coin
  CdpID : Nat
deriving DecidableEq

/-- Context `sdk.Context` as seen by this file: the deposit store, the events emitted here,
and the state `ext` owned by the collaborators. -/
structure Ctx (σ : Type) where
  deposits : DepositStore
  events : List Event
  ext : σ

variable {σ : Type}

/-- Ledger lookup `Keeper.GetDeposit`: `none` is `found = false`. -/
def GetDeposit (ctx : Ctx σ) (cdpID : Nat) (depositor : AccAddress) : Option Deposit :=
  kvGet ctx.deposits (DepositKey cdpID depositor)

/-- Ledger upsert `Keeper.SetDeposit`. -/
def SetDeposit (ctx : Ctx σ) (deposit : Deposit) : Ctx σ :=
  { ctx with deposits := kvSet (DepositKey deposit.CdpID deposit.Depositor) deposit ctx.deposits }

/-- Ledger removal `Keeper.DeleteDeposit`. -/
def DeleteDeposit (ctx : Ctx σ) (cdpID : Nat) (depositor : AccAddress) : Ctx σ :=
  { ctx with deposits := kvDelete (DepositKey cdpID depositor) ctx.deposits }

/-- Range scan `sdk.KVStorePrefixIterator` under the bytes of `cdpID`: the records whose key
has position ID `cdpID`, in key order. -/
def KVStorePrefixIterator (store : DepositStore) (cdpID : Nat) : List Deposit :=
  (store.filter (fun kv => (ofLex kv.1).1 = cdpID)).map (fun kv => kv.2)

/-- The loop of `IterateDeposits`: feed the records to the callback until it asks to stop.
The callback's captured variables are the accumulator `acc`. -/
def iterateLoop {α : Type} (cb : α → Deposit → α × Bool) : List Deposit → α → α
  | [], acc => acc
  | deposit :: rest, acc =>
    let r := cb acc deposit
    if r.2 then r.1 else iterateLoop cb rest r.1

/-- Iteration `Keeper.IterateDeposits` over the deposits of one position. -/
def IterateDeposits {α : Type} (ctx : Ctx σ) (cdpID : Nat) (cb : α → Deposit → α × Bool)
    (acc : α) : α :=
  iterateLoop cb (KVStorePrefixIterator ctx.deposits cdpID) acc

/-- Listing `Keeper.GetDeposits`: all the deposits of one position. -/
def GetDeposits (ctx : Ctx σ) (cdpID : Nat) : List Deposit :=
  IterateDeposits ctx cdpID (fun deposits deposit => (deposits ++ [deposit], false)) []

/-- Sum of the amounts of all the deposit records of a position. -/
def totalDeposited (ctx : Ctx σ) (cdpID : Nat) : Int :=
  ((GetDeposits ctx cdpID).map (fun d => d.Amount.Amount)).sum

/-- Well-formed deposit store: keys strictly increasing, and every record stored under the
key made of its own position ID and depositor (what `SetDeposit` writes). -/
def StoreWF (store : DepositStore) : Prop :=
  kvSorted store ∧ ∀ kv ∈ store, kv.1 = DepositKey kv.2.CdpID kv.2.Depositor

/-! ## Positions, errors and collaborators -/

/-- Position `types.CDP`, with the fields read or written by `deposit.go`. -/
structure CDP where
  ID : Nat
  Owner : AccAddress
  Type_ : String
  Collateral : Coin
  Principal : Coin
  AccumulatedFees : Coin
deriving DecidableEq

/-- Total principal `CDP.GetTotalPrincipal`: principal plus accumulated fees. -/
def CDP.GetTotalPrincipal (cdp : CDP) : Option Coin :=
  cdp.Principal.Add cdp.AccumulatedFees

/-- Errors: the four registered errors wrapped by `deposit.go`, and any other error, returned
by a collaborator. -/
inductive Error where
  | ErrCdpNotFound
  | ErrDepositNotFound
  | ErrInvalidWithdrawAmount
  | ErrInvalidCollateralRatio
  | external (code : Nat)
deriving DecidableEq

/-- Outcome of a call: `return nil`, `return err`, or a panic. -/
inductive Result where
  | ok
  | error (err : Error)
  | panic
deriving DecidableEq

/-- The collaborators `deposit.go` calls and does not define, over their own state `σ`:
the keeper's other methods, its hooks and its bank keeper, and `ValidateDenom`, the SDK's
denomination check run by `sdk.NewCoins`. A returned `Option Error` is Go's `error` (`none` is
`nil`). The constant arguments `types.ModuleName` and `spot` are left out. -/
structure Keeper (σ : Type) where
  ValidateDenom : String → Bool
  ValidateCollateral : σ → Coin → String → Option Error
  GetCdpByOwnerAndCollateralType : σ → AccAddress → String → Option CDP
  ValidateBalance : σ → Coin → AccAddress → Option Error
  BeforeCDPModified : σ → CDP → σ
  SynchronizeInterest : σ → CDP → σ × CDP
  SendCoinsFromAccountToModule : σ → AccAddress → List Coin → σ × Option Error
  SendCoinsFromModuleToAccount : σ → AccAddress → List Coin → σ × Option Error
  CalculateCollateralToDebtRatio : σ → Coin → String → Coin → Dec
  CalculateCollateralizationRatio : σ → Coin → String → Coin → Coin → Except Error Dec
  getLiquidationRatio : σ → String → Dec
  UpdateCdpAndCollateralRatioIndex : σ → CDP → Dec → σ × Option Error

/-! ## The two entry points -/

/-- Lines 31-36 of `DepositCollateral`: the record to store, the found deposit with the
collateral added to its amount, or a new deposit; `none` when the addition panics. -/
def addToDeposit (ctx : Ctx σ) (cdpID : Nat) (depositor : AccAddress) (collateral : Coin) :
    Option Deposit :=
  match GetDeposit ctx cdpID depositor with
  | some found => (found.Amount.Add collateral).map (fun a => { found with Amount := a })
  | none => some (NewDeposit cdpID depositor collateral)

/-- Deposit `Keeper.DepositCollateral` (deposit.go, lines 14-56). -/
def DepositCollateral (k : Keeper σ) (ctx : Ctx σ) (owner depositor : AccAddress)
    (collateral : Coin) (collateralType : String) : Ctx σ × Result :=
  match k.ValidateCollateral ctx.ext collateral collateralType with
  | some err => (ctx, Result.error err)
  | none =>
  match k.GetCdpByOwnerAndCollateralType ctx.ext owner collateralType with
  | none => (ctx, Result.error Error.ErrCdpNotFound)
  | some cdp0 =>
  match k.ValidateBalance ctx.ext collateral depositor with
  | some err => (ctx, Result.error err)
  | none =>
  let ctx1 : Ctx σ := { ctx with ext := k.BeforeCDPModified ctx.ext cdp0 }
  let synced := k.SynchronizeInterest ctx1.ext cdp0
  let ctx2 : Ctx σ := { ctx1 with ext := synced.1 }
  let cdp := synced.2
  match addToDeposit ctx2 cdp.ID depositor collateral with
  | none => (ctx2, Result.panic)
  | some deposit =>
  match NewCoins k.ValidateDenom collateral with
  | none => (ctx2, Result.panic)
  | some coins =>
  let sent := k.SendCoinsFromAccountToModule ctx2.ext depositor coins
  let ctx3 : Ctx σ := { ctx2 with ext := sent.1 }
  match sent.2 with
  | some err => (ctx3, Result.error err)
  | none =>
  let ctx4 := SetDeposit ctx3 deposit
  match cdp.Collateral.Add collateral with
  | none => (ctx4, Result.panic)
  | some newCollateral =>
  let cdp : CDP := { cdp with Collateral := newCollateral }
  match cdp.GetTotalPrincipal with
  | none => (ctx4, Result.panic)
  | some totalPrincipal =>
  let collateralToDebtRatio :=
    k.CalculateCollateralToDebtRatio ctx4.ext cdp.Collateral cdp.Type_ totalPrincipal
  let ctx5 : Ctx σ :=
    { ctx4 with events := ctx4.events ++ [Event.mk EventKind.EventTypeCdpDeposit collateral cdp.ID] }
  let updated := k.UpdateCdpAndCollateralRatioIndex ctx5.ext cdp collateralToDebtRatio
  match updated.2 with
  | some err => ({ ctx5 with ext := updated.1 }, Result.error err)
  | none => ({ ctx5 with ext := updated.1 }, Result.ok)

/-- Withdrawal `Keeper.WithdrawCollateral` (deposit.go, lines 59-116). -/
def WithdrawCollateral (k : Keeper σ) (ctx : Ctx σ) (owner depositor : AccAddress)
    (collateral : Coin) (collateralType : String) : Ctx σ × Result :=
  match k.ValidateCollateral ctx.ext collateral collateralType with
  | some err => (ctx, Result.error err)
  | none =>
  match k.GetCdpByOwnerAndCollateralType ctx.ext owner collateralType with
  | none => (ctx, Result.error Error.ErrCdpNotFound)
  | some cdp0 =>
  match GetDeposit ctx cdp0.ID depositor with
  | none => (ctx, Result.error Error.ErrDepositNotFound)
  | some deposit =>
  if collateral.Amount > deposit.Amount.Amount then
    (ctx, Result.error Error.ErrInvalidWithdrawAmount)
  else
  let ctx1 : Ctx σ := { ctx with ext := k.BeforeCDPModified ctx.ext cdp0 }
  let synced := k.SynchronizeInterest ctx1.ext cdp0
  let ctx2 : Ctx σ := { ctx1 with ext := synced.1 }
  let cdp := synced.2
  match cdp.Collateral.Sub collateral with
  | none => (ctx2, Result.panic)
  | some projected =>
  match k.CalculateCollateralizationRatio ctx2.ext projected cdp.Type_ cdp.Principal
      cdp.AccumulatedFees with
  | Except.error err => (ctx2, Result.error err)
  | Except.ok collateralizationRatio =>
  let liquidationRatio := k.getLiquidationRatio ctx2.ext cdp.Type_
  if collateralizationRatio < liquidationRatio then
    (ctx2, Result.error Error.ErrInvalidCollateralRatio)
  else
  match NewCoins k.ValidateDenom collateral with
  | none => (ctx2, Result.panic)
  | some coins =>
  let sent := k.SendCoinsFromModuleToAccount ctx2.ext depositor coins
  let ctx3 : Ctx σ := { ctx2 with ext := sent.1 }
  match sent.2 with
  | some _ => (ctx3, Result.panic)
  | none =>
  match cdp.Collateral.Sub collateral with
  | none => (ctx3, Result.panic)
  | some newCollateral =>
  let cdp : CDP := { cdp with Collateral := newCollateral }
  match cdp.GetTotalPrincipal with
  | none => (ctx3, Result.panic)
  | some totalPrincipal =>
  let collateralToDebtRatio :=
    k.CalculateCollateralToDebtRatio ctx3.ext cdp.Collateral cdp.Type_ totalPrincipal
  let updated := k.UpdateCdpAndCollateralRatioIndex ctx3.ext cdp collateralToDebtRatio
  let ctx4 : Ctx σ := { ctx3 with ext := updated.1 }
  match updated.2 with
  | some err => (ctx4, Result.error err)
  | none =>
  match deposit.Amount.Sub collateral with
  | none => (ctx4, Result.panic)
  | some remaining =>
  let deposit : Deposit := { deposit with Amount := remaining }
  let ctx5 : Ctx σ :=
    if deposit.Amount.IsZero then DeleteDeposit ctx4 deposit.CdpID deposit.Depositor
    else SetDeposit ctx4 deposit
  ({ ctx5 with events := ctx5.events ++ [Event.mk EventKind.EventTypeCdpWithdrawal collateral cdp.ID] },
    Result.ok)

/-! ## Names for intermediate values, and the collaborators' contracts -/

/-- The collaborators' state after the before-modify hook and the interest synchronization
(lines 28-29 and 75-76). -/
def syncedExt (k : Keeper σ) (ext : σ) (cdp0 : CDP) : σ :=
  (k.SynchronizeInterest (k.BeforeCDPModified ext cdp0) cdp0).1

/-- The synchronized position (lines 29 and 76). -/
def syncedCdp (k : Keeper σ) (ext : σ) (cdp0 : CDP) : CDP :=
  (k.SynchronizeInterest (k.BeforeCDPModified ext cdp0) cdp0).2

/-- Contracts of the position collaborators (spec, external interfaces): the lookup returns a
position of the requested owner and type; interest synchronization brings the interest-derived
fields current and leaves identity and collateral alone; a successful update persists the
position it is given. -/
structure Keeper.Lawful (k : Keeper σ) : Prop where
  get_key : ∀ ext owner ctype cdp,
    k.GetCdpByOwnerAndCollateralType ext owner ctype = some cdp →
      cdp.Owner = owner ∧ cdp.Type_ = ctype
  sync_ID : ∀ ext cdp, (k.SynchronizeInterest ext cdp).2.ID = cdp.ID
  sync_Owner : ∀ ext cdp, (k.SynchronizeInterest ext cdp).2.Owner = cdp.Owner
  sync_Type : ∀ ext cdp, (k.SynchronizeInterest ext cdp).2.Type_ = cdp.Type_
  sync_Collateral : ∀ ext cdp, (k.SynchronizeInterest ext cdp).2.Collateral = cdp.Collateral
  update_get : ∀ ext cdp ratio, (k.UpdateCdpAndCollateralRatioIndex ext cdp ratio).2 = none →
    k.GetCdpByOwnerAndCollateralType (k.UpdateCdpAndCollateralRatioIndex ext cdp ratio).1
      cdp.Owner cdp.Type_ = some cdp

/-- The contribution to a sum of the entry stored under `k`, if any. -/
def kvWeight {K V : Type} [LinearOrder K] (f : K × V → Int) (l : List (K × V)) (k : K) : Int :=
  match kvGet l k with
  | some o => f (k, o)
  | none => 0

/-- The amount an entry contributes to the total of position `cdpID`. -/
def amountFor (cdpID : Nat) (kv : (Nat ×ₗ AccAddress) × Deposit) : Int :=
  if (ofLex kv.1).1 = cdpID then kv.2.Amount.Amount else 0

/-! ## A concrete set of collaborators

Used to run the two entry points on concrete inputs. -/

/-- A concrete collaborator state: the stored positions, the account balances and the module
account's balance in the collateral denomination, the interest not yet charged to positions,
the price of one unit of collateral, the liquidation ratio, and the two logs kept by the hook
and by the ratio index. -/
structure World where
  cdps : List CDP
  balances : List (AccAddress × Int)
  moduleBalance : Int
  pendingInterest : Int
  price : Int
  liquidationRatio : Dec
  hookCalls : List Nat
  ratioIndex : List (Nat × Dec)
deriving DecidableEq

/-- Balance of an account: zero when the account has no entry. -/
def World.balance (w : World) (a : AccAddress) : Int :=
  match w.balances.find? (fun p => p.1 = a) with
  | some p => p.2
  | none => 0

/-- Total amount of a coin set. -/
def coinsAmount (coins : List Coin) : Int := (coins.map (fun c => c.Amount)).sum

/-- One unit of `sdk.Dec`: 10^18 of its underlying integer. -/
def decOne : Dec := 1000000000000000000

/-- Collateral value over debt, as a decimal; the largest sortable decimal when there is no
debt. -/
def valueOverDebt (price collateral debt : Int) : Dec :=
  if debt = 0 then decOne * decOne else collateral * price * decOne / debt

/-- Concrete collaborators over `World`. The denomination is `bnb` and the collateral type is
`bnb-a`; `updateFails` makes the position update return an error. -/
def exampleKeeper (updateFails : Bool) : Keeper World where
  ValidateDenom := fun d => d.length ≥ 3
  ValidateCollateral := fun _ c t =>
    if t = "bnb-a" ∧ c.Denom = "bnb" then none else some (Error.external 1)
  GetCdpByOwnerAndCollateralType := fun w o t => w.cdps.find? (fun c => c.Owner = o ∧ c.Type_ = t)
  ValidateBalance := fun w c a => if c.Amount ≤ w.balance a then none else some (Error.external 2)
  BeforeCDPModified := fun w c => { w with hookCalls := w.hookCalls ++ [c.ID] }
  SynchronizeInterest := fun w c =>
    let c' : CDP :=
      { c with AccumulatedFees := { c.AccumulatedFees with
          Amount := c.AccumulatedFees.Amount + w.pendingInterest } }
    ({ w with cdps := c' :: w.cdps.filter (fun x => x.ID ≠ c.ID), pendingInterest := 0 }, c')
  SendCoinsFromAccountToModule := fun w a coins =>
    if w.balance a < coinsAmount coins then (w, some (Error.external 3))
    else
      ({ w with
          balances := (a, w.balance a - coinsAmount coins) :: w.balances.filter (fun p => p.1 ≠ a)
          moduleBalance := w.moduleBalance + coinsAmount coins }, none)
  SendCoinsFromModuleToAccount := fun w a coins =>
    if w.moduleBalance < coinsAmount coins then (w, some (Error.external 4))
    else
      ({ w with
          balances := (a, w.balance a + coinsAmount coins) :: w.balances.filter (fun p => p.1 ≠ a)
          moduleBalance := w.moduleBalance - coinsAmount coins }, none)
  CalculateCollateralToDebtRatio := fun _ c _ debt => valueOverDebt 1 c.Amount debt.Amount
  CalculateCollateralizationRatio := fun w c _ p f =>
    if p.Denom = f.Denom then Except.ok (valueOverDebt w.price c.Amount (p.Amount + f.Amount))
    else Except.error (Error.external 5)
  getLiquidationRatio := fun w _ => w.liquidationRatio
  UpdateCdpAndCollateralRatioIndex := fun w c r =>
    if updateFails then (w, some (Error.external 6))
    else
      ({ w with
          cdps := c :: w.cdps.filter (fun x => x.ID ≠ c.ID)
          ratioIndex := (c.ID, r) :: w.ratioIndex.filter (fun p => p.1 ≠ c.ID) }, none)

/-- The example's owner, who is also its first depositor. -/
def alice : AccAddress := [1]

/-- The example's second depositor. -/
def bob : AccAddress := [2]

/-- The example's position: owned by `alice`, of type `bnb-a`, no collateral, principal 100. -/
def cdp1 : CDP :=
  { ID := 1, Owner := alice, Type_ := "bnb-a", Collateral := ⟨"bnb", 0⟩,
    Principal := ⟨"usdx", 100⟩, AccumulatedFees := ⟨"usdx", 0⟩ }

/-- The example's starting collaborator state: the position of `cdp1`, 1000 units for each of
the two accounts, price 1 and liquidation ratio 1.5. -/
def world0 : World :=
  { cdps := [cdp1], balances := [(alice, 1000), (bob, 1000)], moduleBalance := 0,
    pendingInterest := 0, price := 1, liquidationRatio := 1500000000000000000,
    hookCalls := [], ratioIndex := [] }

/-- The example's starting context: empty ledger, no events. -/
def ctx0 : Ctx World := { deposits := [], events := [], ext := world0 }

/-- A coin of the example's collateral denomination. -/
def bnb (n : Int) : Coin := ⟨"bnb", n⟩

/-! ## Sequences of operations on one position -/

/-- A deposit or a withdrawal by some depositor. -/
inductive Op where
  | deposit (depositor : AccAddress) (collateral : Coin)
  | withdraw (depositor : AccAddress) (collateral : Coin)

/-- Run one operation on the position of `(owner, ctype)`. -/
def applyOp (k : Keeper σ) (owner : AccAddress) (ctype : String) (ctx : Ctx σ) :
    Op → Ctx σ × Result
  | Op.deposit depositor collateral => DepositCollateral k ctx owner depositor collateral ctype
  | Op.withdraw depositor collateral => WithdrawCollateral k ctx owner depositor collateral ctype

/-- Run a sequence of operations, each of which must return `nil`: the final context, or
`none` as soon as one operation fails. -/
def runOps (k : Keeper σ) (owner : AccAddress) (ctype : String) : Ctx σ → List Op → Option (Ctx σ)
  | ctx, [] => some ctx
  | ctx, op :: ops =>
    match applyOp k owner ctype ctx op with
    | (ctx', Result.ok) => runOps k owner ctype ctx' ops
    | _ => none

/-- Conservation for the position `cdpID` of `(owner, ctype)`: the store is well formed and the
amounts of the position's deposit records add up to its aggregate collateral. -/
def Conserved (k : Keeper σ) (owner : AccAddress) (ctype : String) (cdpID : Nat)
    (ctx : Ctx σ) : Prop :=
  StoreWF ctx.deposits ∧
    ∃ cdp, k.GetCdpByOwnerAndCollateralType ctx.ext owner ctype = some cdp ∧ cdp.ID = cdpID ∧
      totalDeposited ctx cdpID = cdp.Collateral.Amount

/-- The example's position once it holds 200 units of collateral. -/
def cdp200 : CDP := { cdp1 with Collateral := bnb 200 }

/-- The example's context after `alice` deposited 200. -/
def ctx1 : Ctx World :=
  { deposits := [(DepositKey 1 alice, ⟨1, alice, bnb 200⟩)]
    events := [⟨EventKind.EventTypeCdpDeposit, bnb 200, 1⟩]
    ext :=
      { world0 with
        cdps := [cdp200]
        balances := [(alice, 800), (bob, 1000)]
        moduleBalance := 200
        hookCalls := [1]
        ratioIndex := [(1, 2000000000000000000)] } }

/-- The example's context after `bob`, who is not the owner, deposited 200. -/
def ctxBob : Ctx World :=
  { deposits := [(DepositKey 1 bob, ⟨1, bob, bnb 200⟩)]
    events := [⟨EventKind.EventTypeCdpDeposit, bnb 200, 1⟩]
    ext :=
      { world0 with
        cdps := [cdp200]
        balances := [(bob, 800), (alice, 1000)]
        moduleBalance := 200
        hookCalls := [1]
        ratioIndex := [(1, 2000000000000000000)] } }

/-- The example's sequence of operations. -/
def exampleOps : List Op :=
  [Op.deposit alice (bnb 200), Op.deposit bob (bnb 50), Op.withdraw alice (bnb 30)]

/-- The example's context after `alice` deposited 200, `bob` deposited 50 and `alice` withdrew
30. -/
def ctx3 : Ctx World :=
  { deposits :=
      [(DepositKey 1 alice, ⟨1, alice, bnb 170⟩), (DepositKey 1 bob, ⟨1, bob, bnb 50⟩)]
    events :=
      [⟨EventKind.EventTypeCdpDeposit, bnb 200, 1⟩, ⟨EventKind.EventTypeCdpDeposit, bnb 50, 1⟩,
        ⟨EventKind.EventTypeCdpWithdrawal, bnb 30, 1⟩]
    ext :=
      { world0 with
        cdps := [{ cdp1 with Collateral := bnb 220 }]
        balances := [(alice, 830), (bob, 950)]
        moduleBalance := 220
        hookCalls := [1, 1, 1]
        ratioIndex := [(1, 2200000000000000000)] } }

/-! ## The position's collateral as read from the state, and the collaborators' frame -/

/-- Aggregate collateral of the position of `(owner, ctype)` in the collaborators' state. -/
def collateralOf (k : Keeper σ) (ext : σ) (owner : AccAddress) (ctype : String) : Option Coin :=
  (k.GetCdpByOwnerAndCollateralType ext owner ctype).map (fun cdp => cdp.Collateral)

/-- Frame contracts of the collaborators: the before-modify hook, the two custody transfers and
a failed position update leave the collateral of every position as it was, and interest
synchronization leaves the collateral of the position it synchronizes as it was. -/
structure Keeper.Framed (k : Keeper σ) : Prop where
  hook_collateral : ∀ ext cdp owner ctype,
    collateralOf k (k.BeforeCDPModified ext cdp) owner ctype = collateralOf k ext owner ctype
  sync_collateral : ∀ ext cdp owner ctype, cdp.Owner = owner → cdp.Type_ = ctype →
    collateralOf k ext owner ctype = some cdp.Collateral →
    collateralOf k (k.SynchronizeInterest ext cdp).1 owner ctype = some cdp.Collateral
  sendIn_collateral : ∀ ext a coins owner ctype,
    collateralOf k (k.SendCoinsFromAccountToModule ext a coins).1 owner ctype
      = collateralOf k ext owner ctype
  sendOut_collateral : ∀ ext a coins owner ctype,
    collateralOf k (k.SendCoinsFromModuleToAccount ext a coins).1 owner ctype
      = collateralOf k ext owner ctype
  update_fail_collateral : ∀ ext cdp ratio owner ctype err,
    (k.UpdateCdpAndCollateralRatioIndex ext cdp ratio).2 = some err →
    collateralOf k (k.UpdateCdpAndCollateralRatioIndex ext cdp ratio).1 owner ctype
      = collateralOf k ext owner ctype

/-! ## More concrete collaborators and contexts -/

/-- The example's collaborators with a balance check that accepts every amount, so that the
transfer to the module account is what fails when the depositor is short. -/
def laxKeeper : Keeper World :=
  { exampleKeeper false with ValidateBalance := fun _ _ _ => none }

/-- The context where `alice` recorded 200 but the module account holds only 10. -/
def ctxShort : Ctx World := { ctx1 with ext := { ctx1.ext with moduleBalance := 10 } }

/-- A position whose fees are kept in another denomination than its principal. -/
def cdpOdd : CDP := { cdp200 with AccumulatedFees := ⟨"fee", 0⟩ }

/-- The context where `alice` recorded 200 on the position `cdpOdd`. -/
def ctxOdd : Ctx World := { ctx1 with ext := { ctx1.ext with cdps := [cdpOdd] } }

/-! ## Counting the position updates -/

/-- The collaborators `k` over a state extended with a log: every call of
`UpdateCdpAndCollateralRatioIndex` appends its two arguments to the log, and nothing else
touches the log. -/
def Keeper.logged (k : Keeper σ) : Keeper (σ × List (CDP × Dec)) where
  ValidateDenom := k.ValidateDenom
  ValidateCollateral := fun e c t => k.ValidateCollateral e.1 c t
  GetCdpByOwnerAndCollateralType := fun e o t => k.GetCdpByOwnerAndCollateralType e.1 o t
  ValidateBalance := fun e c a => k.ValidateBalance e.1 c a
  BeforeCDPModified := fun e c => (k.BeforeCDPModified e.1 c, e.2)
  SynchronizeInterest := fun e c =>
    (((k.SynchronizeInterest e.1 c).1, e.2), (k.SynchronizeInterest e.1 c).2)
  SendCoinsFromAccountToModule := fun e a coins =>
    (((k.SendCoinsFromAccountToModule e.1 a coins).1, e.2),
      (k.SendCoinsFromAccountToModule e.1 a coins).2)
  SendCoinsFromModuleToAccount := fun e a coins =>
    (((k.SendCoinsFromModuleToAccount e.1 a coins).1, e.2),
      (k.SendCoinsFromModuleToAccount e.1 a coins).2)
  CalculateCollateralToDebtRatio := fun e c t d => k.CalculateCollateralToDebtRatio e.1 c t d
  CalculateCollateralizationRatio := fun e c t p f =>
    k.CalculateCollateralizationRatio e.1 c t p f
  getLiquidationRatio := fun e t => k.getLiquidationRatio e.1 t
  UpdateCdpAndCollateralRatioIndex := fun e c r =>
    (((k.UpdateCdpAndCollateralRatioIndex e.1 c r).1, e.2 ++ [(c, r)]),
      (k.UpdateCdpAndCollateralRatioIndex e.1 c r).2)

/-- A context together with a log of position updates. -/
def Ctx.withLog (ctx : Ctx σ) (log : List (CDP × Dec)) : Ctx (σ × List (CDP × Dec)) :=
  { deposits := ctx.deposits, events := ctx.events, ext := (ctx.ext, log) }

/-- The context where the record of `alice` is kept in another denomination than the
position's collateral. -/
def ctxForeign : Ctx World :=
  { ctx1 with deposits := [(DepositKey 1 alice, ⟨1, alice, ⟨"btc", 200⟩⟩)] }

/-- The example's collaborators with a ratio calculation that does not compare the
denominations of principal and fees. -/
def plainRatioKeeper : Keeper World :=
  { exampleKeeper false with
    CalculateCollateralizationRatio := fun w c _ p f =>
      Except.ok (valueOverDebt w.price c.Amount (p.Amount + f.Amount)) }

/-! ## Lemmas on the ordered store -/

section KVLemmas

variable {K V : Type} [LinearOrder K]

theorem kvGet_kvSet_self (k : K) (v : V) (l : List (K × V)) : kvGet (kvSet k v l) k = some v := by
  induction l with
  | nil => simp [kvSet, kvGet]
  | cons hd tl ih =>
    obtain ⟨k', v'⟩ := hd
    by_cases h1 : k = k'
    · simp [kvSet, kvGet, h1]
    · by_cases h2 : k < k'
      · simp [kvSet, kvGet, h1, h2]
      · have h3 : ¬ k' = k := fun h => h1 h.symm
        simp [kvSet, kvGet, h1, h2, h3, ih]

theorem kvGet_kvSet_ne (k k2 : K) (v : V) (l : List (K × V)) (hne : k2 ≠ k) :
    kvGet (kvSet k v l) k2 = kvGet l k2 := by
  have hne2 : ¬ k = k2 := fun h => hne h.symm
  induction l with
  | nil => simp [kvSet, kvGet, hne2]
  | cons hd tl ih =>
    obtain ⟨k', v'⟩ := hd
    by_cases h1 : k = k'
    · subst h1
      simp [kvSet, kvGet, hne2]
    · by_cases h2 : k < k'
      · simp [kvSet, kvGet, h1, h2, hne2]
      · simp only [kvSet, h1, h2, if_false, kvGet, ih]

theorem kvGet_kvDelete_self (k : K) (l : List (K × V)) : kvGet (kvDelete k l) k = none := by
  induction l with
  | nil => simp [kvDelete, kvGet]
  | cons hd tl ih =>
    obtain ⟨k', v'⟩ := hd
    by_cases h1 : k = k'
    · simp [kvDelete, h1] at ih ⊢
      exact ih
    · have h3 : ¬ k' = k := fun h => h1 h.symm
      simp [kvDelete, kvGet, h1, h3, ih]

theorem kvGet_kvDelete_ne (k k2 : K) (l : List (K × V)) (hne : k2 ≠ k) :
    kvGet (kvDelete k l) k2 = kvGet l k2 := by
  induction l with
  | nil => simp [kvDelete, kvGet]
  | cons hd tl ih =>
    obtain ⟨k', v'⟩ := hd
    by_cases h1 : k = k'
    · subst h1
      have h3 : ¬ k = k2 := fun h => hne h.symm
      simp [kvDelete, kvGet, h3, ih]
    · simp only [kvDelete, h1, if_false, kvGet, ih]

theorem mem_of_kvGet {k : K} {v : V} {l : List (K × V)} (h : kvGet l k = some v) :
    (k, v) ∈ l := by
  induction l with
  | nil => simp [kvGet] at h
  | cons hd tl ih =>
    obtain ⟨k', v'⟩ := hd
    by_cases h1 : k' = k
    · simp [kvGet, h1] at h
      simp [h1, h]
    · simp [kvGet, h1] at h
      exact List.mem_cons_of_mem _ (ih h)

theorem mem_kvSet {k : K} {v : V} {l : List (K × V)} {x : K × V} (h : x ∈ kvSet k v l) :
    x = (k, v) ∨ x ∈ l := by
  induction l with
  | nil => simp [kvSet] at h; exact Or.inl h
  | cons hd tl ih =>
    obtain ⟨k', v'⟩ := hd
    by_cases h1 : k = k'
    · simp [kvSet, h1] at h
      rcases h with h | h
      · left; rw [h, h1]
      · right; exact List.mem_cons_of_mem _ h
    · by_cases h2 : k < k'
      · simp only [kvSet, h1, h2, if_false, if_true, List.mem_cons] at h
        rcases h with h | h | h
        · exact Or.inl h
        · right; simp [h]
        · right; exact List.mem_cons_of_mem _ h
      · simp only [kvSet, h1, h2, if_false, List.mem_cons] at h
        rcases h with h | h
        · right; simp [h]
        · rcases ih h with h | h
          · exact Or.inl h
          · right; exact List.mem_cons_of_mem _ h

theorem mem_kvDelete {k : K} {l : List (K × V)} {x : K × V} (h : x ∈ kvDelete k l) :
    x ∈ l ∧ x.1 ≠ k := by
  induction l with
  | nil => simp [kvDelete] at h
  | cons hd tl ih =>
    obtain ⟨k', v'⟩ := hd
    by_cases h1 : k = k'
    · simp only [kvDelete, h1, if_true] at h
      have := ih (by simpa [h1] using h)
      exact ⟨List.mem_cons_of_mem _ this.1, this.2⟩
    · simp only [kvDelete, h1, if_false, List.mem_cons] at h
      rcases h with h | h
      · subst h
        exact ⟨by simp, fun h => h1 h.symm⟩
      · exact ⟨List.mem_cons_of_mem _ (ih h).1, (ih h).2⟩

theorem kvSorted_kvSet (k : K) (v : V) {l : List (K × V)} (hs : kvSorted l) :
    kvSorted (kvSet k v l) := by
  induction l with
  | nil => simp [kvSet, kvSorted]
  | cons hd tl ih =>
    obtain ⟨k', v'⟩ := hd
    have hs' := hs
    unfold kvSorted at hs' ⊢
    rw [List.pairwise_cons] at hs'
    by_cases h1 : k = k'
    · subst h1
      simp only [kvSet, if_true]
      rw [List.pairwise_cons]
      exact ⟨hs'.1, hs'.2⟩
    · by_cases h2 : k < k'
      · simp only [kvSet, h1, h2, if_false, if_true]
        rw [List.pairwise_cons, List.pairwise_cons]
        refine ⟨?_, hs'.1, hs'.2⟩
        intro x hx
        rcases List.mem_cons.mp hx with hx | hx
        · subst hx; exact h2
        · exact lt_trans h2 (hs'.1 x hx)
      · simp only [kvSet, h1, h2, if_false]
        rw [List.pairwise_cons]
        refine ⟨?_, ih hs'.2⟩
        intro x hx
        rcases mem_kvSet hx with hx | hx
        · subst hx
          exact lt_of_le_of_ne (not_lt.mp h2) (fun h => h1 h.symm)
        · exact hs'.1 x hx

theorem kvSorted_kvDelete (k : K) {l : List (K × V)} (hs : kvSorted l) :
    kvSorted (kvDelete k l) := by
  induction l with
  | nil => simp [kvDelete, kvSorted]
  | cons hd tl ih =>
    obtain ⟨k', v'⟩ := hd
    have hs' := hs
    unfold kvSorted at hs' ⊢
    rw [List.pairwise_cons] at hs'
    by_cases h1 : k = k'
    · simp only [kvDelete, h1, if_true]
      have := ih hs'.2
      rw [h1] at this
      exact this
    · simp only [kvDelete, h1, if_false]
      rw [List.pairwise_cons]
      exact ⟨fun x hx => hs'.1 x (mem_kvDelete hx).1, ih hs'.2⟩

/-- In a sorted store no entry after the head carries a key at or below the head's key. -/
theorem kvGet_tail_none {k k' : K} {v' : V} {tl : List (K × V)}
    (hs : kvSorted ((k', v') :: tl)) (hle : k ≤ k') : kvGet tl k = none := by
  unfold kvSorted at hs
  rw [List.pairwise_cons] at hs
  cases hget : kvGet tl k with
  | none => rfl
  | some v =>
    have := hs.1 _ (mem_of_kvGet hget)
    exact absurd (lt_of_lt_of_le this hle) (lt_irrefl _)

end KVLemmas



section Totals

variable {K V : Type} [LinearOrder K]

theorem sum_kvSet (f : K × V → Int) (k : K) (v : V) {l : List (K × V)} (hs : kvSorted l) :
    ((kvSet k v l).map f).sum = (l.map f).sum + f (k, v) - kvWeight f l k := by
  induction l with
  | nil => simp [kvSet, kvWeight, kvGet]
  | cons hd tl ih =>
    obtain ⟨k', v'⟩ := hd
    have htl : kvSorted tl := by
      unfold kvSorted at hs ⊢
      exact (List.pairwise_cons.mp hs).2
    by_cases h1 : k = k'
    · subst h1
      simp only [kvSet, if_true, kvWeight, kvGet, List.map_cons, List.sum_cons]
      ring
    · have h3 : ¬ k' = k := fun h => h1 h.symm
      by_cases h2 : k < k'
      · have hnone : kvGet tl k = none := kvGet_tail_none hs (le_of_lt h2)
        simp only [kvSet, h1, h2, if_false, if_true, kvWeight, kvGet, h3, hnone,
          List.map_cons, List.sum_cons]
        ring
      · have ih' := ih htl
        simp only [kvWeight] at ih'
        simp only [kvSet, h1, h2, if_false, kvWeight, kvGet, h3, List.map_cons, List.sum_cons,
          ih']
        ring

theorem sum_kvDelete (f : K × V → Int) (k : K) {l : List (K × V)} (hs : kvSorted l) :
    ((kvDelete k l).map f).sum = (l.map f).sum - kvWeight f l k := by
  induction l with
  | nil => simp [kvDelete, kvWeight, kvGet]
  | cons hd tl ih =>
    obtain ⟨k', v'⟩ := hd
    have htl : kvSorted tl := by
      unfold kvSorted at hs ⊢
      exact (List.pairwise_cons.mp hs).2
    have ih' := ih htl
    simp only [kvWeight] at ih'
    by_cases h1 : k = k'
    · subst h1
      have hnone : kvGet tl k = none := kvGet_tail_none hs (le_refl _)
      simp only [hnone] at ih'
      simp only [kvDelete, if_true, kvWeight, kvGet, List.map_cons, List.sum_cons, ih']
      ring
    · have h3 : ¬ k' = k := fun h => h1 h.symm
      simp only [kvDelete, h1, if_false, kvWeight, kvGet, h3, List.map_cons, List.sum_cons, ih']
      ring

end Totals

theorem iterateLoop_collect (l acc : List Deposit) :
    iterateLoop (fun deposits deposit => (deposits ++ [deposit], false)) l acc = acc ++ l := by
  induction l generalizing acc with
  | nil => simp [iterateLoop]
  | cons d tl ih => simp [iterateLoop, ih]

theorem GetDeposits_eq (ctx : Ctx σ) (cdpID : Nat) :
    GetDeposits ctx cdpID = KVStorePrefixIterator ctx.deposits cdpID := by
  simp [GetDeposits, IterateDeposits, iterateLoop_collect]

theorem totalDeposited_eq (ctx : Ctx σ) (cdpID : Nat) :
    totalDeposited ctx cdpID = (ctx.deposits.map (amountFor cdpID)).sum := by
  unfold totalDeposited
  rw [GetDeposits_eq]
  unfold KVStorePrefixIterator
  generalize ctx.deposits = l
  induction l with
  | nil => simp
  | cons hd tl ih =>
    by_cases h : (ofLex hd.1).1 = cdpID
    · simp [List.filter_cons, h, amountFor] at ih ⊢
      rw [ih]
    · simp [List.filter_cons, h, amountFor] at ih ⊢
      rw [ih]

/-! ## Inversion of the two entry points -/

/-- A deposit that returns `nil` went through every step: what was checked, and the context it
leaves behind. -/
theorem DepositCollateral_ok_inv {k : Keeper σ} {ctx ctx' : Ctx σ} {owner depositor : AccAddress}
    {collateral : Coin} {ctype : String}
    (h : DepositCollateral k ctx owner depositor collateral ctype = (ctx', Result.ok)) :
    ∃ cdp0 deposit coins newCollateral totalPrincipal,
      k.ValidateCollateral ctx.ext collateral ctype = none ∧
      k.GetCdpByOwnerAndCollateralType ctx.ext owner ctype = some cdp0 ∧
      k.ValidateBalance ctx.ext collateral depositor = none ∧
      addToDeposit ctx (syncedCdp k ctx.ext cdp0).ID depositor collateral = some deposit ∧
      NewCoins k.ValidateDenom collateral = some coins ∧
      (k.SendCoinsFromAccountToModule (syncedExt k ctx.ext cdp0) depositor coins).2 = none ∧
      (syncedCdp k ctx.ext cdp0).Collateral.Add collateral = some newCollateral ∧
      CDP.GetTotalPrincipal { syncedCdp k ctx.ext cdp0 with Collateral := newCollateral }
        = some totalPrincipal ∧
      (k.UpdateCdpAndCollateralRatioIndex
        (k.SendCoinsFromAccountToModule (syncedExt k ctx.ext cdp0) depositor coins).1
        { syncedCdp k ctx.ext cdp0 with Collateral := newCollateral }
        (k.CalculateCollateralToDebtRatio
          (k.SendCoinsFromAccountToModule (syncedExt k ctx.ext cdp0) depositor coins).1
          newCollateral (syncedCdp k ctx.ext cdp0).Type_ totalPrincipal)).2 = none ∧
      ctx' =
        { deposits := kvSet (DepositKey deposit.CdpID deposit.Depositor) deposit ctx.deposits
          events := ctx.events ++
            [Event.mk EventKind.EventTypeCdpDeposit collateral (syncedCdp k ctx.ext cdp0).ID]
          ext := (k.UpdateCdpAndCollateralRatioIndex
            (k.SendCoinsFromAccountToModule (syncedExt k ctx.ext cdp0) depositor coins).1
            { syncedCdp k ctx.ext cdp0 with Collateral := newCollateral }
            (k.CalculateCollateralToDebtRatio
              (k.SendCoinsFromAccountToModule (syncedExt k ctx.ext cdp0) depositor coins).1
              newCollateral (syncedCdp k ctx.ext cdp0).Type_ totalPrincipal)).1 } := by
  unfold DepositCollateral at h
  split at h
  · simp at h
  rename_i hv
  split at h
  · simp at h
  rename_i cdp0 hg
  split at h
  · simp at h
  rename_i hb
  simp only at h
  split at h
  · simp at h
  rename_i deposit hd
  split at h
  · simp at h
  rename_i coins hc
  split at h
  · simp at h
  rename_i hs
  split at h
  · simp at h
  rename_i newCollateral hn
  split at h
  · simp at h
  rename_i total ht
  split at h
  · simp at h
  rename_i hu
  refine ⟨cdp0, deposit, coins, newCollateral, total, hv, hg, hb, hd, hc, hs, hn, ht, hu, ?_⟩
  simp only [Prod.mk.injEq, and_true] at h
  rw [← h]
  rfl

/-- A withdrawal that returns `nil` went through every step: what was checked, and the context
it leaves behind. -/
theorem WithdrawCollateral_ok_inv {k : Keeper σ} {ctx ctx' : Ctx σ}
    {owner depositor : AccAddress} {collateral : Coin} {ctype : String}
    (h : WithdrawCollateral k ctx owner depositor collateral ctype = (ctx', Result.ok)) :
    ∃ cdp0 deposit newCollateral ratio coins totalPrincipal remaining,
      k.ValidateCollateral ctx.ext collateral ctype = none ∧
      k.GetCdpByOwnerAndCollateralType ctx.ext owner ctype = some cdp0 ∧
      GetDeposit ctx cdp0.ID depositor = some deposit ∧
      collateral.Amount ≤ deposit.Amount.Amount ∧
      (syncedCdp k ctx.ext cdp0).Collateral.Sub collateral = some newCollateral ∧
      k.CalculateCollateralizationRatio (syncedExt k ctx.ext cdp0) newCollateral
        (syncedCdp k ctx.ext cdp0).Type_ (syncedCdp k ctx.ext cdp0).Principal
        (syncedCdp k ctx.ext cdp0).AccumulatedFees = Except.ok ratio ∧
      k.getLiquidationRatio (syncedExt k ctx.ext cdp0) (syncedCdp k ctx.ext cdp0).Type_ ≤ ratio ∧
      NewCoins k.ValidateDenom collateral = some coins ∧
      (k.SendCoinsFromModuleToAccount (syncedExt k ctx.ext cdp0) depositor coins).2 = none ∧
      CDP.GetTotalPrincipal { syncedCdp k ctx.ext cdp0 with Collateral := newCollateral }
        = some totalPrincipal ∧
      (k.UpdateCdpAndCollateralRatioIndex
        (k.SendCoinsFromModuleToAccount (syncedExt k ctx.ext cdp0) depositor coins).1
        { syncedCdp k ctx.ext cdp0 with Collateral := newCollateral }
        (k.CalculateCollateralToDebtRatio
          (k.SendCoinsFromModuleToAccount (syncedExt k ctx.ext cdp0) depositor coins).1
          newCollateral (syncedCdp k ctx.ext cdp0).Type_ totalPrincipal)).2 = none ∧
      deposit.Amount.Sub collateral = some remaining ∧
      ctx' =
        { deposits :=
            if remaining.IsZero then
              kvDelete (DepositKey deposit.CdpID deposit.Depositor) ctx.deposits
            else
              kvSet (DepositKey deposit.CdpID deposit.Depositor)
                { deposit with Amount := remaining } ctx.deposits
          events := ctx.events ++
            [Event.mk EventKind.EventTypeCdpWithdrawal collateral (syncedCdp k ctx.ext cdp0).ID]
          ext := (k.UpdateCdpAndCollateralRatioIndex
            (k.SendCoinsFromModuleToAccount (syncedExt k ctx.ext cdp0) depositor coins).1
            { syncedCdp k ctx.ext cdp0 with Collateral := newCollateral }
            (k.CalculateCollateralToDebtRatio
              (k.SendCoinsFromModuleToAccount (syncedExt k ctx.ext cdp0) depositor coins).1
              newCollateral (syncedCdp k ctx.ext cdp0).Type_ totalPrincipal)).1 } := by
  unfold WithdrawCollateral at h
  split at h
  · simp at h
  rename_i hv
  split at h
  · simp at h
  rename_i cdp0 hg
  split at h
  · simp at h
  rename_i deposit hd
  split at h
  · simp at h
  rename_i hle
  simp only at h
  split at h
  · simp at h
  rename_i projected hp
  split at h
  · simp at h
  rename_i ratio hr
  split at h
  · simp at h
  rename_i hliq
  split at h
  · simp at h
  rename_i coins hc
  split at h
  · simp at h
  rename_i hs
  split at h
  · simp at h
  rename_i newCollateral hn
  split at h
  · simp at h
  rename_i total ht
  split at h
  · simp at h
  rename_i hu
  split at h
  · simp at h
  rename_i remaining hrem
  have hpn : projected = newCollateral := Option.some.inj hn
  subst hpn
  refine ⟨cdp0, deposit, projected, ratio, coins, total, remaining, hv, hg, hd, not_lt.mp hle,
    hp, hr, not_lt.mp hliq, hc, hs, ht, hu, hrem, ?_⟩
  simp only [Prod.mk.injEq, and_true] at h
  rw [← h]
  by_cases hz : remaining.IsZero = true
  · simp only [hz, if_true, DeleteDeposit]
    rfl
  · simp only [hz, if_false, SetDeposit]
    rfl

/-! ## The ledger under the two entry points -/

theorem exampleKeeper_lawful : (exampleKeeper false).Lawful where
  get_key := by
    intro ext owner ctype cdp h
    have := List.find?_some h
    simpa using this
  sync_ID := fun _ _ => rfl
  sync_Owner := fun _ _ => rfl
  sync_Type := fun _ _ => rfl
  sync_Collateral := fun _ _ => rfl
  update_get := by
    intro ext cdp ratio _
    simp [exampleKeeper]

theorem Coin.Add_amount {a b c : Coin} (h : a.Add b = some c) :
    c.Amount = a.Amount + b.Amount ∧ c.Denom = a.Denom ∧ a.Denom = b.Denom := by
  unfold Coin.Add at h
  split at h
  · simp at h
  · rename_i hd
    simp only [Option.some.injEq] at h
    subst h
    exact ⟨rfl, rfl, not_not.mp hd⟩

theorem Coin.Sub_amount {a b c : Coin} (h : a.Sub b = some c) :
    c.Amount = a.Amount - b.Amount ∧ c.Denom = a.Denom ∧ a.Denom = b.Denom ∧ 0 ≤ c.Amount := by
  unfold Coin.Sub at h
  split at h
  · simp at h
  · rename_i hd
    simp only at h
    split at h
    · simp at h
    · rename_i hneg
      simp only [Option.some.injEq] at h
      subst h
      exact ⟨rfl, rfl, not_not.mp hd, not_lt.mp hneg⟩

theorem DepositKey_inj {a b : Nat} {x y : AccAddress} (h : DepositKey a x = DepositKey b y) :
    a = b ∧ x = y := by
  unfold DepositKey at h
  have := toLex.injective h
  simpa using this

/-- A record found under a key of a well-formed store carries that key's position ID and
depositor. -/
theorem GetDeposit_fields {ctx : Ctx σ} {cdpID : Nat} {depositor : AccAddress} {d : Deposit}
    (hwf : StoreWF ctx.deposits) (h : GetDeposit ctx cdpID depositor = some d) :
    d.CdpID = cdpID ∧ d.Depositor = depositor := by
  have hmem := mem_of_kvGet h
  have := hwf.2 _ hmem
  simp only at this
  have := DepositKey_inj this
  exact ⟨this.1.symm, this.2.symm⟩

theorem StoreWF_kvSet {store : DepositStore} (hwf : StoreWF store) (d : Deposit) :
    StoreWF (kvSet (DepositKey d.CdpID d.Depositor) d store) := by
  refine ⟨kvSorted_kvSet _ _ hwf.1, ?_⟩
  intro kv hkv
  rcases mem_kvSet hkv with h | h
  · subst h; rfl
  · exact hwf.2 kv h

theorem StoreWF_kvDelete {store : DepositStore} (hwf : StoreWF store) (key : Nat ×ₗ AccAddress) :
    StoreWF (kvDelete key store) :=
  ⟨kvSorted_kvDelete _ hwf.1, fun kv hkv => hwf.2 kv (mem_kvDelete hkv).1⟩

/-- The record written by a deposit is keyed by the position and the depositor. -/
theorem addToDeposit_fields {ctx : Ctx σ} {cdpID : Nat} {depositor : AccAddress}
    {collateral : Coin} {deposit : Deposit} (hwf : StoreWF ctx.deposits)
    (h : addToDeposit ctx cdpID depositor collateral = some deposit) :
    deposit.CdpID = cdpID ∧ deposit.Depositor = depositor := by
  unfold addToDeposit at h
  split at h
  · rename_i found hf
    have hk := GetDeposit_fields hwf hf
    cases hadd : found.Amount.Add collateral with
    | none => simp [hadd] at h
    | some a =>
      simp only [hadd, Option.map_some', Option.some.injEq] at h
      subst h
      exact hk
  · simp only [Option.some.injEq] at h
    subst h
    exact ⟨rfl, rfl⟩

/-- The amount of the record written by a deposit: the amount found, or zero, plus the
collateral. -/
theorem addToDeposit_amount {ctx : Ctx σ} {cdpID : Nat} {depositor : AccAddress}
    {collateral : Coin} {deposit : Deposit}
    (h : addToDeposit ctx cdpID depositor collateral = some deposit) :
    deposit.Amount.Amount =
      (match GetDeposit ctx cdpID depositor with
        | some found => found.Amount.Amount
        | none => 0) + collateral.Amount := by
  unfold addToDeposit at h
  split at h
  · rename_i found hf
    cases hadd : found.Amount.Add collateral with
    | none => simp [hadd] at h
    | some a =>
      simp only [hadd, Option.map_some', Option.some.injEq] at h
      subst h
      simp [(Coin.Add_amount hadd).1]
  · simp only [Option.some.injEq] at h
    subst h
    simp [NewDeposit]

/-- Writing the record of a deposit raises the position's total by the collateral. -/
theorem total_after_deposit {ctx : Ctx σ} {cdpID : Nat} {depositor : AccAddress}
    {collateral : Coin} {deposit : Deposit} (hwf : StoreWF ctx.deposits)
    (h : addToDeposit ctx cdpID depositor collateral = some deposit) (ev : List Event) (ext : σ) :
    totalDeposited
      { deposits := kvSet (DepositKey deposit.CdpID deposit.Depositor) deposit ctx.deposits
        events := ev, ext := ext } cdpID
      = totalDeposited ctx cdpID + collateral.Amount := by
  have hk := addToDeposit_fields hwf h
  have ha := addToDeposit_amount h
  rw [totalDeposited_eq, totalDeposited_eq]
  simp only
  rw [sum_kvSet _ _ _ hwf.1, hk.1, hk.2]
  have h1 : amountFor cdpID (DepositKey cdpID depositor, deposit) = deposit.Amount.Amount := by
    simp [amountFor, DepositKey]
  have h2 : kvWeight (amountFor cdpID) ctx.deposits (DepositKey cdpID depositor)
      = (match GetDeposit ctx cdpID depositor with
          | some found => found.Amount.Amount
          | none => 0) := by
    unfold kvWeight GetDeposit
    cases kvGet ctx.deposits (DepositKey cdpID depositor) with
    | none => rfl
    | some o => simp [amountFor, DepositKey]
  rw [h1, h2, ha]
  ring

/-- Writing the record of a withdrawal lowers the position's total by the collateral. -/
theorem total_after_withdraw {ctx : Ctx σ} {cdpID : Nat} {depositor : AccAddress}
    {collateral remaining : Coin} {deposit : Deposit} (hwf : StoreWF ctx.deposits)
    (hd : GetDeposit ctx cdpID depositor = some deposit)
    (hrem : deposit.Amount.Sub collateral = some remaining) (ev : List Event) (ext : σ) :
    totalDeposited
      { deposits :=
          if remaining.IsZero then
            kvDelete (DepositKey deposit.CdpID deposit.Depositor) ctx.deposits
          else
            kvSet (DepositKey deposit.CdpID deposit.Depositor)
              { deposit with Amount := remaining } ctx.deposits
        events := ev, ext := ext } cdpID
      = totalDeposited ctx cdpID - collateral.Amount := by
  have hk := GetDeposit_fields hwf hd
  have hr := Coin.Sub_amount hrem
  rw [totalDeposited_eq, totalDeposited_eq]
  simp only
  have h2 : kvWeight (amountFor cdpID) ctx.deposits (DepositKey cdpID depositor)
      = deposit.Amount.Amount := by
    unfold kvWeight
    unfold GetDeposit at hd
    rw [hd]
    simp [amountFor, DepositKey]
  by_cases hz : remaining.IsZero = true
  · simp only [hz, if_true]
    rw [sum_kvDelete _ _ hwf.1, hk.1, hk.2, h2]
    have : remaining.Amount = 0 := by simpa [Coin.IsZero] using hz
    have := hr.1
    omega
  · simp only [hz]
    rw [if_neg (by simp), sum_kvSet _ _ _ hwf.1, hk.1, hk.2, h2]
    have h1 : ∀ d : Deposit, amountFor cdpID (DepositKey cdpID depositor, d) = d.Amount.Amount := by
      intro d
      simp [amountFor, DepositKey]
    rw [h1, hr.1]
    ring

/-! ## Conservation -/

/-- The position found after a successful update of the synchronized position with a new
collateral is that position, with the identity of the position found before. -/
theorem persisted_get {k : Keeper σ} (hk : k.Lawful) {ext ext1 : σ} {owner : AccAddress}
    {ctype : String} {cdp0 : CDP} {newCollateral : Coin} {ratio : Dec}
    (hget : k.GetCdpByOwnerAndCollateralType ext owner ctype = some cdp0)
    (hu : (k.UpdateCdpAndCollateralRatioIndex ext1
      { syncedCdp k ext cdp0 with Collateral := newCollateral } ratio).2 = none) :
    k.GetCdpByOwnerAndCollateralType
      (k.UpdateCdpAndCollateralRatioIndex ext1
        { syncedCdp k ext cdp0 with Collateral := newCollateral } ratio).1 owner ctype
      = some { syncedCdp k ext cdp0 with Collateral := newCollateral } := by
  have h := hk.update_get _ _ _ hu
  have e1 : ({ syncedCdp k ext cdp0 with Collateral := newCollateral } : CDP).Owner = owner :=
    (hk.sync_Owner _ _).trans (hk.get_key _ _ _ _ hget).1
  have e2 : ({ syncedCdp k ext cdp0 with Collateral := newCollateral } : CDP).Type_ = ctype :=
    (hk.sync_Type _ _).trans (hk.get_key _ _ _ _ hget).2
  rw [e1, e2] at h
  exact h

theorem deposit_conserved {k : Keeper σ} (hk : k.Lawful) {owner depositor : AccAddress}
    {ctype : String} {cdpID : Nat} {collateral : Coin} {ctx ctx' : Ctx σ}
    (hc : Conserved k owner ctype cdpID ctx)
    (h : DepositCollateral k ctx owner depositor collateral ctype = (ctx', Result.ok)) :
    Conserved k owner ctype cdpID ctx' := by
  obtain ⟨hwf, cdp, hget, hid, htot⟩ := hc
  obtain ⟨cdp0, deposit, coins, newCollateral, total, -, hg, -, hd, -, -, hn, -, hu, hctx⟩ :=
    DepositCollateral_ok_inv h
  rw [hget] at hg
  cases hg
  have hsid : (syncedCdp k ctx.ext cdp).ID = cdpID := (hk.sync_ID _ _).trans hid
  have hscol : (syncedCdp k ctx.ext cdp).Collateral = cdp.Collateral := hk.sync_Collateral _ _
  rw [hsid] at hd
  have hpersist := persisted_get hk hget hu
  subst hctx
  refine ⟨StoreWF_kvSet hwf deposit, _, hpersist, hsid, ?_⟩
  rw [total_after_deposit hwf hd, htot]
  show _ = newCollateral.Amount
  rw [(Coin.Add_amount hn).1, hscol]

theorem withdraw_conserved {k : Keeper σ} (hk : k.Lawful) {owner depositor : AccAddress}
    {ctype : String} {cdpID : Nat} {collateral : Coin} {ctx ctx' : Ctx σ}
    (hc : Conserved k owner ctype cdpID ctx)
    (h : WithdrawCollateral k ctx owner depositor collateral ctype = (ctx', Result.ok)) :
    Conserved k owner ctype cdpID ctx' := by
  obtain ⟨hwf, cdp, hget, hid, htot⟩ := hc
  obtain ⟨cdp0, deposit, newCollateral, ratio, coins, total, remaining, -, hg, hd, -, hn, -, -,
    -, -, -, hu, hrem, hctx⟩ := WithdrawCollateral_ok_inv h
  rw [hget] at hg
  cases hg
  have hsid : (syncedCdp k ctx.ext cdp).ID = cdpID := (hk.sync_ID _ _).trans hid
  have hscol : (syncedCdp k ctx.ext cdp).Collateral = cdp.Collateral := hk.sync_Collateral _ _
  rw [hid] at hd
  have hpersist := persisted_get hk hget hu
  subst hctx
  refine ⟨?_, _, hpersist, hsid, ?_⟩
  · simp only
    split
    · exact StoreWF_kvDelete hwf _
    · exact StoreWF_kvSet hwf { deposit with Amount := remaining }
  · rw [total_after_withdraw hwf hd hrem, htot]
    show _ = newCollateral.Amount
    rw [(Coin.Sub_amount hn).1, hscol]

theorem runOps_conserved {k : Keeper σ} (hk : k.Lawful) {owner : AccAddress} {ctype : String}
    {cdpID : Nat} (ops : List Op) :
    ∀ ctx ctx', Conserved k owner ctype cdpID ctx → runOps k owner ctype ctx ops = some ctx' →
      Conserved k owner ctype cdpID ctx' := by
  induction ops with
  | nil =>
    intro ctx ctx' hc h
    simp only [runOps, Option.some.injEq] at h
    exact h ▸ hc
  | cons op ops ih =>
    intro ctx ctx' hc h
    simp only [runOps] at h
    split at h
    · rename_i ctx1 hstep
      refine ih ctx1 ctx' ?_ h
      cases op with
      | deposit depositor collateral => exact deposit_conserved hk hc hstep
      | withdraw depositor collateral => exact withdraw_conserved hk hc hstep
    · simp at h

/-- C1. Conservation: in a state where the amounts of the deposit records of a position add
up to its aggregate collateral, every deposit or withdrawal on that position that returns
without error leads to a state where they still do; hence so does every sequence of successful
deposits and withdrawals. -/
theorem C1_conservation (k : Keeper σ) (hk : k.Lawful) (owner : AccAddress) (ctype : String)
    (cdpID : Nat) (ctx : Ctx σ) (hc : Conserved k owner ctype cdpID ctx) :
    (∀ depositor collateral ctx',
      (DepositCollateral k ctx owner depositor collateral ctype = (ctx', Result.ok) ∨
        WithdrawCollateral k ctx owner depositor collateral ctype = (ctx', Result.ok)) →
      Conserved k owner ctype cdpID ctx') ∧
    (∀ ops ctx', runOps k owner ctype ctx ops = some ctx' →
      Conserved k owner ctype cdpID ctx') := by
  refine ⟨?_, fun ops ctx' h => runOps_conserved hk ops ctx ctx' hc h⟩
  intro depositor collateral ctx' h
  rcases h with h | h
  · exact deposit_conserved hk hc h
  · exact withdraw_conserved hk hc h

theorem ctx0_conserved : Conserved (exampleKeeper false) alice "bnb-a" 1 ctx0 := by
  refine ⟨⟨?_, ?_⟩, cdp1, rfl, rfl, rfl⟩
  · simp [kvSorted, ctx0]
  · simp [ctx0]

/-- Witness of C1: from the empty position, `alice` deposits 200, `bob` deposits 50 and `alice`
withdraws 30; the three calls succeed and the records add up to the collateral, 220. -/
theorem C1_conservation_witness :
    (exampleKeeper false).Lawful ∧ Conserved (exampleKeeper false) alice "bnb-a" 1 ctx0 ∧
    runOps (exampleKeeper false) alice "bnb-a" ctx0 exampleOps = some ctx3 ∧
    totalDeposited ctx3 1 = 220 ∧
    Conserved (exampleKeeper false) alice "bnb-a" 1 ctx3 :=
  ⟨exampleKeeper_lawful, ctx0_conserved, rfl, by decide,
    (C1_conservation (exampleKeeper false) exampleKeeper_lawful alice "bnb-a" 1 ctx0
      ctx0_conserved).2 exampleOps ctx3 rfl⟩

/-! ## The ratio guard of withdrawals -/

/-- A withdrawal whose four preconditions pass and whose collaborators and coin arithmetic do
not fail is decided by the ratio guard alone. -/
theorem WithdrawCollateral_guard {k : Keeper σ} {ctx : Ctx σ} {owner depositor : AccAddress}
    {collateral : Coin} {ctype : String} {cdp0 : CDP} {deposit : Deposit}
    {projected remaining totalPrincipal : Coin} {ratio : Dec} {coins : List Coin}
    (hv : k.ValidateCollateral ctx.ext collateral ctype = none)
    (hg : k.GetCdpByOwnerAndCollateralType ctx.ext owner ctype = some cdp0)
    (hd : GetDeposit ctx cdp0.ID depositor = some deposit)
    (hle : collateral.Amount ≤ deposit.Amount.Amount)
    (hp : (syncedCdp k ctx.ext cdp0).Collateral.Sub collateral = some projected)
    (hr : k.CalculateCollateralizationRatio (syncedExt k ctx.ext cdp0) projected
      (syncedCdp k ctx.ext cdp0).Type_ (syncedCdp k ctx.ext cdp0).Principal
      (syncedCdp k ctx.ext cdp0).AccumulatedFees = Except.ok ratio)
    (hc : NewCoins k.ValidateDenom collateral = some coins)
    (hs : (k.SendCoinsFromModuleToAccount (syncedExt k ctx.ext cdp0) depositor coins).2 = none)
    (ht : CDP.GetTotalPrincipal { syncedCdp k ctx.ext cdp0 with Collateral := projected }
      = some totalPrincipal)
    (hu : (k.UpdateCdpAndCollateralRatioIndex
      (k.SendCoinsFromModuleToAccount (syncedExt k ctx.ext cdp0) depositor coins).1
      { syncedCdp k ctx.ext cdp0 with Collateral := projected }
      (k.CalculateCollateralToDebtRatio
        (k.SendCoinsFromModuleToAccount (syncedExt k ctx.ext cdp0) depositor coins).1
        projected (syncedCdp k ctx.ext cdp0).Type_ totalPrincipal)).2 = none)
    (hrem : deposit.Amount.Sub collateral = some remaining) :
    WithdrawCollateral k ctx owner depositor collateral ctype =
      if ratio < k.getLiquidationRatio (syncedExt k ctx.ext cdp0) (syncedCdp k ctx.ext cdp0).Type_
      then
        ({ ctx with ext := syncedExt k ctx.ext cdp0 },
          Result.error Error.ErrInvalidCollateralRatio)
      else
        ({ deposits :=
            if remaining.IsZero then
              kvDelete (DepositKey deposit.CdpID deposit.Depositor) ctx.deposits
            else
              kvSet (DepositKey deposit.CdpID deposit.Depositor)
                { deposit with Amount := remaining } ctx.deposits
           events := ctx.events ++
            [Event.mk EventKind.EventTypeCdpWithdrawal collateral (syncedCdp k ctx.ext cdp0).ID]
           ext := (k.UpdateCdpAndCollateralRatioIndex
            (k.SendCoinsFromModuleToAccount (syncedExt k ctx.ext cdp0) depositor coins).1
            { syncedCdp k ctx.ext cdp0 with Collateral := projected }
            (k.CalculateCollateralToDebtRatio
              (k.SendCoinsFromModuleToAccount (syncedExt k ctx.ext cdp0) depositor coins).1
              projected (syncedCdp k ctx.ext cdp0).Type_ totalPrincipal)).1 },
          Result.ok) := by
  unfold syncedCdp syncedExt at *
  unfold WithdrawCollateral
  simp only [hv, hg, hd, not_lt.mpr hle, gt_iff_lt, if_false, hp, hr, hc, hs, ht, hu, hrem]
  split
  · rfl
  · cases hz : remaining.IsZero
    · simp only [Bool.false_eq_true, if_false, SetDeposit]
    · simp only [if_true, DeleteDeposit]

theorem ctx1_reached :
    DepositCollateral (exampleKeeper false) ctx0 alice alice (bnb 200) "bnb-a"
      = (ctx1, Result.ok) := rfl

/-- C2, counterexample. In the context where `alice` recorded 200 on a position holding 200
against a debt of 100, with liquidation ratio 1.5, she asks for -5: the validator accepts, the
position and her record exist, -5 is at most 200, the projected collateral is 205 and its ratio
2.05 is above 1.5, and no collaborator fails; yet the call does not succeed: `sdk.NewCoins`
panics on the negative amount, before any transfer. Two more calls whose projected ratio 1.7
passes the guard and whose collaborators all succeed end in a panic: one because the caller's
record is kept in another denomination than the amount (line 99), one because the position's
fees are kept in another denomination than its principal (line 93). -/
theorem C2_counterexample :
    ((exampleKeeper false).ValidateCollateral ctx1.ext (bnb (-5)) "bnb-a" = none ∧
      (exampleKeeper false).GetCdpByOwnerAndCollateralType ctx1.ext alice "bnb-a" = some cdp200 ∧
      GetDeposit ctx1 cdp200.ID alice = some ⟨1, alice, bnb 200⟩ ∧
      (bnb (-5)).Amount ≤ (bnb 200).Amount ∧
      (syncedCdp (exampleKeeper false) ctx1.ext cdp200).Collateral.Sub (bnb (-5))
        = some (bnb 205) ∧
      (exampleKeeper false).CalculateCollateralizationRatio
        (syncedExt (exampleKeeper false) ctx1.ext cdp200) (bnb 205) "bnb-a" ⟨"usdx", 100⟩
        ⟨"usdx", 0⟩ = Except.ok 2050000000000000000 ∧
      (exampleKeeper false).getLiquidationRatio
        (syncedExt (exampleKeeper false) ctx1.ext cdp200) "bnb-a" = 1500000000000000000 ∧
      WithdrawCollateral (exampleKeeper false) ctx1 alice alice (bnb (-5)) "bnb-a" =
        ({ ctx1 with ext := syncedExt (exampleKeeper false) ctx1.ext cdp200 }, Result.panic)) ∧
    ((exampleKeeper false).GetCdpByOwnerAndCollateralType ctxForeign.ext alice "bnb-a"
        = some cdp200 ∧
      GetDeposit ctxForeign cdp200.ID alice = some ⟨1, alice, ⟨"btc", 200⟩⟩ ∧
      (exampleKeeper false).CalculateCollateralizationRatio
        (syncedExt (exampleKeeper false) ctxForeign.ext cdp200) (bnb 170) "bnb-a" ⟨"usdx", 100⟩
        ⟨"usdx", 0⟩ = Except.ok 1700000000000000000 ∧
      ((exampleKeeper false).SendCoinsFromModuleToAccount
        (syncedExt (exampleKeeper false) ctxForeign.ext cdp200) alice [bnb 30]).2 = none ∧
      (WithdrawCollateral (exampleKeeper false) ctxForeign alice alice (bnb 30) "bnb-a").1.ext.cdps
        = [{ cdp200 with Collateral := bnb 170 }] ∧
      (WithdrawCollateral (exampleKeeper false) ctxForeign alice alice (bnb 30) "bnb-a").2
        = Result.panic) ∧
    (plainRatioKeeper.GetCdpByOwnerAndCollateralType ctxOdd.ext alice "bnb-a" = some cdpOdd ∧
      GetDeposit ctxOdd cdpOdd.ID alice = some ⟨1, alice, bnb 200⟩ ∧
      plainRatioKeeper.CalculateCollateralizationRatio
        (syncedExt plainRatioKeeper ctxOdd.ext cdpOdd) (bnb 170) "bnb-a" ⟨"usdx", 100⟩
        ⟨"fee", 0⟩ = Except.ok 1700000000000000000 ∧
      (plainRatioKeeper.SendCoinsFromModuleToAccount
        (syncedExt plainRatioKeeper ctxOdd.ext cdpOdd) alice [bnb 30]).2 = none ∧
      (WithdrawCollateral plainRatioKeeper ctxOdd alice alice (bnb 30) "bnb-a").1.ext.moduleBalance
        = 170 ∧
      (WithdrawCollateral plainRatioKeeper ctxOdd alice alice (bnb 30) "bnb-a").2
        = Result.panic) := by
  refine ⟨⟨rfl, rfl, rfl, ?_, rfl, rfl, rfl, rfl⟩, ⟨rfl, rfl, rfl, rfl, rfl, rfl⟩,
    ⟨rfl, rfl, rfl, rfl, rfl, rfl⟩⟩
  decide

/-- C2, as amended. Withdrawal ratio guard: when the four preconditions pass, no coin operation
panics (`sdk.NewCoins` accepts the amount, the projected collateral, the total principal and
the reduced deposit amount are defined) and neither the ratio calculation, the custody transfer
nor the re-index fails, the withdrawal
succeeds exactly when the ratio computed from (aggregate collateral - amount, type,
synchronized principal, synchronized fees) is at least the liquidation ratio of the position's
type; strictly below it the call returns `ErrInvalidCollateralRatio`, at equality it is
accepted. After any successful withdrawal the persisted position's ratio is at least its
liquidation ratio. -/
theorem C2_withdraw_ratio_guard (k : Keeper σ) (hk : k.Lawful) (ctx : Ctx σ)
    (owner depositor : AccAddress) (collateral : Coin) (ctype : String) :
    (∀ (cdp0 : CDP) (deposit : Deposit) (projected remaining totalPrincipal : Coin) (ratio : Dec)
        (coins : List Coin),
      k.ValidateCollateral ctx.ext collateral ctype = none →
      k.GetCdpByOwnerAndCollateralType ctx.ext owner ctype = some cdp0 →
      GetDeposit ctx cdp0.ID depositor = some deposit →
      collateral.Amount ≤ deposit.Amount.Amount →
      (syncedCdp k ctx.ext cdp0).Collateral.Sub collateral = some projected →
      k.CalculateCollateralizationRatio (syncedExt k ctx.ext cdp0) projected
        (syncedCdp k ctx.ext cdp0).Type_ (syncedCdp k ctx.ext cdp0).Principal
        (syncedCdp k ctx.ext cdp0).AccumulatedFees = Except.ok ratio →
      NewCoins k.ValidateDenom collateral = some coins →
      (k.SendCoinsFromModuleToAccount (syncedExt k ctx.ext cdp0) depositor coins).2 = none →
      CDP.GetTotalPrincipal { syncedCdp k ctx.ext cdp0 with Collateral := projected }
        = some totalPrincipal →
      (k.UpdateCdpAndCollateralRatioIndex
        (k.SendCoinsFromModuleToAccount (syncedExt k ctx.ext cdp0) depositor coins).1
        { syncedCdp k ctx.ext cdp0 with Collateral := projected }
        (k.CalculateCollateralToDebtRatio
          (k.SendCoinsFromModuleToAccount (syncedExt k ctx.ext cdp0) depositor coins).1
          projected (syncedCdp k ctx.ext cdp0).Type_ totalPrincipal)).2 = none →
      deposit.Amount.Sub collateral = some remaining →
      ((WithdrawCollateral k ctx owner depositor collateral ctype).2 = Result.ok ↔
        k.getLiquidationRatio (syncedExt k ctx.ext cdp0) (syncedCdp k ctx.ext cdp0).Type_
          ≤ ratio) ∧
      (ratio < k.getLiquidationRatio (syncedExt k ctx.ext cdp0) (syncedCdp k ctx.ext cdp0).Type_ →
        WithdrawCollateral k ctx owner depositor collateral ctype =
          ({ ctx with ext := syncedExt k ctx.ext cdp0 },
            Result.error Error.ErrInvalidCollateralRatio)) ∧
      (ratio = k.getLiquidationRatio (syncedExt k ctx.ext cdp0) (syncedCdp k ctx.ext cdp0).Type_ →
        (WithdrawCollateral k ctx owner depositor collateral ctype).2 = Result.ok)) ∧
    (∀ ctx', WithdrawCollateral k ctx owner depositor collateral ctype = (ctx', Result.ok) →
      ∃ cdp0 cdp' ratio,
        k.GetCdpByOwnerAndCollateralType ctx.ext owner ctype = some cdp0 ∧
        k.GetCdpByOwnerAndCollateralType ctx'.ext owner ctype = some cdp' ∧
        k.CalculateCollateralizationRatio (syncedExt k ctx.ext cdp0) cdp'.Collateral cdp'.Type_
          cdp'.Principal cdp'.AccumulatedFees = Except.ok ratio ∧
        k.getLiquidationRatio (syncedExt k ctx.ext cdp0) cdp'.Type_ ≤ ratio) := by
  constructor
  · intro cdp0 deposit projected remaining totalPrincipal ratio coins hv hg hd hle hp hr hc hs ht
      hu hrem
    have heval := WithdrawCollateral_guard hv hg hd hle hp hr hc hs ht hu hrem
    refine ⟨?_, ?_, ?_⟩
    · rw [heval]
      split
      · rename_i hlt
        simp [not_le.mpr hlt]
      · rename_i hnlt
        simp [not_lt.mp hnlt]
    · intro hlt
      rw [heval, if_pos hlt]
    · intro heq
      rw [heval, if_neg (by rw [heq]; exact lt_irrefl _)]
  · intro ctx' h
    obtain ⟨cdp0, deposit, newCollateral, ratio, coins, total, remaining, -, hg, -, -, -, hr, hl,
      -, -, -, hu, -, hctx⟩ := WithdrawCollateral_ok_inv h
    refine ⟨cdp0, { syncedCdp k ctx.ext cdp0 with Collateral := newCollateral }, ratio, hg, ?_,
      hr, hl⟩
    subst hctx
    exact persisted_get hk hg hu

/-- Witness of C2, at the boundary: the position holds 200 against a debt of 100 with
liquidation ratio 1.5. Withdrawing 50 projects a ratio of exactly 1.5 and is accepted;
withdrawing 51 projects 1.49 and is rejected with `ErrInvalidCollateralRatio`. -/
theorem C2_withdraw_ratio_guard_witness :
    (exampleKeeper false).Lawful ∧
    (exampleKeeper false).getLiquidationRatio
      (syncedExt (exampleKeeper false) ctx1.ext cdp200) "bnb-a" = 1500000000000000000 ∧
    (exampleKeeper false).CalculateCollateralizationRatio
      (syncedExt (exampleKeeper false) ctx1.ext cdp200) (bnb 150) "bnb-a" ⟨"usdx", 100⟩
      ⟨"usdx", 0⟩ = Except.ok 1500000000000000000 ∧
    (WithdrawCollateral (exampleKeeper false) ctx1 alice alice (bnb 50) "bnb-a").2 = Result.ok ∧
    (exampleKeeper false).CalculateCollateralizationRatio
      (syncedExt (exampleKeeper false) ctx1.ext cdp200) (bnb 149) "bnb-a" ⟨"usdx", 100⟩
      ⟨"usdx", 0⟩ = Except.ok 1490000000000000000 ∧
    WithdrawCollateral (exampleKeeper false) ctx1 alice alice (bnb 51) "bnb-a" =
      ({ ctx1 with ext := syncedExt (exampleKeeper false) ctx1.ext cdp200 },
        Result.error Error.ErrInvalidCollateralRatio) :=
  ⟨exampleKeeper_lawful, rfl, rfl,
    ((C2_withdraw_ratio_guard (exampleKeeper false) exampleKeeper_lawful ctx1 alice alice (bnb 50)
      "bnb-a").1 cdp200 ⟨1, alice, bnb 200⟩ (bnb 150) (bnb 150) ⟨"usdx", 100⟩
      1500000000000000000 [bnb 50] rfl rfl rfl (by decide) rfl rfl rfl rfl rfl rfl rfl).2.2 rfl,
    rfl,
    ((C2_withdraw_ratio_guard (exampleKeeper false) exampleKeeper_lawful ctx1 alice alice (bnb 51)
      "bnb-a").1 cdp200 ⟨1, alice, bnb 200⟩ (bnb 149) (bnb 149) ⟨"usdx", 100⟩
      1490000000000000000 [bnb 51] rfl rfl rfl (by decide) rfl rfl rfl rfl rfl rfl rfl).2.1
      (by decide)⟩

/-! ## Preconditions of withdrawals -/

/-- C3. Withdrawal ceiling: with valid collateral, an existing position and an existing
deposit record of the caller, a withdrawal of strictly more than the recorded amount fails
with `ErrInvalidWithdrawAmount` and leaves the whole context unchanged, whatever the position's
aggregate collateral and whatever the ratio guard would have decided. -/
theorem C3_withdraw_ceiling (k : Keeper σ) (ctx : Ctx σ) (owner depositor : AccAddress)
    (collateral : Coin) (ctype : String) (cdp0 : CDP) (deposit : Deposit)
    (hv : k.ValidateCollateral ctx.ext collateral ctype = none)
    (hg : k.GetCdpByOwnerAndCollateralType ctx.ext owner ctype = some cdp0)
    (hd : GetDeposit ctx cdp0.ID depositor = some deposit)
    (hgt : deposit.Amount.Amount < collateral.Amount) :
    WithdrawCollateral k ctx owner depositor collateral ctype =
      (ctx, Result.error Error.ErrInvalidWithdrawAmount) := by
  unfold WithdrawCollateral
  simp only [hv, hg, hd, gt_iff_lt, hgt, if_true]

theorem ctxBob_reached :
    DepositCollateral (exampleKeeper false) ctx0 alice bob (bnb 200) "bnb-a"
      = (ctxBob, Result.ok) := rfl

/-- Witness of C3: `bob` recorded 50 on a position holding 220; his withdrawal of 60 is
refused, although the position holds more and 160 would still cover the liquidation ratio. -/
theorem C3_withdraw_ceiling_witness :
    GetDeposit ctx3 1 bob = some ⟨1, bob, bnb 50⟩ ∧
    (exampleKeeper false).GetCdpByOwnerAndCollateralType ctx3.ext alice "bnb-a"
      = some { cdp1 with Collateral := bnb 220 } ∧
    (exampleKeeper false).CalculateCollateralizationRatio ctx3.ext (bnb 160) "bnb-a"
      ⟨"usdx", 100⟩ ⟨"usdx", 0⟩ = Except.ok 1600000000000000000 ∧
    WithdrawCollateral (exampleKeeper false) ctx3 alice bob (bnb 60) "bnb-a" =
      (ctx3, Result.error Error.ErrInvalidWithdrawAmount) :=
  ⟨rfl, rfl, rfl,
    C3_withdraw_ceiling (exampleKeeper false) ctx3 alice bob (bnb 60) "bnb-a"
      { cdp1 with Collateral := bnb 220 } ⟨1, bob, bnb 50⟩ rfl rfl rfl (by decide)⟩

/-- C7. Withdrawal is keyed to the calling depositor: with valid collateral and an existing
position, a withdrawal by a depositor who has no deposit record on the position fails with
`ErrDepositNotFound` and leaves the whole context unchanged, whoever the depositor is and
whatever the other depositors recorded. -/
theorem C7_withdraw_keyed_to_depositor (k : Keeper σ) (ctx : Ctx σ) (owner depositor : AccAddress)
    (collateral : Coin) (ctype : String) (cdp0 : CDP)
    (hv : k.ValidateCollateral ctx.ext collateral ctype = none)
    (hg : k.GetCdpByOwnerAndCollateralType ctx.ext owner ctype = some cdp0)
    (hd : GetDeposit ctx cdp0.ID depositor = none) :
    WithdrawCollateral k ctx owner depositor collateral ctype =
      (ctx, Result.error Error.ErrDepositNotFound) := by
  unfold WithdrawCollateral
  simp only [hv, hg, hd]

/-- Witness of C7: `bob` recorded 200 on the position of `alice`; `alice`, the owner, has no
record, and her withdrawal of 30 fails although the position holds 200. -/
theorem C7_withdraw_keyed_to_depositor_witness :
    GetDeposit ctxBob 1 bob = some ⟨1, bob, bnb 200⟩ ∧
    GetDeposit ctxBob 1 alice = none ∧
    (exampleKeeper false).GetCdpByOwnerAndCollateralType ctxBob.ext alice "bnb-a" = some cdp200 ∧
    cdp200.Owner = alice ∧
    WithdrawCollateral (exampleKeeper false) ctxBob alice alice (bnb 30) "bnb-a" =
      (ctxBob, Result.error Error.ErrDepositNotFound) :=
  ⟨rfl, rfl, rfl, rfl,
    C7_withdraw_keyed_to_depositor (exampleKeeper false) ctxBob alice alice (bnb 30) "bnb-a"
      cdp200 rfl rfl rfl⟩

theorem ctx3_conserved : Conserved (exampleKeeper false) alice "bnb-a" 1 ctx3 :=
  runOps_conserved exampleKeeper_lawful exampleOps ctx0 ctx3 ctx0_conserved rfl

/-- C5. Full withdrawal deletes the record: after a successful withdrawal of exactly the
recorded amount the lookup of the caller's record reports not-found; after a successful
withdrawal of strictly less, the record is kept with the reduced amount. -/
theorem C5_full_withdrawal_deletes (k : Keeper σ) (ctx ctx' : Ctx σ)
    (owner depositor : AccAddress) (collateral : Coin) (ctype : String) (cdp0 : CDP)
    (deposit : Deposit) (hwf : StoreWF ctx.deposits)
    (hg : k.GetCdpByOwnerAndCollateralType ctx.ext owner ctype = some cdp0)
    (hd : GetDeposit ctx cdp0.ID depositor = some deposit)
    (h : WithdrawCollateral k ctx owner depositor collateral ctype = (ctx', Result.ok)) :
    (collateral.Amount = deposit.Amount.Amount → GetDeposit ctx' cdp0.ID depositor = none) ∧
    (collateral.Amount < deposit.Amount.Amount →
      GetDeposit ctx' cdp0.ID depositor =
        some { deposit with
          Amount := ⟨deposit.Amount.Denom, deposit.Amount.Amount - collateral.Amount⟩ }) := by
  obtain ⟨cdp0', deposit', newCollateral, ratio, coins, total, remaining, -, hg', hd', -, -, -,
    -, -, -, -, -, hrem, hctx⟩ := WithdrawCollateral_ok_inv h
  rw [hg] at hg'
  cases hg'
  rw [hd] at hd'
  cases hd'
  have hk := GetDeposit_fields hwf hd
  have hr := Coin.Sub_amount hrem
  have hrem' : remaining = ⟨deposit.Amount.Denom, deposit.Amount.Amount - collateral.Amount⟩ := by
    cases remaining
    simp only [Coin.mk.injEq]
    exact ⟨hr.2.1, hr.1⟩
  subst hctx
  unfold GetDeposit
  simp only [hk.1, hk.2]
  constructor
  · intro heq
    have hz : remaining.IsZero = true := by
      simp [Coin.IsZero, hr.1, heq]
    rw [if_pos hz]
    exact kvGet_kvDelete_self _ _
  · intro hlt
    have hz : ¬ remaining.IsZero = true := by
      simp only [Coin.IsZero, hr.1, beq_iff_eq]
      omega
    rw [if_neg hz, kvGet_kvSet_self, hrem']

/-- Witness of C5: from the context where `alice` recorded 170 and `bob` 50, `bob` withdraws
his 50 and his record is gone; `alice` withdraws 20 and her record is kept with 150. -/
theorem C5_full_withdrawal_deletes_witness :
    (WithdrawCollateral (exampleKeeper false) ctx3 alice bob (bnb 50) "bnb-a").2 = Result.ok ∧
    GetDeposit (WithdrawCollateral (exampleKeeper false) ctx3 alice bob (bnb 50) "bnb-a").1 1 bob
      = none ∧
    (WithdrawCollateral (exampleKeeper false) ctx3 alice alice (bnb 20) "bnb-a").2 = Result.ok ∧
    GetDeposit (WithdrawCollateral (exampleKeeper false) ctx3 alice alice (bnb 20) "bnb-a").1
      1 alice = some ⟨1, alice, bnb 150⟩ :=
  ⟨rfl,
    (C5_full_withdrawal_deletes (exampleKeeper false) ctx3 _ alice bob (bnb 50) "bnb-a"
      { cdp1 with Collateral := bnb 220 } ⟨1, bob, bnb 50⟩
      ctx3_conserved.1 rfl rfl rfl).1 rfl,
    rfl,
    (C5_full_withdrawal_deletes (exampleKeeper false) ctx3 _ alice alice (bnb 20) "bnb-a"
      { cdp1 with Collateral := bnb 220 } ⟨1, alice, bnb 170⟩
      ctx3_conserved.1 rfl rfl rfl).2 (by decide)⟩

/-! ## Repeated deposits -/

/-- The record written by a deposit, spelled out. -/
theorem addToDeposit_eq {ctx : Ctx σ} {cdpID : Nat} {depositor : AccAddress}
    {collateral : Coin} {deposit : Deposit}
    (h : addToDeposit ctx cdpID depositor collateral = some deposit) :
    (∃ found, GetDeposit ctx cdpID depositor = some found ∧
        found.Amount.Denom = collateral.Denom ∧
        deposit = { found with
          Amount := ⟨found.Amount.Denom, found.Amount.Amount + collateral.Amount⟩ }) ∨
      (GetDeposit ctx cdpID depositor = none ∧ deposit = ⟨cdpID, depositor, collateral⟩) := by
  unfold addToDeposit at h
  split at h
  · rename_i found hf
    left
    cases hadd : found.Amount.Add collateral with
    | none => simp [hadd] at h
    | some a =>
      simp only [hadd, Option.map_some', Option.some.injEq] at h
      have ha := Coin.Add_amount hadd
      refine ⟨found, hf, ha.2.2, ?_⟩
      rw [← h]
      cases a
      simp only [Coin.mk.injEq, Deposit.mk.injEq, true_and] at ha ⊢
      exact ⟨ha.2.1, ha.1⟩
  · rename_i hnone
    right
    simp only [Option.some.injEq] at h
    exact ⟨hnone, h.symm⟩

/-- C6. Additive re-deposit: two successive successful deposits of `a` then `b` by the same
depositor leave the same deposit record, and the same aggregate collateral on the position, as
one successful deposit of `a + b` from the same starting state. -/
theorem C6_additive_redeposit (k : Keeper σ) (hk : k.Lawful) (ctx ctxA ctxAB ctxSum : Ctx σ)
    (owner depositor : AccAddress) (a b ab : Coin) (ctype : String)
    (hwf : StoreWF ctx.deposits) (hab : a.Add b = some ab)
    (h1 : DepositCollateral k ctx owner depositor a ctype = (ctxA, Result.ok))
    (h2 : DepositCollateral k ctxA owner depositor b ctype = (ctxAB, Result.ok))
    (h3 : DepositCollateral k ctx owner depositor ab ctype = (ctxSum, Result.ok)) :
    ∃ cdp0 deposit cdpAB cdpSum,
      k.GetCdpByOwnerAndCollateralType ctx.ext owner ctype = some cdp0 ∧
      GetDeposit ctxAB cdp0.ID depositor = some deposit ∧
      GetDeposit ctxSum cdp0.ID depositor = some deposit ∧
      k.GetCdpByOwnerAndCollateralType ctxAB.ext owner ctype = some cdpAB ∧
      k.GetCdpByOwnerAndCollateralType ctxSum.ext owner ctype = some cdpSum ∧
      cdpAB.Collateral = cdpSum.Collateral := by
  obtain ⟨cdp0, d1, coins1, nc1, t1, -, hg1, -, hd1, -, -, hn1, -, hu1, hctx1⟩ :=
    DepositCollateral_ok_inv h1
  obtain ⟨cdpA, d2, coins2, nc2, t2, -, hg2, -, hd2, -, -, hn2, -, hu2, hctx2⟩ :=
    DepositCollateral_ok_inv h2
  obtain ⟨cdp0', d3, coins3, nc3, t3, -, hg3, -, hd3, -, -, hn3, -, hu3, hctx3⟩ :=
    DepositCollateral_ok_inv h3
  rw [hg1] at hg3
  cases hg3
  -- the position found by the second call is the one persisted by the first
  have hpA : k.GetCdpByOwnerAndCollateralType ctxA.ext owner ctype
      = some { syncedCdp k ctx.ext cdp0 with Collateral := nc1 } := by
    rw [hctx1]
    exact persisted_get hk hg1 hu1
  rw [hg2] at hpA
  have hcdpA : cdpA = { syncedCdp k ctx.ext cdp0 with Collateral := nc1 } := Option.some.inj hpA
  -- identities and collateral across synchronization
  have hid0 : (syncedCdp k ctx.ext cdp0).ID = cdp0.ID := hk.sync_ID _ _
  have hidA : (syncedCdp k ctxA.ext cdpA).ID = cdp0.ID := by
    rw [show (syncedCdp k ctxA.ext cdpA).ID = cdpA.ID from hk.sync_ID _ _, hcdpA]
    exact hid0
  have hcol0 : (syncedCdp k ctx.ext cdp0).Collateral = cdp0.Collateral := hk.sync_Collateral _ _
  have hcolA : (syncedCdp k ctxA.ext cdpA).Collateral = nc1 := by
    rw [show (syncedCdp k ctxA.ext cdpA).Collateral = cdpA.Collateral
      from hk.sync_Collateral _ _, hcdpA]
  rw [hid0] at hd1 hd3
  rw [hidA] at hd2
  rw [hcol0] at hn1 hn3
  rw [hcolA] at hn2
  -- the persisted positions
  have hpAB : k.GetCdpByOwnerAndCollateralType ctxAB.ext owner ctype
      = some { syncedCdp k ctxA.ext cdpA with Collateral := nc2 } := by
    rw [hctx2]
    exact persisted_get hk hg2 hu2
  have hpSum : k.GetCdpByOwnerAndCollateralType ctxSum.ext owner ctype
      = some { syncedCdp k ctx.ext cdp0 with Collateral := nc3 } := by
    rw [hctx3]
    exact persisted_get hk hg1 hu3
  -- keys of the written records
  have hk1 := addToDeposit_fields hwf hd1
  have hwfA : StoreWF ctxA.deposits := by
    rw [hctx1]
    exact StoreWF_kvSet hwf d1
  have hk2 := addToDeposit_fields hwfA hd2
  have hk3 := addToDeposit_fields hwf hd3
  -- what the second call finds is what the first wrote
  have hfoundA : GetDeposit ctxA cdp0.ID depositor = some d1 := by
    unfold GetDeposit
    rw [hctx1]
    simp only
    rw [hk1.1, hk1.2]
    exact kvGet_kvSet_self _ _ _
  have hgetAB : GetDeposit ctxAB cdp0.ID depositor = some d2 := by
    unfold GetDeposit
    rw [hctx2]
    simp only
    rw [hk2.1, hk2.2]
    exact kvGet_kvSet_self _ _ _
  have hgetSum : GetDeposit ctxSum cdp0.ID depositor = some d3 := by
    unfold GetDeposit
    rw [hctx3]
    simp only
    rw [hk3.1, hk3.2]
    exact kvGet_kvSet_self _ _ _
  have habm := Coin.Add_amount hab
  -- the two records agree
  have hrec : d2 = d3 := by
    rcases addToDeposit_eq hd2 with ⟨f2, hf2, -, e2⟩ | ⟨hnone, -⟩
    · rw [hfoundA] at hf2
      cases hf2
      rcases addToDeposit_eq hd1 with ⟨f1, hf1, -, e1⟩ | ⟨hn1', e1⟩
      · rcases addToDeposit_eq hd3 with ⟨f3, hf3, -, e3⟩ | ⟨hn3', -⟩
        · rw [hf1] at hf3
          cases hf3
          rw [e2, e3, e1]
          simp only [Deposit.mk.injEq, Coin.mk.injEq, true_and]
          rw [habm.1]
          ring
        · rw [hf1] at hn3'
          cases hn3'
      · rcases addToDeposit_eq hd3 with ⟨f3, hf3, -, -⟩ | ⟨-, e3⟩
        · rw [hn1'] at hf3
          cases hf3
        · rw [e2, e3, e1]
          cases ab
          simp only [Deposit.mk.injEq, Coin.mk.injEq, true_and] at habm ⊢
          exact ⟨habm.2.1.symm, habm.1.symm⟩
    · rw [hfoundA] at hnone
      cases hnone
  -- the two collaterals agree
  have hcol : nc2 = nc3 := by
    have m1 := Coin.Add_amount hn1
    have m2 := Coin.Add_amount hn2
    have m3 := Coin.Add_amount hn3
    cases nc2
    cases nc3
    simp only [Coin.mk.injEq] at m2 m3 ⊢
    refine ⟨?_, ?_⟩
    · rw [m2.2.1, m3.2.1, m1.2.1]
    · rw [m2.1, m3.1, m1.1, habm.1]
      ring
  refine ⟨cdp0, d2, _, _, hg1, hgetAB, hrec ▸ hgetSum, hpAB, hpSum, ?_⟩
  exact hcol

/-- Witness of C6: from the empty position, `alice` deposits 200 and then 50, or 250 at once;
either way her record and the position's collateral are 250. -/
theorem C6_additive_redeposit_witness :
    (exampleKeeper false).Lawful ∧ StoreWF ctx0.deposits ∧ (bnb 200).Add (bnb 50) = some (bnb 250) ∧
    GetDeposit (DepositCollateral (exampleKeeper false) ctx1 alice alice (bnb 50) "bnb-a").1
      1 alice = some ⟨1, alice, bnb 250⟩ ∧
    ∃ cdp0 deposit cdpAB cdpSum,
      (exampleKeeper false).GetCdpByOwnerAndCollateralType ctx0.ext alice "bnb-a" = some cdp0 ∧
      GetDeposit (DepositCollateral (exampleKeeper false) ctx1 alice alice (bnb 50) "bnb-a").1
        cdp0.ID alice = some deposit ∧
      GetDeposit (DepositCollateral (exampleKeeper false) ctx0 alice alice (bnb 250) "bnb-a").1
        cdp0.ID alice = some deposit ∧
      (exampleKeeper false).GetCdpByOwnerAndCollateralType
        (DepositCollateral (exampleKeeper false) ctx1 alice alice (bnb 50) "bnb-a").1.ext
        alice "bnb-a" = some cdpAB ∧
      (exampleKeeper false).GetCdpByOwnerAndCollateralType
        (DepositCollateral (exampleKeeper false) ctx0 alice alice (bnb 250) "bnb-a").1.ext
        alice "bnb-a" = some cdpSum ∧
      cdpAB.Collateral = cdpSum.Collateral :=
  ⟨exampleKeeper_lawful, ctx0_conserved.1, rfl, rfl,
    C6_additive_redeposit (exampleKeeper false) exampleKeeper_lawful ctx0 ctx1 _ _ alice alice
      (bnb 200) (bnb 50) (bnb 250) "bnb-a" ctx0_conserved.1 rfl rfl rfl rfl⟩

/-! ## Calls that return an error -/

/-- A deposit that returns an error stopped at one of five places: the validator, the position
lookup, the balance check, the custody transfer, or the final update of the position. -/
theorem DepositCollateral_error_inv {k : Keeper σ} {ctx ctx' : Ctx σ}
    {owner depositor : AccAddress} {collateral : Coin} {ctype : String} {err : Error}
    (h : DepositCollateral k ctx owner depositor collateral ctype = (ctx', Result.error err)) :
    (ctx' = ctx ∧
      (k.ValidateCollateral ctx.ext collateral ctype = some err ∨
        (k.GetCdpByOwnerAndCollateralType ctx.ext owner ctype = none ∧
          err = Error.ErrCdpNotFound) ∨
        k.ValidateBalance ctx.ext collateral depositor = some err)) ∨
    (∃ cdp0 coins,
      k.GetCdpByOwnerAndCollateralType ctx.ext owner ctype = some cdp0 ∧
      NewCoins k.ValidateDenom collateral = some coins ∧
      (k.SendCoinsFromAccountToModule (syncedExt k ctx.ext cdp0) depositor coins).2 = some err ∧
      ctx' = { ctx with
        ext := (k.SendCoinsFromAccountToModule (syncedExt k ctx.ext cdp0) depositor coins).1 }) ∨
    (∃ cdp0 deposit coins newCollateral totalPrincipal,
      k.GetCdpByOwnerAndCollateralType ctx.ext owner ctype = some cdp0 ∧
      addToDeposit ctx (syncedCdp k ctx.ext cdp0).ID depositor collateral = some deposit ∧
      NewCoins k.ValidateDenom collateral = some coins ∧
      (k.SendCoinsFromAccountToModule (syncedExt k ctx.ext cdp0) depositor coins).2 = none ∧
      (syncedCdp k ctx.ext cdp0).Collateral.Add collateral = some newCollateral ∧
      CDP.GetTotalPrincipal { syncedCdp k ctx.ext cdp0 with Collateral := newCollateral }
        = some totalPrincipal ∧
      (k.UpdateCdpAndCollateralRatioIndex
        (k.SendCoinsFromAccountToModule (syncedExt k ctx.ext cdp0) depositor coins).1
        { syncedCdp k ctx.ext cdp0 with Collateral := newCollateral }
        (k.CalculateCollateralToDebtRatio
          (k.SendCoinsFromAccountToModule (syncedExt k ctx.ext cdp0) depositor coins).1
          newCollateral (syncedCdp k ctx.ext cdp0).Type_ totalPrincipal)).2 = some err ∧
      ctx' =
        { deposits := kvSet (DepositKey deposit.CdpID deposit.Depositor) deposit ctx.deposits
          events := ctx.events ++
            [Event.mk EventKind.EventTypeCdpDeposit collateral (syncedCdp k ctx.ext cdp0).ID]
          ext := (k.UpdateCdpAndCollateralRatioIndex
            (k.SendCoinsFromAccountToModule (syncedExt k ctx.ext cdp0) depositor coins).1
            { syncedCdp k ctx.ext cdp0 with Collateral := newCollateral }
            (k.CalculateCollateralToDebtRatio
              (k.SendCoinsFromAccountToModule (syncedExt k ctx.ext cdp0) depositor coins).1
              newCollateral (syncedCdp k ctx.ext cdp0).Type_ totalPrincipal)).1 }) := by
  unfold DepositCollateral at h
  split at h
  · rename_i e hv
    simp only [Prod.mk.injEq, Result.error.injEq] at h
    left
    exact ⟨h.1.symm, Or.inl (h.2 ▸ hv)⟩
  rename_i hv
  split at h
  · rename_i hg
    simp only [Prod.mk.injEq, Result.error.injEq] at h
    left
    exact ⟨h.1.symm, Or.inr (Or.inl ⟨hg, h.2.symm⟩)⟩
  rename_i cdp0 hg
  split at h
  · rename_i e hb
    simp only [Prod.mk.injEq, Result.error.injEq] at h
    left
    exact ⟨h.1.symm, Or.inr (Or.inr (h.2 ▸ hb))⟩
  rename_i hb
  simp only at h
  split at h
  · simp at h
  rename_i deposit hd
  split at h
  · simp at h
  rename_i coins hc
  split at h
  · rename_i e hs
    simp only [Prod.mk.injEq, Result.error.injEq] at h
    right; left
    exact ⟨cdp0, coins, hg, hc, h.2 ▸ hs, h.1.symm⟩
  rename_i hs
  split at h
  · simp at h
  rename_i newCollateral hn
  split at h
  · simp at h
  rename_i total ht
  split at h
  · rename_i e hu
    simp only [Prod.mk.injEq, Result.error.injEq] at h
    right; right
    exact ⟨cdp0, deposit, coins, newCollateral, total, hg, hd, hc, hs, hn, ht, h.2 ▸ hu,
      h.1.symm⟩
  · simp at h

/-- A withdrawal that returns an error stopped at one of seven places: the validator, the
position lookup, the deposit lookup, the ceiling check, the ratio calculation, the ratio guard,
or the update of the position. -/
theorem WithdrawCollateral_error_inv {k : Keeper σ} {ctx ctx' : Ctx σ}
    {owner depositor : AccAddress} {collateral : Coin} {ctype : String} {err : Error}
    (h : WithdrawCollateral k ctx owner depositor collateral ctype = (ctx', Result.error err)) :
    (ctx' = ctx ∧
      (k.ValidateCollateral ctx.ext collateral ctype = some err ∨
        (k.GetCdpByOwnerAndCollateralType ctx.ext owner ctype = none ∧
          err = Error.ErrCdpNotFound) ∨
        (∃ cdp0, k.GetCdpByOwnerAndCollateralType ctx.ext owner ctype = some cdp0 ∧
          GetDeposit ctx cdp0.ID depositor = none ∧ err = Error.ErrDepositNotFound) ∨
        (∃ cdp0 deposit, k.GetCdpByOwnerAndCollateralType ctx.ext owner ctype = some cdp0 ∧
          GetDeposit ctx cdp0.ID depositor = some deposit ∧
          deposit.Amount.Amount < collateral.Amount ∧ err = Error.ErrInvalidWithdrawAmount))) ∨
    (∃ cdp0 projected,
      k.GetCdpByOwnerAndCollateralType ctx.ext owner ctype = some cdp0 ∧
      (syncedCdp k ctx.ext cdp0).Collateral.Sub collateral = some projected ∧
      ctx' = { ctx with ext := syncedExt k ctx.ext cdp0 } ∧
      (k.CalculateCollateralizationRatio (syncedExt k ctx.ext cdp0) projected
          (syncedCdp k ctx.ext cdp0).Type_ (syncedCdp k ctx.ext cdp0).Principal
          (syncedCdp k ctx.ext cdp0).AccumulatedFees = Except.error err ∨
        ∃ ratio, k.CalculateCollateralizationRatio (syncedExt k ctx.ext cdp0) projected
          (syncedCdp k ctx.ext cdp0).Type_ (syncedCdp k ctx.ext cdp0).Principal
          (syncedCdp k ctx.ext cdp0).AccumulatedFees = Except.ok ratio ∧
          ratio < k.getLiquidationRatio (syncedExt k ctx.ext cdp0)
            (syncedCdp k ctx.ext cdp0).Type_ ∧
          err = Error.ErrInvalidCollateralRatio)) ∨
    (∃ cdp0 coins newCollateral totalPrincipal,
      k.GetCdpByOwnerAndCollateralType ctx.ext owner ctype = some cdp0 ∧
      NewCoins k.ValidateDenom collateral = some coins ∧
      (k.SendCoinsFromModuleToAccount (syncedExt k ctx.ext cdp0) depositor coins).2 = none ∧
      (syncedCdp k ctx.ext cdp0).Collateral.Sub collateral = some newCollateral ∧
      CDP.GetTotalPrincipal { syncedCdp k ctx.ext cdp0 with Collateral := newCollateral }
        = some totalPrincipal ∧
      (k.UpdateCdpAndCollateralRatioIndex
        (k.SendCoinsFromModuleToAccount (syncedExt k ctx.ext cdp0) depositor coins).1
        { syncedCdp k ctx.ext cdp0 with Collateral := newCollateral }
        (k.CalculateCollateralToDebtRatio
          (k.SendCoinsFromModuleToAccount (syncedExt k ctx.ext cdp0) depositor coins).1
          newCollateral (syncedCdp k ctx.ext cdp0).Type_ totalPrincipal)).2 = some err ∧
      ctx' = { ctx with
        ext := (k.UpdateCdpAndCollateralRatioIndex
          (k.SendCoinsFromModuleToAccount (syncedExt k ctx.ext cdp0) depositor coins).1
          { syncedCdp k ctx.ext cdp0 with Collateral := newCollateral }
          (k.CalculateCollateralToDebtRatio
            (k.SendCoinsFromModuleToAccount (syncedExt k ctx.ext cdp0) depositor coins).1
            newCollateral (syncedCdp k ctx.ext cdp0).Type_ totalPrincipal)).1 }) := by
  unfold WithdrawCollateral at h
  split at h
  · rename_i e hv
    simp only [Prod.mk.injEq, Result.error.injEq] at h
    left
    exact ⟨h.1.symm, Or.inl (h.2 ▸ hv)⟩
  rename_i hv
  split at h
  · rename_i hg
    simp only [Prod.mk.injEq, Result.error.injEq] at h
    left
    exact ⟨h.1.symm, Or.inr (Or.inl ⟨hg, h.2.symm⟩)⟩
  rename_i cdp0 hg
  split at h
  · rename_i hd
    simp only [Prod.mk.injEq, Result.error.injEq] at h
    left
    exact ⟨h.1.symm, Or.inr (Or.inr (Or.inl ⟨cdp0, hg, hd, h.2.symm⟩))⟩
  rename_i deposit hd
  split at h
  · rename_i hgt
    simp only [Prod.mk.injEq, Result.error.injEq] at h
    left
    exact ⟨h.1.symm, Or.inr (Or.inr (Or.inr ⟨cdp0, deposit, hg, hd, hgt, h.2.symm⟩))⟩
  rename_i hle
  simp only at h
  split at h
  · simp at h
  rename_i projected hp
  split at h
  · rename_i e hr
    simp only [Prod.mk.injEq, Result.error.injEq] at h
    right; left
    exact ⟨cdp0, projected, hg, hp, h.1.symm, Or.inl (h.2 ▸ hr)⟩
  rename_i ratio hr
  split at h
  · rename_i hlt
    simp only [Prod.mk.injEq, Result.error.injEq] at h
    right; left
    exact ⟨cdp0, projected, hg, hp, h.1.symm, Or.inr ⟨ratio, hr, hlt, h.2.symm⟩⟩
  rename_i hliq
  split at h
  · simp at h
  rename_i coins hc
  split at h
  · simp at h
  rename_i hs
  split at h
  · simp at h
  rename_i newCollateral hn
  split at h
  · simp at h
  rename_i total ht
  split at h
  · rename_i e hu
    simp only [Prod.mk.injEq, Result.error.injEq] at h
    have hpn : projected = newCollateral := Option.some.inj hn
    subst hpn
    right; right
    exact ⟨cdp0, coins, projected, total, hg, hc, hs, hp, ht, h.2 ▸ hu, h.1.symm⟩
  rename_i hu
  split at h
  · simp at h
  · simp at h

/-! ## The ledger after a call, whatever its outcome -/

/-- The ledger after a deposit, whatever the outcome: untouched, or the ledger with the one
record of lines 31-36 written. -/
theorem DepositCollateral_deposits (k : Keeper σ) (ctx : Ctx σ) (owner depositor : AccAddress)
    (collateral : Coin) (ctype : String) :
    (DepositCollateral k ctx owner depositor collateral ctype).1.deposits = ctx.deposits ∨
    ∃ cdp0 deposit coins,
      k.GetCdpByOwnerAndCollateralType ctx.ext owner ctype = some cdp0 ∧
      addToDeposit ctx (syncedCdp k ctx.ext cdp0).ID depositor collateral = some deposit ∧
      NewCoins k.ValidateDenom collateral = some coins ∧
      (DepositCollateral k ctx owner depositor collateral ctype).1.deposits
        = kvSet (DepositKey deposit.CdpID deposit.Depositor) deposit ctx.deposits := by
  unfold DepositCollateral
  split
  · exact Or.inl rfl
  split
  · exact Or.inl rfl
  rename_i cdp0 hg
  split
  · exact Or.inl rfl
  simp only
  split
  · exact Or.inl rfl
  rename_i deposit hd
  split
  · exact Or.inl rfl
  rename_i coins hc
  split
  · exact Or.inl rfl
  refine Or.inr ⟨cdp0, deposit, coins, hg, hd, hc, ?_⟩
  split
  · rfl
  split
  · rfl
  split <;> rfl

/-- The ledger after a withdrawal, whatever the outcome: untouched, or, when the call returned
`nil`, the ledger with the caller's record reduced or deleted. -/
theorem WithdrawCollateral_deposits (k : Keeper σ) (ctx : Ctx σ) (owner depositor : AccAddress)
    (collateral : Coin) (ctype : String) :
    (WithdrawCollateral k ctx owner depositor collateral ctype).1.deposits = ctx.deposits ∨
    ∃ cdp0 deposit remaining,
      k.GetCdpByOwnerAndCollateralType ctx.ext owner ctype = some cdp0 ∧
      GetDeposit ctx cdp0.ID depositor = some deposit ∧
      deposit.Amount.Sub collateral = some remaining ∧
      (WithdrawCollateral k ctx owner depositor collateral ctype).2 = Result.ok ∧
      (WithdrawCollateral k ctx owner depositor collateral ctype).1.deposits =
        if remaining.IsZero then
          kvDelete (DepositKey deposit.CdpID deposit.Depositor) ctx.deposits
        else
          kvSet (DepositKey deposit.CdpID deposit.Depositor)
            { deposit with Amount := remaining } ctx.deposits := by
  unfold WithdrawCollateral
  split
  · exact Or.inl rfl
  split
  · exact Or.inl rfl
  rename_i cdp0 hg
  split
  · exact Or.inl rfl
  rename_i deposit hd
  split
  · exact Or.inl rfl
  simp only
  split
  · exact Or.inl rfl
  split
  · exact Or.inl rfl
  split
  · exact Or.inl rfl
  split
  · exact Or.inl rfl
  split
  · exact Or.inl rfl
  split
  · exact Or.inl rfl
  split
  · exact Or.inl rfl
  split
  · exact Or.inl rfl
  split
  · exact Or.inl rfl
  rename_i remaining hrem
  refine Or.inr ⟨cdp0, deposit, remaining, hg, hd, hrem, rfl, ?_⟩
  cases hz : remaining.IsZero
  · simp only [hz, Bool.false_eq_true, if_false, SetDeposit]
  · simp only [hz, if_true, DeleteDeposit]

/-- Every stored deposit record has a strictly positive amount. -/
theorem deposits_stay_positive (k : Keeper σ) (ctx : Ctx σ) (owner depositor : AccAddress)
    (collateral : Coin) (ctype : String)
    (hpos : ∀ kv ∈ ctx.deposits, 0 < kv.2.Amount.Amount) :
    (collateral.Amount ≠ 0 →
      ∀ kv ∈ (DepositCollateral k ctx owner depositor collateral ctype).1.deposits,
        0 < kv.2.Amount.Amount) ∧
    (∀ kv ∈ (WithdrawCollateral k ctx owner depositor collateral ctype).1.deposits,
      0 < kv.2.Amount.Amount) := by
  constructor
  · intro hne kv hkv
    rcases DepositCollateral_deposits k ctx owner depositor collateral ctype with
      h | ⟨cdp0, deposit, coins, -, hd, hc, h⟩
    · rw [h] at hkv
      exact hpos kv hkv
    · rw [h] at hkv
      rcases mem_kvSet hkv with hkv | hkv
      · subst hkv
        have hcpos : 0 < collateral.Amount := by
          unfold NewCoins at hc
          rw [if_neg hne] at hc
          split at hc
          · rename_i hv
            exact hv.2
          · simp at hc
        have ha := addToDeposit_amount hd
        simp only
        rw [ha]
        cases hfound : GetDeposit ctx (syncedCdp k ctx.ext cdp0).ID depositor with
        | none => simpa using hcpos
        | some found =>
          have := hpos _ (mem_of_kvGet hfound)
          simp only at this ⊢
          omega
      · exact hpos kv hkv
  · intro kv hkv
    rcases WithdrawCollateral_deposits k ctx owner depositor collateral ctype with
      h | ⟨cdp0, deposit, remaining, -, hd, hrem, -, h⟩
    · rw [h] at hkv
      exact hpos kv hkv
    · rw [h] at hkv
      have hr := Coin.Sub_amount hrem
      by_cases hz : remaining.IsZero = true
      · rw [if_pos hz] at hkv
        exact hpos kv (mem_kvDelete hkv).1
      · rw [if_neg hz] at hkv
        rcases mem_kvSet hkv with hkv | hkv
        · subst hkv
          simp only [Coin.IsZero, beq_iff_eq] at hz
          simp only
          omega
        · exact hpos kv hkv

/-- C8, counterexample. The position update fails after `alice` sent 200: the call returns the
update's error, and her deposit record, absent before the call, is in the ledger. The
position's aggregate collateral is as before. -/
theorem C8_counterexample :
    (DepositCollateral (exampleKeeper true) ctx0 alice alice (bnb 200) "bnb-a").2
      = Result.error (Error.external 6) ∧
    GetDeposit ctx0 1 alice = none ∧
    GetDeposit (DepositCollateral (exampleKeeper true) ctx0 alice alice (bnb 200) "bnb-a").1
      1 alice = some ⟨1, alice, bnb 200⟩ ∧
    (DepositCollateral (exampleKeeper true) ctx0 alice alice (bnb 200) "bnb-a").1.deposits
      ≠ ctx0.deposits ∧
    collateralOf (exampleKeeper true)
      (DepositCollateral (exampleKeeper true) ctx0 alice alice (bnb 200) "bnb-a").1.ext
      alice "bnb-a" = collateralOf (exampleKeeper true) ctx0.ext alice "bnb-a" := by
  refine ⟨rfl, rfl, rfl, ?_, rfl⟩
  decide

/-- C10, at the failing input. The position update fails: the deposit returns the update's
error, and the `cdp_deposit` event has been emitted. -/
theorem C10_event_on_failed_deposit :
    (DepositCollateral (exampleKeeper true) ctx0 alice alice (bnb 200) "bnb-a").2
      = Result.error (Error.external 6) ∧
    ctx0.events = [] ∧
    (DepositCollateral (exampleKeeper true) ctx0 alice alice (bnb 200) "bnb-a").1.events
      = [⟨EventKind.EventTypeCdpDeposit, bnb 200, 1⟩] :=
  ⟨rfl, rfl, rfl⟩

/-- C4, at the failing input. Every stored record is positive, the validator accepts a zero
amount, `bob` deposits zero: the call succeeds and a record of amount zero is stored. -/
theorem C4_zero_deposit_persisted :
    (∀ kv ∈ ctx1.deposits, 0 < kv.2.Amount.Amount) ∧
    (exampleKeeper false).ValidateCollateral ctx1.ext (bnb 0) "bnb-a" = none ∧
    (DepositCollateral (exampleKeeper false) ctx1 alice bob (bnb 0) "bnb-a").2 = Result.ok ∧
    GetDeposit (DepositCollateral (exampleKeeper false) ctx1 alice bob (bnb 0) "bnb-a").1 1 bob
      = some ⟨1, bob, bnb 0⟩ := by
  refine ⟨?_, rfl, rfl, rfl⟩
  decide

/-! ## Order of the checks -/

/-- C11. Deposit validation order: a deposit refused by the collateral validator returns the
validator's error whatever the position and the balance; otherwise, without a position for
(owner, type), it returns `ErrCdpNotFound` whatever the balance; otherwise, when the balance
check fails, it returns that check's error. In the three cases the context is returned as it
was (nothing written to the ledger or the position, no event), and the outcome is the same
whatever the before-modify hook and the custody transfer are: they are not invoked. -/
theorem C11_deposit_validation_order (k : Keeper σ) (ctx : Ctx σ) (owner depositor : AccAddress)
    (collateral : Coin) (ctype : String) :
    (∀ err, k.ValidateCollateral ctx.ext collateral ctype = some err →
      DepositCollateral k ctx owner depositor collateral ctype = (ctx, Result.error err) ∧
      ∀ hook send,
        DepositCollateral
          { k with BeforeCDPModified := hook, SendCoinsFromAccountToModule := send }
          ctx owner depositor collateral ctype = (ctx, Result.error err)) ∧
    (k.ValidateCollateral ctx.ext collateral ctype = none →
      k.GetCdpByOwnerAndCollateralType ctx.ext owner ctype = none →
      DepositCollateral k ctx owner depositor collateral ctype
        = (ctx, Result.error Error.ErrCdpNotFound) ∧
      ∀ hook send,
        DepositCollateral
          { k with BeforeCDPModified := hook, SendCoinsFromAccountToModule := send }
          ctx owner depositor collateral ctype = (ctx, Result.error Error.ErrCdpNotFound)) ∧
    (∀ cdp0 err, k.ValidateCollateral ctx.ext collateral ctype = none →
      k.GetCdpByOwnerAndCollateralType ctx.ext owner ctype = some cdp0 →
      k.ValidateBalance ctx.ext collateral depositor = some err →
      DepositCollateral k ctx owner depositor collateral ctype = (ctx, Result.error err) ∧
      ∀ hook send,
        DepositCollateral
          { k with BeforeCDPModified := hook, SendCoinsFromAccountToModule := send }
          ctx owner depositor collateral ctype = (ctx, Result.error err)) := by
  refine ⟨?_, ?_, ?_⟩
  · intro err hv
    constructor
    · unfold DepositCollateral
      simp only [hv]
    · intro hook send
      unfold DepositCollateral
      simp only [hv]
  · intro hv hg
    constructor
    · unfold DepositCollateral
      simp only [hv, hg]
    · intro hook send
      unfold DepositCollateral
      simp only [hv, hg]
  · intro cdp0 err hv hg hb
    constructor
    · unfold DepositCollateral
      simp only [hv, hg, hb]
    · intro hook send
      unfold DepositCollateral
      simp only [hv, hg, hb]

/-- Witness of C11, in the context where `alice` recorded 200: a deposit of an unknown
denomination is refused by the validator; a deposit into the position of `bob`, who has none,
returns `ErrCdpNotFound`; a deposit of 5000 by `alice`, who holds 800, is refused by the
balance check. Each call returns the context as it was. -/
theorem C11_deposit_validation_order_witness :
    DepositCollateral (exampleKeeper false) ctx1 alice alice ⟨"btc", 5⟩ "bnb-a"
      = (ctx1, Result.error (Error.external 1)) ∧
    DepositCollateral (exampleKeeper false) ctx1 bob alice (bnb 5) "bnb-a"
      = (ctx1, Result.error Error.ErrCdpNotFound) ∧
    DepositCollateral (exampleKeeper false) ctx1 alice alice (bnb 5000) "bnb-a"
      = (ctx1, Result.error (Error.external 2)) :=
  ⟨((C11_deposit_validation_order (exampleKeeper false) ctx1 alice alice ⟨"btc", 5⟩ "bnb-a").1
      (Error.external 1) rfl).1,
    ((C11_deposit_validation_order (exampleKeeper false) ctx1 bob alice (bnb 5) "bnb-a").2.1
      rfl rfl).1,
    ((C11_deposit_validation_order (exampleKeeper false) ctx1 alice alice (bnb 5000)
      "bnb-a").2.2 cdp200 (Error.external 2) rfl rfl rfl).1⟩

/-- C19. Withdraw precondition order: the reported error is that of the first failing check,
in the order collateral validator, `ErrCdpNotFound`, `ErrDepositNotFound`,
`ErrInvalidWithdrawAmount`, and then, once the hook and the interest synchronization have run
and the projected collateral is defined, ratio-calculation error and
`ErrInvalidCollateralRatio`. When one of the first four checks fails the context is returned as
it was, whatever the before-modify hook and the interest synchronization are: they are not
invoked. -/
theorem C19_withdraw_precondition_order (k : Keeper σ) (ctx : Ctx σ)
    (owner depositor : AccAddress) (collateral : Coin) (ctype : String) :
    (∀ err, k.ValidateCollateral ctx.ext collateral ctype = some err →
      ∀ hook sync,
        WithdrawCollateral k ctx owner depositor collateral ctype = (ctx, Result.error err) ∧
        WithdrawCollateral { k with BeforeCDPModified := hook, SynchronizeInterest := sync }
          ctx owner depositor collateral ctype = (ctx, Result.error err)) ∧
    (k.ValidateCollateral ctx.ext collateral ctype = none →
      k.GetCdpByOwnerAndCollateralType ctx.ext owner ctype = none →
      ∀ hook sync,
        WithdrawCollateral k ctx owner depositor collateral ctype
          = (ctx, Result.error Error.ErrCdpNotFound) ∧
        WithdrawCollateral { k with BeforeCDPModified := hook, SynchronizeInterest := sync }
          ctx owner depositor collateral ctype = (ctx, Result.error Error.ErrCdpNotFound)) ∧
    (∀ cdp0, k.ValidateCollateral ctx.ext collateral ctype = none →
      k.GetCdpByOwnerAndCollateralType ctx.ext owner ctype = some cdp0 →
      GetDeposit ctx cdp0.ID depositor = none →
      ∀ hook sync,
        WithdrawCollateral k ctx owner depositor collateral ctype
          = (ctx, Result.error Error.ErrDepositNotFound) ∧
        WithdrawCollateral { k with BeforeCDPModified := hook, SynchronizeInterest := sync }
          ctx owner depositor collateral ctype = (ctx, Result.error Error.ErrDepositNotFound)) ∧
    (∀ cdp0 deposit, k.ValidateCollateral ctx.ext collateral ctype = none →
      k.GetCdpByOwnerAndCollateralType ctx.ext owner ctype = some cdp0 →
      GetDeposit ctx cdp0.ID depositor = some deposit →
      deposit.Amount.Amount < collateral.Amount →
      ∀ hook sync,
        WithdrawCollateral k ctx owner depositor collateral ctype
          = (ctx, Result.error Error.ErrInvalidWithdrawAmount) ∧
        WithdrawCollateral { k with BeforeCDPModified := hook, SynchronizeInterest := sync }
          ctx owner depositor collateral ctype
          = (ctx, Result.error Error.ErrInvalidWithdrawAmount)) ∧
    (∀ cdp0 deposit projected err, k.ValidateCollateral ctx.ext collateral ctype = none →
      k.GetCdpByOwnerAndCollateralType ctx.ext owner ctype = some cdp0 →
      GetDeposit ctx cdp0.ID depositor = some deposit →
      collateral.Amount ≤ deposit.Amount.Amount →
      (syncedCdp k ctx.ext cdp0).Collateral.Sub collateral = some projected →
      k.CalculateCollateralizationRatio (syncedExt k ctx.ext cdp0) projected
        (syncedCdp k ctx.ext cdp0).Type_ (syncedCdp k ctx.ext cdp0).Principal
        (syncedCdp k ctx.ext cdp0).AccumulatedFees = Except.error err →
      WithdrawCollateral k ctx owner depositor collateral ctype
        = ({ ctx with ext := syncedExt k ctx.ext cdp0 }, Result.error err)) ∧
    (∀ cdp0 deposit projected ratio, k.ValidateCollateral ctx.ext collateral ctype = none →
      k.GetCdpByOwnerAndCollateralType ctx.ext owner ctype = some cdp0 →
      GetDeposit ctx cdp0.ID depositor = some deposit →
      collateral.Amount ≤ deposit.Amount.Amount →
      (syncedCdp k ctx.ext cdp0).Collateral.Sub collateral = some projected →
      k.CalculateCollateralizationRatio (syncedExt k ctx.ext cdp0) projected
        (syncedCdp k ctx.ext cdp0).Type_ (syncedCdp k ctx.ext cdp0).Principal
        (syncedCdp k ctx.ext cdp0).AccumulatedFees = Except.ok ratio →
      ratio < k.getLiquidationRatio (syncedExt k ctx.ext cdp0) (syncedCdp k ctx.ext cdp0).Type_ →
      WithdrawCollateral k ctx owner depositor collateral ctype
        = ({ ctx with ext := syncedExt k ctx.ext cdp0 },
            Result.error Error.ErrInvalidCollateralRatio)) := by
  refine ⟨?_, ?_, ?_, ?_, ?_, ?_⟩
  · intro err hv hook sync
    constructor <;>
    · unfold WithdrawCollateral
      simp only [hv]
  · intro hv hg hook sync
    constructor <;>
    · unfold WithdrawCollateral
      simp only [hv, hg]
  · intro cdp0 hv hg hd hook sync
    constructor <;>
    · unfold WithdrawCollateral
      simp only [hv, hg, hd]
  · intro cdp0 deposit hv hg hd hgt hook sync
    constructor <;>
    · unfold WithdrawCollateral
      simp only [hv, hg, hd, gt_iff_lt, hgt, if_true]
  · intro cdp0 deposit projected err hv hg hd hle hp hr
    unfold syncedCdp syncedExt at *
    unfold WithdrawCollateral
    simp only [hv, hg, hd, gt_iff_lt, not_lt.mpr hle, if_false, hp, hr]
  · intro cdp0 deposit projected ratio hv hg hd hle hp hr hlt
    unfold syncedCdp syncedExt at *
    unfold WithdrawCollateral
    simp only [hv, hg, hd, gt_iff_lt, not_lt.mpr hle, if_false, hp, hr, hlt, if_true]

/-- Witness of C19. In the context where `alice` recorded 200: an unknown denomination is
refused by the validator; a withdrawal from the position of `bob`, who has none, returns
`ErrCdpNotFound`; `bob`, who has no record, gets `ErrDepositNotFound`; `alice` asking for 300
gets `ErrInvalidWithdrawAmount`, although 300 would also breach the ratio; the four calls
return the context as it was. Asking for 70 she gets `ErrInvalidCollateralRatio`, after the
hook has run. On a position whose fees and principal have different denominations the ratio
calculation fails, and its error is returned. -/
theorem C19_withdraw_precondition_order_witness :
    WithdrawCollateral (exampleKeeper false) ctx1 alice alice ⟨"btc", 5⟩ "bnb-a"
      = (ctx1, Result.error (Error.external 1)) ∧
    WithdrawCollateral (exampleKeeper false) ctx1 bob alice (bnb 5) "bnb-a"
      = (ctx1, Result.error Error.ErrCdpNotFound) ∧
    WithdrawCollateral (exampleKeeper false) ctx1 alice bob (bnb 5) "bnb-a"
      = (ctx1, Result.error Error.ErrDepositNotFound) ∧
    WithdrawCollateral (exampleKeeper false) ctx1 alice alice (bnb 300) "bnb-a"
      = (ctx1, Result.error Error.ErrInvalidWithdrawAmount) ∧
    WithdrawCollateral (exampleKeeper false) ctx1 alice alice (bnb 70) "bnb-a"
      = ({ ctx1 with ext := syncedExt (exampleKeeper false) ctx1.ext cdp200 },
          Result.error Error.ErrInvalidCollateralRatio) ∧
    ctx1.ext.hookCalls = [1] ∧
    (syncedExt (exampleKeeper false) ctx1.ext cdp200).hookCalls = [1, 1] ∧
    WithdrawCollateral (exampleKeeper false) ctxOdd alice alice (bnb 30) "bnb-a"
      = ({ ctxOdd with ext := syncedExt (exampleKeeper false) ctxOdd.ext cdpOdd },
          Result.error (Error.external 5)) :=
  ⟨((C19_withdraw_precondition_order (exampleKeeper false) ctx1 alice alice ⟨"btc", 5⟩
      "bnb-a").1 (Error.external 1) rfl (exampleKeeper false).BeforeCDPModified
      (exampleKeeper false).SynchronizeInterest).1,
    ((C19_withdraw_precondition_order (exampleKeeper false) ctx1 bob alice (bnb 5)
      "bnb-a").2.1 rfl rfl (exampleKeeper false).BeforeCDPModified
      (exampleKeeper false).SynchronizeInterest).1,
    ((C19_withdraw_precondition_order (exampleKeeper false) ctx1 alice bob (bnb 5)
      "bnb-a").2.2.1 cdp200 rfl rfl rfl (exampleKeeper false).BeforeCDPModified
      (exampleKeeper false).SynchronizeInterest).1,
    ((C19_withdraw_precondition_order (exampleKeeper false) ctx1 alice alice (bnb 300)
      "bnb-a").2.2.2.1 cdp200 ⟨1, alice, bnb 200⟩ rfl rfl rfl (by decide)
      (exampleKeeper false).BeforeCDPModified (exampleKeeper false).SynchronizeInterest).1,
    (C19_withdraw_precondition_order (exampleKeeper false) ctx1 alice alice (bnb 70)
      "bnb-a").2.2.2.2.2 cdp200 ⟨1, alice, bnb 200⟩ (bnb 130) 1300000000000000000 rfl rfl rfl
      (by decide) rfl rfl (by decide),
    rfl, rfl,
    (C19_withdraw_precondition_order (exampleKeeper false) ctxOdd alice alice (bnb 30)
      "bnb-a").2.2.2.2.1 cdpOdd ⟨1, alice, bnb 200⟩ (bnb 170) (Error.external 5) rfl rfl rfl
      (by decide) rfl rfl⟩

/-! ## Failing custody transfers -/

/-- The collateral read from the state after the hook and the interest synchronization is the
collateral of the position found before. -/
theorem collateralOf_synced {k : Keeper σ} (hk : k.Lawful) (hf : k.Framed) {ext : σ}
    {owner : AccAddress} {ctype : String} {cdp0 : CDP}
    (hg : k.GetCdpByOwnerAndCollateralType ext owner ctype = some cdp0) :
    collateralOf k (syncedExt k ext cdp0) owner ctype = some cdp0.Collateral := by
  have h0 : collateralOf k ext owner ctype = some cdp0.Collateral := by
    simp [collateralOf, hg]
  have hkey := hk.get_key _ _ _ _ hg
  unfold syncedExt
  apply hf.sync_collateral _ _ _ _ hkey.1 hkey.2
  rw [hf.hook_collateral]
  exact h0

theorem exampleKeeper_framed (updateFails : Bool) : (exampleKeeper updateFails).Framed where
  hook_collateral := fun _ _ _ _ => rfl
  sync_collateral := by
    intro ext cdp owner ctype ho ht _
    simp [collateralOf, exampleKeeper, ho, ht]
  sendIn_collateral := by
    intro ext a coins owner ctype
    simp only [collateralOf, exampleKeeper]
    split <;> rfl
  sendOut_collateral := by
    intro ext a coins owner ctype
    simp only [collateralOf, exampleKeeper]
    split <;> rfl
  update_fail_collateral := by
    intro ext cdp ratio owner ctype err h
    cases updateFails with
    | true => rfl
    | false => simp [exampleKeeper] at h

theorem laxKeeper_lawful : laxKeeper.Lawful :=
  ⟨exampleKeeper_lawful.get_key, exampleKeeper_lawful.sync_ID, exampleKeeper_lawful.sync_Owner,
    exampleKeeper_lawful.sync_Type, exampleKeeper_lawful.sync_Collateral,
    exampleKeeper_lawful.update_get⟩

theorem laxKeeper_framed : laxKeeper.Framed :=
  ⟨(exampleKeeper_framed false).hook_collateral, (exampleKeeper_framed false).sync_collateral,
    (exampleKeeper_framed false).sendIn_collateral,
    (exampleKeeper_framed false).sendOut_collateral,
    (exampleKeeper_framed false).update_fail_collateral⟩

/-- C12. Deposit custody-transfer failure aborts cleanly: a deposit that passes the three
preconditions and whose transfer to the module account fails returns the transfer's error; the
ledger and the events are as before the call, the collaborators' state is the one left by the
failed transfer, the outcome is the same whatever the position update is (the position is not
re-indexed), and the position's aggregate collateral, read from that state, is unchanged. -/
theorem C12_deposit_transfer_failure (k : Keeper σ) (hk : k.Lawful) (hf : k.Framed)
    (ctx : Ctx σ) (owner depositor : AccAddress) (collateral : Coin) (ctype : String)
    (cdp0 : CDP) (deposit : Deposit) (coins : List Coin) (err : Error)
    (hv : k.ValidateCollateral ctx.ext collateral ctype = none)
    (hg : k.GetCdpByOwnerAndCollateralType ctx.ext owner ctype = some cdp0)
    (hb : k.ValidateBalance ctx.ext collateral depositor = none)
    (hd : addToDeposit ctx (syncedCdp k ctx.ext cdp0).ID depositor collateral = some deposit)
    (hc : NewCoins k.ValidateDenom collateral = some coins)
    (hs : (k.SendCoinsFromAccountToModule (syncedExt k ctx.ext cdp0) depositor coins).2
      = some err) :
    DepositCollateral k ctx owner depositor collateral ctype =
      ({ ctx with
          ext := (k.SendCoinsFromAccountToModule (syncedExt k ctx.ext cdp0) depositor coins).1 },
        Result.error err) ∧
    (∀ update,
      DepositCollateral { k with UpdateCdpAndCollateralRatioIndex := update } ctx owner depositor
        collateral ctype = DepositCollateral k ctx owner depositor collateral ctype) ∧
    (DepositCollateral k ctx owner depositor collateral ctype).1.deposits = ctx.deposits ∧
    (DepositCollateral k ctx owner depositor collateral ctype).1.events = ctx.events ∧
    collateralOf k (DepositCollateral k ctx owner depositor collateral ctype).1.ext owner ctype
      = collateralOf k ctx.ext owner ctype := by
  have heval : ∀ update,
      DepositCollateral { k with UpdateCdpAndCollateralRatioIndex := update } ctx owner depositor
        collateral ctype =
      ({ ctx with
          ext := (k.SendCoinsFromAccountToModule (syncedExt k ctx.ext cdp0) depositor coins).1 },
        Result.error err) := by
    intro update
    unfold syncedCdp syncedExt at *
    unfold DepositCollateral
    simp only [hv, hg, hb]
    have hd' : addToDeposit
        { deposits := ctx.deposits, events := ctx.events,
          ext := (k.SynchronizeInterest (k.BeforeCDPModified ctx.ext cdp0) cdp0).1 }
        (k.SynchronizeInterest (k.BeforeCDPModified ctx.ext cdp0) cdp0).2.ID depositor collateral
        = some deposit := hd
    simp only [hd', hc, hs]
  have h0 := heval k.UpdateCdpAndCollateralRatioIndex
  refine ⟨h0, fun update => (heval update).trans h0.symm, ?_, ?_, ?_⟩
  · rw [h0]
  · rw [h0]
  · rw [h0]
    simp only
    rw [hf.sendIn_collateral, collateralOf_synced hk hf hg]
    simp [collateralOf, hg]

/-- Witness of C12: with a balance check that accepts everything, `alice`, who holds 800, tries
to deposit 2000; the transfer fails, and her record, the events and the position's collateral
are as before. -/
theorem C12_deposit_transfer_failure_witness :
    laxKeeper.Lawful ∧ laxKeeper.Framed ∧
    (DepositCollateral laxKeeper ctx1 alice alice (bnb 2000) "bnb-a").2
      = Result.error (Error.external 3) ∧
    (DepositCollateral laxKeeper ctx1 alice alice (bnb 2000) "bnb-a").1.deposits
      = ctx1.deposits ∧
    (DepositCollateral laxKeeper ctx1 alice alice (bnb 2000) "bnb-a").1.events = ctx1.events ∧
    collateralOf laxKeeper (DepositCollateral laxKeeper ctx1 alice alice (bnb 2000) "bnb-a").1.ext
      alice "bnb-a" = some (bnb 200) ∧
    DepositCollateral laxKeeper ctx1 alice alice (bnb 2000) "bnb-a" =
      ({ ctx1 with
          ext := (laxKeeper.SendCoinsFromAccountToModule (syncedExt laxKeeper ctx1.ext cdp200)
            alice [bnb 2000]).1 },
        Result.error (Error.external 3)) :=
  ⟨laxKeeper_lawful, laxKeeper_framed, rfl, rfl, rfl, rfl,
    (C12_deposit_transfer_failure laxKeeper laxKeeper_lawful laxKeeper_framed
      ctx1 alice alice (bnb 2000) "bnb-a" cdp200 ⟨1, alice, bnb 2200⟩ [bnb 2000]
      (Error.external 3) rfl rfl rfl rfl rfl rfl).1⟩

/-- C13. Withdraw custody-transfer failure is fatal: a withdrawal that passes the four
preconditions and the ratio guard and whose transfer to the depositor fails does not return an
error value but panics. At the panic the ledger and the events are as before the call, the
collaborators' state is the one left by the failed transfer, and the outcome is the same
whatever the position update is (the position has not been re-indexed or persisted). -/
theorem C13_withdraw_transfer_failure_fatal (k : Keeper σ) (ctx : Ctx σ)
    (owner depositor : AccAddress) (collateral : Coin) (ctype : String) (cdp0 : CDP)
    (deposit : Deposit) (projected : Coin) (ratio : Dec) (coins : List Coin) (err : Error)
    (hv : k.ValidateCollateral ctx.ext collateral ctype = none)
    (hg : k.GetCdpByOwnerAndCollateralType ctx.ext owner ctype = some cdp0)
    (hd : GetDeposit ctx cdp0.ID depositor = some deposit)
    (hle : collateral.Amount ≤ deposit.Amount.Amount)
    (hp : (syncedCdp k ctx.ext cdp0).Collateral.Sub collateral = some projected)
    (hr : k.CalculateCollateralizationRatio (syncedExt k ctx.ext cdp0) projected
      (syncedCdp k ctx.ext cdp0).Type_ (syncedCdp k ctx.ext cdp0).Principal
      (syncedCdp k ctx.ext cdp0).AccumulatedFees = Except.ok ratio)
    (hl : k.getLiquidationRatio (syncedExt k ctx.ext cdp0) (syncedCdp k ctx.ext cdp0).Type_
      ≤ ratio)
    (hc : NewCoins k.ValidateDenom collateral = some coins)
    (hs : (k.SendCoinsFromModuleToAccount (syncedExt k ctx.ext cdp0) depositor coins).2
      = some err) :
    WithdrawCollateral k ctx owner depositor collateral ctype =
      ({ ctx with
          ext := (k.SendCoinsFromModuleToAccount (syncedExt k ctx.ext cdp0) depositor coins).1 },
        Result.panic) ∧
    (∀ e, (WithdrawCollateral k ctx owner depositor collateral ctype).2 ≠ Result.error e) ∧
    (∀ update,
      WithdrawCollateral { k with UpdateCdpAndCollateralRatioIndex := update } ctx owner depositor
        collateral ctype = WithdrawCollateral k ctx owner depositor collateral ctype) ∧
    (WithdrawCollateral k ctx owner depositor collateral ctype).1.deposits = ctx.deposits ∧
    (WithdrawCollateral k ctx owner depositor collateral ctype).1.events = ctx.events := by
  have heval : ∀ update,
      WithdrawCollateral { k with UpdateCdpAndCollateralRatioIndex := update } ctx owner depositor
        collateral ctype =
      ({ ctx with
          ext := (k.SendCoinsFromModuleToAccount (syncedExt k ctx.ext cdp0) depositor coins).1 },
        Result.panic) := by
    intro update
    unfold syncedCdp syncedExt at *
    unfold WithdrawCollateral
    simp only [hv, hg, hd, gt_iff_lt, not_lt.mpr hle, if_false, hp, hr, not_lt.mpr hl, hc, hs]
  have h0 := heval k.UpdateCdpAndCollateralRatioIndex
  refine ⟨h0, ?_, fun update => (heval update).trans h0.symm, ?_, ?_⟩
  · intro e
    rw [h0]
    simp
  · rw [h0]
  · rw [h0]

/-- Witness of C13: `alice` recorded 200 but the module account holds only 10; her withdrawal
of 30 passes every check and the ratio guard, the transfer fails, and the call panics with her
record and the events as before. -/
theorem C13_withdraw_transfer_failure_fatal_witness :
    (WithdrawCollateral (exampleKeeper false) ctxShort alice alice (bnb 30) "bnb-a").2
      = Result.panic ∧
    GetDeposit (WithdrawCollateral (exampleKeeper false) ctxShort alice alice (bnb 30) "bnb-a").1
      1 alice = some ⟨1, alice, bnb 200⟩ ∧
    (WithdrawCollateral (exampleKeeper false) ctxShort alice alice (bnb 30) "bnb-a").1.events
      = ctxShort.events ∧
    WithdrawCollateral (exampleKeeper false) ctxShort alice alice (bnb 30) "bnb-a" =
      ({ ctxShort with
          ext := ((exampleKeeper false).SendCoinsFromModuleToAccount
            (syncedExt (exampleKeeper false) ctxShort.ext cdp200) alice [bnb 30]).1 },
        Result.panic) :=
  ⟨rfl, rfl, rfl,
    (C13_withdraw_transfer_failure_fatal (exampleKeeper false) ctxShort alice alice (bnb 30)
      "bnb-a" cdp200 ⟨1, alice, bnb 200⟩ (bnb 170) 1700000000000000000 [bnb 30]
      (Error.external 4) rfl rfl rfl (by decide) rfl rfl (by decide) rfl rfl).1⟩

/-! ## The ledger as a finite map -/

theorem kvDelete_of_kvGet_none {K V : Type} [LinearOrder K] {k : K} {l : List (K × V)}
    (h : kvGet l k = none) : kvDelete k l = l := by
  induction l with
  | nil => rfl
  | cons hd tl ih =>
    obtain ⟨k', v'⟩ := hd
    by_cases h1 : k' = k
    · simp [kvGet, h1] at h
    · have h2 : ¬ k = k' := fun e => h1 e.symm
      simp only [kvGet, h1, if_false] at h
      simp only [kvDelete, h2, if_false, ih h]

/-- In a sorted store an entry is found under its key. -/
theorem kvGet_of_mem {K V : Type} [LinearOrder K] {k : K} {v : V} {l : List (K × V)}
    (hs : kvSorted l) (h : (k, v) ∈ l) : kvGet l k = some v := by
  induction l with
  | nil => simp at h
  | cons hd tl ih =>
    obtain ⟨k', v'⟩ := hd
    have hs' := hs
    unfold kvSorted at hs'
    rw [List.pairwise_cons] at hs'
    rcases List.mem_cons.mp h with heq | hmem
    · simp only [Prod.mk.injEq] at heq
      simp [kvGet, heq.1, heq.2]
    · have hlt : k' < k := hs'.1 _ hmem
      have hne : ¬ k' = k := ne_of_lt hlt
      simp only [kvGet, hne, if_false]
      exact ih hs'.2 hmem

theorem DepositKey_ne {a b : Nat} {x y : AccAddress} (h : (a, x) ≠ (b, y)) :
    DepositKey a x ≠ DepositKey b y := by
  intro he
  have := DepositKey_inj he
  exact h (by rw [this.1, this.2])

/-- C14. The deposit ledger is a finite map keyed by (position ID, depositor): a lookup after
`SetDeposit d` under the key of `d` finds `d`, whatever was stored there; a lookup after
`DeleteDeposit` under the deleted key finds nothing; `DeleteDeposit` of an absent key leaves
the context as it was; `SetDeposit` and `DeleteDeposit` under one key leave the lookups under
every other key, the events and the collaborators' state as they were. `GetDeposit` returns no
context: a lookup changes nothing. -/
theorem C14_ledger_finite_map (ctx : Ctx σ) :
    (∀ d, GetDeposit (SetDeposit ctx d) d.CdpID d.Depositor = some d) ∧
    (∀ d0 d, d0.CdpID = d.CdpID → d0.Depositor = d.Depositor →
      GetDeposit (SetDeposit (SetDeposit ctx d0) d) d.CdpID d.Depositor = some d) ∧
    (∀ cdpID depositor, GetDeposit (DeleteDeposit ctx cdpID depositor) cdpID depositor = none) ∧
    (∀ cdpID depositor, GetDeposit ctx cdpID depositor = none →
      DeleteDeposit ctx cdpID depositor = ctx) ∧
    (∀ d cdpID depositor, (cdpID, depositor) ≠ (d.CdpID, d.Depositor) →
      GetDeposit (SetDeposit ctx d) cdpID depositor = GetDeposit ctx cdpID depositor) ∧
    (∀ cdpID0 depositor0 cdpID depositor, (cdpID, depositor) ≠ (cdpID0, depositor0) →
      GetDeposit (DeleteDeposit ctx cdpID0 depositor0) cdpID depositor
        = GetDeposit ctx cdpID depositor) ∧
    (∀ d, (SetDeposit ctx d).events = ctx.events ∧ (SetDeposit ctx d).ext = ctx.ext) ∧
    (∀ cdpID depositor, (DeleteDeposit ctx cdpID depositor).events = ctx.events ∧
      (DeleteDeposit ctx cdpID depositor).ext = ctx.ext) := by
  refine ⟨?_, ?_, ?_, ?_, ?_, ?_, ?_, ?_⟩
  · intro d
    exact kvGet_kvSet_self _ _ _
  · intro d0 d _ _
    exact kvGet_kvSet_self _ _ _
  · intro cdpID depositor
    exact kvGet_kvDelete_self _ _
  · intro cdpID depositor h
    unfold DeleteDeposit
    unfold GetDeposit at h
    rw [kvDelete_of_kvGet_none h]
  · intro d cdpID depositor hne
    exact kvGet_kvSet_ne _ _ _ _ (DepositKey_ne hne)
  · intro cdpID0 depositor0 cdpID depositor hne
    exact kvGet_kvDelete_ne _ _ _ (DepositKey_ne hne)
  · intro d
    exact ⟨rfl, rfl⟩
  · intro cdpID depositor
    exact ⟨rfl, rfl⟩

/-- Witness of C14, in the context where `alice` recorded 170 and `bob` 50: writing 99 for
`alice` overwrites her 170 and leaves the record of `bob`; deleting her record leaves his;
deleting the absent record of position 2 changes nothing. -/
theorem C14_ledger_finite_map_witness :
    GetDeposit ctx3 1 alice = some ⟨1, alice, bnb 170⟩ ∧
    GetDeposit (SetDeposit ctx3 ⟨1, alice, bnb 99⟩) 1 alice = some ⟨1, alice, bnb 99⟩ ∧
    GetDeposit (SetDeposit ctx3 ⟨1, alice, bnb 99⟩) 1 bob = GetDeposit ctx3 1 bob ∧
    GetDeposit (DeleteDeposit ctx3 1 alice) 1 alice = none ∧
    GetDeposit (DeleteDeposit ctx3 1 alice) 1 bob = GetDeposit ctx3 1 bob ∧
    GetDeposit ctx3 2 alice = none ∧
    DeleteDeposit ctx3 2 alice = ctx3 :=
  ⟨rfl,
    (C14_ledger_finite_map ctx3).1 ⟨1, alice, bnb 99⟩,
    (C14_ledger_finite_map ctx3).2.2.2.2.1 ⟨1, alice, bnb 99⟩ 1 bob (by decide),
    (C14_ledger_finite_map ctx3).2.2.1 1 alice,
    (C14_ledger_finite_map ctx3).2.2.2.2.2.1 1 alice 1 bob (by decide),
    rfl,
    (C14_ledger_finite_map ctx3).2.2.2.1 2 alice rfl⟩

/-! ## Listing the deposits of a position -/

theorem mem_KVStorePrefixIterator {store : DepositStore} (hwf : StoreWF store) (cdpID : Nat)
    (d : Deposit) :
    d ∈ KVStorePrefixIterator store cdpID ↔
      d.CdpID = cdpID ∧ kvGet store (DepositKey d.CdpID d.Depositor) = some d := by
  unfold KVStorePrefixIterator
  simp only [List.mem_map, List.mem_filter, decide_eq_true_eq]
  constructor
  · rintro ⟨kv, ⟨hmem, hid⟩, rfl⟩
    have hkey := hwf.2 kv hmem
    have hid' : kv.2.CdpID = cdpID := by
      rw [hkey] at hid
      simpa [DepositKey] using hid
    refine ⟨hid', kvGet_of_mem hwf.1 ?_⟩
    rw [← hkey]
    exact hmem
  · rintro ⟨hid, hget⟩
    refine ⟨(DepositKey d.CdpID d.Depositor, d), ⟨mem_of_kvGet hget, ?_⟩, rfl⟩
    simpa [DepositKey] using hid

theorem sorted_KVStorePrefixIterator {store : DepositStore} (hwf : StoreWF store) (cdpID : Nat) :
    (KVStorePrefixIterator store cdpID).Pairwise (fun a b => a.Depositor < b.Depositor) := by
  unfold KVStorePrefixIterator
  rw [List.pairwise_map]
  have hs : store.Pairwise (fun a b => a.1 < b.1) := hwf.1
  have hf := hs.filter (fun kv => decide ((ofLex kv.1).1 = cdpID))
  refine hf.imp_of_mem ?_
  intro a b ha hb hlt
  simp only [List.mem_filter, decide_eq_true_eq] at ha hb
  have hka := hwf.2 a ha.1
  have hkb := hwf.2 b hb.1
  rw [hka, hkb] at hlt
  have hida : a.2.CdpID = cdpID := by
    have := ha.2
    rw [hka] at this
    simpa [DepositKey] using this
  have hidb : b.2.CdpID = cdpID := by
    have := hb.2
    rw [hkb] at this
    simpa [DepositKey] using this
  unfold DepositKey at hlt
  rw [Prod.Lex.lt_iff] at hlt
  simp only at hlt
  rcases hlt with h1 | ⟨_, h2⟩
  · omega
  · exact h2

/-- C15. `GetDeposits cdpID` returns exactly the deposit records stored for the position: a
record is listed if and only if it carries that position ID and is the record stored under its
key; each listed record is listed once; the list is in increasing order of depositor; and for
a position without records the list is empty. -/
theorem C15_GetDeposits_exact (ctx : Ctx σ) (hwf : StoreWF ctx.deposits) (cdpID : Nat) :
    (∀ d, d ∈ GetDeposits ctx cdpID ↔
      d.CdpID = cdpID ∧ GetDeposit ctx d.CdpID d.Depositor = some d) ∧
    (∀ d, d ∈ GetDeposits ctx cdpID → (GetDeposits ctx cdpID).count d = 1) ∧
    (GetDeposits ctx cdpID).Pairwise (fun a b => a.Depositor < b.Depositor) ∧
    ((∀ depositor, GetDeposit ctx cdpID depositor = none) → GetDeposits ctx cdpID = []) := by
  rw [GetDeposits_eq]
  have hmem := mem_KVStorePrefixIterator hwf cdpID
  have hsorted := sorted_KVStorePrefixIterator hwf cdpID
  have hnodup : (KVStorePrefixIterator ctx.deposits cdpID).Nodup := by
    unfold List.Nodup
    exact hsorted.imp (fun h he => absurd (he ▸ h) (lt_irrefl _))
  refine ⟨hmem, fun d hd => List.count_eq_one_of_mem hnodup hd, hsorted, ?_⟩
  intro hnone
  apply List.eq_nil_iff_forall_not_mem.mpr
  intro d hd
  have := (hmem d).mp hd
  have hn := hnone d.Depositor
  unfold GetDeposit at hn
  rw [← this.1, this.2] at hn
  cases hn

/-- Witness of C15, in the context where `alice` recorded 170 and `bob` 50 on position 1: the
listing of position 1 is her record then his, and the listing of position 2 is empty. -/
theorem C15_GetDeposits_exact_witness :
    StoreWF ctx3.deposits ∧
    GetDeposits ctx3 1 = [⟨1, alice, bnb 170⟩, ⟨1, bob, bnb 50⟩] ∧
    (GetDeposits ctx3 1).Pairwise (fun a b => a.Depositor < b.Depositor) ∧
    (∀ depositor, GetDeposit ctx3 2 depositor = none) ∧
    GetDeposits ctx3 2 = [] :=
  ⟨ctx3_conserved.1, rfl, (C15_GetDeposits_exact ctx3 ctx3_conserved.1 1).2.2.1,
    fun depositor => by simp [GetDeposit, ctx3, kvGet, DepositKey],
    (C15_GetDeposits_exact ctx3 ctx3_conserved.1 2).2.2.2
      (fun depositor => by simp [GetDeposit, ctx3, kvGet, DepositKey])⟩

/-! ## Frame -/

/-- C20. Frame: a deposit or a withdrawal made by `depositor` on the position of
`(owner, ctype)` leaves the lookup of every record under another key than (position ID,
depositor) as it was, whether the call returns `nil`, returns an error or panics. -/
theorem C20_frame (k : Keeper σ) (hk : k.Lawful) (ctx : Ctx σ) (hwf : StoreWF ctx.deposits)
    (owner depositor : AccAddress) (collateral : Coin) (ctype : String) (cdpID : Nat)
    (other : AccAddress)
    (hne : ∀ cdp0, k.GetCdpByOwnerAndCollateralType ctx.ext owner ctype = some cdp0 →
      (cdpID, other) ≠ (cdp0.ID, depositor)) :
    GetDeposit (DepositCollateral k ctx owner depositor collateral ctype).1 cdpID other
      = GetDeposit ctx cdpID other ∧
    GetDeposit (WithdrawCollateral k ctx owner depositor collateral ctype).1 cdpID other
      = GetDeposit ctx cdpID other := by
  constructor
  · rcases DepositCollateral_deposits k ctx owner depositor collateral ctype with
      h | ⟨cdp0, deposit, coins, hg, hd, -, h⟩
    · unfold GetDeposit
      rw [h]
    · have hf := addToDeposit_fields hwf hd
      have hid : (syncedCdp k ctx.ext cdp0).ID = cdp0.ID := hk.sync_ID _ _
      unfold GetDeposit
      rw [h, hf.1, hf.2, hid]
      exact kvGet_kvSet_ne _ _ _ _ (DepositKey_ne (hne cdp0 hg))
  · rcases WithdrawCollateral_deposits k ctx owner depositor collateral ctype with
      h | ⟨cdp0, deposit, remaining, hg, hd, -, -, h⟩
    · unfold GetDeposit
      rw [h]
    · have hf := GetDeposit_fields hwf hd
      unfold GetDeposit
      rw [h, hf.1, hf.2]
      split
      · exact kvGet_kvDelete_ne _ _ _ (DepositKey_ne (hne cdp0 hg))
      · exact kvGet_kvSet_ne _ _ _ _ (DepositKey_ne (hne cdp0 hg))

/-- Witness of C20, in the context where `alice` recorded 170 and `bob` 50: after her deposit
of 10, after her withdrawal of 20, after her refused withdrawal of 500, and after his full
withdrawal seen from her key, the other depositor's record is as it was. -/
theorem C20_frame_witness :
    (exampleKeeper false).Lawful ∧ StoreWF ctx3.deposits ∧
    GetDeposit (DepositCollateral (exampleKeeper false) ctx3 alice alice (bnb 10) "bnb-a").1
      1 bob = some ⟨1, bob, bnb 50⟩ ∧
    GetDeposit (WithdrawCollateral (exampleKeeper false) ctx3 alice alice (bnb 20) "bnb-a").1
      1 bob = some ⟨1, bob, bnb 50⟩ ∧
    GetDeposit (WithdrawCollateral (exampleKeeper false) ctx3 alice alice (bnb 500) "bnb-a").1
      1 bob = some ⟨1, bob, bnb 50⟩ ∧
    GetDeposit (WithdrawCollateral (exampleKeeper false) ctx3 alice bob (bnb 50) "bnb-a").1
      1 alice = some ⟨1, alice, bnb 170⟩ :=
  ⟨exampleKeeper_lawful, ctx3_conserved.1,
    (C20_frame (exampleKeeper false) exampleKeeper_lawful ctx3 ctx3_conserved.1 alice alice
      (bnb 10) "bnb-a" 1 bob (fun cdp0 h => by cases h; decide)).1,
    (C20_frame (exampleKeeper false) exampleKeeper_lawful ctx3 ctx3_conserved.1 alice alice
      (bnb 20) "bnb-a" 1 bob (fun cdp0 h => by cases h; decide)).2,
    (C20_frame (exampleKeeper false) exampleKeeper_lawful ctx3 ctx3_conserved.1 alice alice
      (bnb 500) "bnb-a" 1 bob (fun cdp0 h => by cases h; decide)).2,
    (C20_frame (exampleKeeper false) exampleKeeper_lawful ctx3 ctx3_conserved.1 alice bob
      (bnb 50) "bnb-a" 1 alice (fun cdp0 h => by cases h; decide)).2⟩

/-! ## Postconditions of successful calls -/

/-- C17. Successful partial withdrawal: after a successful withdrawal of `a`, strictly less
than the caller's recorded amount `d`, the caller's record has amount `d - a`, the position
found in the resulting state is the same position with its aggregate collateral lowered by
exactly `a`, and exactly one `cdp_withdrawal` event, carrying `a` and the position ID, has
been appended to the events. -/
theorem C17_partial_withdrawal (k : Keeper σ) (hk : k.Lawful) (ctx ctx' : Ctx σ)
    (hwf : StoreWF ctx.deposits) (owner depositor : AccAddress) (collateral : Coin)
    (ctype : String) (cdp0 : CDP) (deposit : Deposit)
    (hg : k.GetCdpByOwnerAndCollateralType ctx.ext owner ctype = some cdp0)
    (hd : GetDeposit ctx cdp0.ID depositor = some deposit)
    (hlt : collateral.Amount < deposit.Amount.Amount)
    (h : WithdrawCollateral k ctx owner depositor collateral ctype = (ctx', Result.ok)) :
    GetDeposit ctx' cdp0.ID depositor =
      some { deposit with
        Amount := ⟨deposit.Amount.Denom, deposit.Amount.Amount - collateral.Amount⟩ } ∧
    (∃ cdp', k.GetCdpByOwnerAndCollateralType ctx'.ext owner ctype = some cdp' ∧
      cdp'.ID = cdp0.ID ∧
      cdp'.Collateral.Amount = cdp0.Collateral.Amount - collateral.Amount) ∧
    ctx'.events = ctx.events ++
      [Event.mk EventKind.EventTypeCdpWithdrawal collateral cdp0.ID] := by
  obtain ⟨cdp0', deposit', newCollateral, ratio, coins, total, remaining, -, hg', hd', -, hn, -,
    -, -, -, -, hu, hrem, hctx⟩ := WithdrawCollateral_ok_inv h
  rw [hg] at hg'
  cases hg'
  rw [hd] at hd'
  cases hd'
  have hkf := GetDeposit_fields hwf hd
  have hr := Coin.Sub_amount hrem
  have hnc := Coin.Sub_amount hn
  have hid : (syncedCdp k ctx.ext cdp0).ID = cdp0.ID := hk.sync_ID _ _
  have hcol : (syncedCdp k ctx.ext cdp0).Collateral = cdp0.Collateral := hk.sync_Collateral _ _
  have hrem' : remaining = ⟨deposit.Amount.Denom, deposit.Amount.Amount - collateral.Amount⟩ := by
    cases remaining
    simp only [Coin.mk.injEq]
    exact ⟨hr.2.1, hr.1⟩
  have hz : ¬ remaining.IsZero = true := by
    simp only [Coin.IsZero, hr.1, beq_iff_eq]
    omega
  have hpersist := persisted_get hk hg hu
  subst hctx
  refine ⟨?_, ⟨_, hpersist, hid, ?_⟩, ?_⟩
  · unfold GetDeposit
    simp only [hkf.1, hkf.2]
    rw [if_neg hz, kvGet_kvSet_self, hrem']
  · show newCollateral.Amount = _
    rw [hnc.1, hcol]
  · simp only [hid]

/-- Witness of C17: `alice` deposited 200 against a principal of 100, at price 1 and
liquidation ratio 1.5. Her withdrawal of 70 fails with `ErrInvalidCollateralRatio` and leaves
ledger, events, positions and balances as they were; her withdrawal of 30 succeeds, leaves her
record at 170 and the position's collateral at 170, and emits one event. -/
theorem C17_partial_withdrawal_witness :
    (exampleKeeper false).Lawful ∧ StoreWF ctx1.deposits ∧
    (WithdrawCollateral (exampleKeeper false) ctx1 alice alice (bnb 70) "bnb-a").2
      = Result.error Error.ErrInvalidCollateralRatio ∧
    (WithdrawCollateral (exampleKeeper false) ctx1 alice alice (bnb 70) "bnb-a").1.deposits
      = ctx1.deposits ∧
    (WithdrawCollateral (exampleKeeper false) ctx1 alice alice (bnb 70) "bnb-a").1.events
      = ctx1.events ∧
    (WithdrawCollateral (exampleKeeper false) ctx1 alice alice (bnb 70) "bnb-a").1.ext.cdps
      = ctx1.ext.cdps ∧
    (WithdrawCollateral (exampleKeeper false) ctx1 alice alice (bnb 70) "bnb-a").1.ext.balances
      = ctx1.ext.balances ∧
    (WithdrawCollateral (exampleKeeper false) ctx1 alice alice (bnb 70) "bnb-a").1.ext.moduleBalance
      = ctx1.ext.moduleBalance ∧
    (WithdrawCollateral (exampleKeeper false) ctx1 alice alice (bnb 30) "bnb-a").2 = Result.ok ∧
    GetDeposit (WithdrawCollateral (exampleKeeper false) ctx1 alice alice (bnb 30) "bnb-a").1
      1 alice = some ⟨1, alice, bnb 170⟩ ∧
    collateralOf (exampleKeeper false)
      (WithdrawCollateral (exampleKeeper false) ctx1 alice alice (bnb 30) "bnb-a").1.ext
      alice "bnb-a" = some (bnb 170) ∧
    (WithdrawCollateral (exampleKeeper false) ctx1 alice alice (bnb 30) "bnb-a").1.events
      = ctx1.events ++ [⟨EventKind.EventTypeCdpWithdrawal, bnb 30, 1⟩] :=
  ⟨exampleKeeper_lawful, (deposit_conserved exampleKeeper_lawful ctx0_conserved ctx1_reached).1,
    rfl, rfl, rfl, rfl, rfl, rfl, rfl,
    (C17_partial_withdrawal (exampleKeeper false) exampleKeeper_lawful ctx1
      (WithdrawCollateral (exampleKeeper false) ctx1 alice alice (bnb 30) "bnb-a").1
      (deposit_conserved exampleKeeper_lawful ctx0_conserved ctx1_reached).1 alice alice (bnb 30)
      "bnb-a" cdp200 ⟨1, alice, bnb 200⟩ rfl rfl (by decide) rfl).1,
    rfl,
    (C17_partial_withdrawal (exampleKeeper false) exampleKeeper_lawful ctx1
      (WithdrawCollateral (exampleKeeper false) ctx1 alice alice (bnb 30) "bnb-a").1
      (deposit_conserved exampleKeeper_lawful ctx0_conserved ctx1_reached).1 alice alice (bnb 30)
      "bnb-a" cdp200 ⟨1, alice, bnb 200⟩ rfl rfl (by decide) rfl).2.2⟩

/-- C18. Re-index uses the actual post-mutation ratio: a successful deposit (resp. withdrawal)
calls the position update exactly once, with the synchronized position whose collateral is the
synchronized collateral plus (resp. minus) the amount, and with the ratio
`CalculateCollateralToDebtRatio` of that new collateral, the position's type and the
synchronized principal plus the synchronized fees. The count is read from the log of the
instrumented collaborators `k.logged`, whose run returns the same context as the run of `k`
and one more log entry. -/
theorem C18_reindex_actual_ratio (k : Keeper σ) (ctx ctx' : Ctx σ)
    (owner depositor : AccAddress) (collateral : Coin) (ctype : String) :
    (DepositCollateral k ctx owner depositor collateral ctype = (ctx', Result.ok) →
      ∃ cdp0 coins newCollateral totalPrincipal,
        k.GetCdpByOwnerAndCollateralType ctx.ext owner ctype = some cdp0 ∧
        NewCoins k.ValidateDenom collateral = some coins ∧
        (syncedCdp k ctx.ext cdp0).Collateral.Add collateral = some newCollateral ∧
        (syncedCdp k ctx.ext cdp0).Principal.Add (syncedCdp k ctx.ext cdp0).AccumulatedFees
          = some totalPrincipal ∧
        ∀ log, DepositCollateral k.logged (ctx.withLog log) owner depositor collateral ctype =
          (ctx'.withLog (log ++
            [({ syncedCdp k ctx.ext cdp0 with Collateral := newCollateral },
              k.CalculateCollateralToDebtRatio
                (k.SendCoinsFromAccountToModule (syncedExt k ctx.ext cdp0) depositor coins).1
                newCollateral (syncedCdp k ctx.ext cdp0).Type_ totalPrincipal)]),
            Result.ok)) ∧
    (WithdrawCollateral k ctx owner depositor collateral ctype = (ctx', Result.ok) →
      ∃ cdp0 coins newCollateral totalPrincipal,
        k.GetCdpByOwnerAndCollateralType ctx.ext owner ctype = some cdp0 ∧
        NewCoins k.ValidateDenom collateral = some coins ∧
        (syncedCdp k ctx.ext cdp0).Collateral.Sub collateral = some newCollateral ∧
        (syncedCdp k ctx.ext cdp0).Principal.Add (syncedCdp k ctx.ext cdp0).AccumulatedFees
          = some totalPrincipal ∧
        ∀ log, WithdrawCollateral k.logged (ctx.withLog log) owner depositor collateral ctype =
          (ctx'.withLog (log ++
            [({ syncedCdp k ctx.ext cdp0 with Collateral := newCollateral },
              k.CalculateCollateralToDebtRatio
                (k.SendCoinsFromModuleToAccount (syncedExt k ctx.ext cdp0) depositor coins).1
                newCollateral (syncedCdp k ctx.ext cdp0).Type_ totalPrincipal)]),
            Result.ok)) := by
  constructor
  · intro h
    obtain ⟨cdp0, deposit, coins, newCollateral, total, hv, hg, hb, hd, hc, hs, hn, ht, hu,
      hctx⟩ := DepositCollateral_ok_inv h
    refine ⟨cdp0, coins, newCollateral, total, hg, hc, hn, ht, ?_⟩
    intro log
    subst hctx
    unfold syncedCdp syncedExt at *
    unfold addToDeposit GetDeposit at hd
    unfold CDP.GetTotalPrincipal at ht
    unfold DepositCollateral
    simp only [Keeper.logged, Ctx.withLog, addToDeposit, GetDeposit, CDP.GetTotalPrincipal,
      SetDeposit, hv, hg, hb, hd, hc, hs, hn, ht, hu]
  · intro h
    obtain ⟨cdp0, deposit, newCollateral, ratio, coins, total, remaining, hv, hg, hd, hle, hn,
      hr, hl, hc, hs, ht, hu, hrem, hctx⟩ := WithdrawCollateral_ok_inv h
    refine ⟨cdp0, coins, newCollateral, total, hg, hc, hn, ht, ?_⟩
    intro log
    subst hctx
    unfold syncedCdp syncedExt at *
    unfold GetDeposit at hd
    unfold CDP.GetTotalPrincipal at ht
    unfold WithdrawCollateral
    simp only [Keeper.logged, Ctx.withLog, GetDeposit, CDP.GetTotalPrincipal,
      hv, hg, hd, gt_iff_lt, not_lt.mpr hle, if_false, hn, hr, not_lt.mpr hl, hc, hs, ht, hu,
      hrem]
    cases hz : remaining.IsZero
    · simp only [Bool.false_eq_true, if_false, SetDeposit]
    · simp only [if_true, DeleteDeposit]

/-- Witness of C18: the deposit of 200 by `alice` into the empty position calls the update
once, with the position holding 200 and the ratio 2; her withdrawal of 30 calls it once, with
the position holding 170 and the ratio 1.7. -/
theorem C18_reindex_actual_ratio_witness :
    DepositCollateral (exampleKeeper false) ctx0 alice alice (bnb 200) "bnb-a"
      = (ctx1, Result.ok) ∧
    DepositCollateral (exampleKeeper false).logged (ctx0.withLog []) alice alice (bnb 200)
      "bnb-a" = (ctx1.withLog [(cdp200, 2000000000000000000)], Result.ok) ∧
    WithdrawCollateral (exampleKeeper false).logged (ctx1.withLog []) alice alice (bnb 30)
      "bnb-a" =
      ((WithdrawCollateral (exampleKeeper false) ctx1 alice alice (bnb 30) "bnb-a").1.withLog
        [({ cdp1 with Collateral := bnb 170 }, 1700000000000000000)], Result.ok) ∧
    (∃ cdp0 coins newCollateral totalPrincipal,
      (exampleKeeper false).GetCdpByOwnerAndCollateralType ctx0.ext alice "bnb-a" = some cdp0 ∧
      NewCoins (exampleKeeper false).ValidateDenom (bnb 200) = some coins ∧
      (syncedCdp (exampleKeeper false) ctx0.ext cdp0).Collateral.Add (bnb 200)
        = some newCollateral ∧
      (syncedCdp (exampleKeeper false) ctx0.ext cdp0).Principal.Add
        (syncedCdp (exampleKeeper false) ctx0.ext cdp0).AccumulatedFees = some totalPrincipal ∧
      ∀ log, DepositCollateral (exampleKeeper false).logged (ctx0.withLog log) alice alice
          (bnb 200) "bnb-a" =
        (ctx1.withLog (log ++
          [({ syncedCdp (exampleKeeper false) ctx0.ext cdp0 with Collateral := newCollateral },
            (exampleKeeper false).CalculateCollateralToDebtRatio
              ((exampleKeeper false).SendCoinsFromAccountToModule
                (syncedExt (exampleKeeper false) ctx0.ext cdp0) alice coins).1
              newCollateral (syncedCdp (exampleKeeper false) ctx0.ext cdp0).Type_
              totalPrincipal)]),
          Result.ok)) :=
  ⟨rfl, rfl, rfl,
    (C18_reindex_actual_ratio (exampleKeeper false) ctx0 ctx1 alice alice (bnb 200) "bnb-a").1
      rfl⟩

/-! ## The aggregate collateral stays non-negative -/

theorem le_sum_of_nonneg {α : Type} (f : α → Int) (l : List α) (hnn : ∀ x ∈ l, 0 ≤ f x) :
    0 ≤ (l.map f).sum ∧ ∀ x ∈ l, f x ≤ (l.map f).sum := by
  induction l with
  | nil => simp
  | cons hd tl ih =>
    have h1 := hnn hd (List.mem_cons_self _ _)
    have ih' := ih (fun x hx => hnn x (List.mem_cons_of_mem _ hx))
    simp only [List.map_cons, List.sum_cons]
    refine ⟨by omega, ?_⟩
    intro x hx
    rcases List.mem_cons.mp hx with h | h
    · subst h
      omega
    · have := ih'.2 x h
      omega

/-- With non-negative amounts, the total of a position is non-negative and at least the amount
of each of its records. -/
theorem total_bounds {ctx : Ctx σ} (hnn : ∀ kv ∈ ctx.deposits, 0 ≤ kv.2.Amount.Amount)
    (cdpID : Nat) :
    0 ≤ totalDeposited ctx cdpID ∧
    ∀ depositor deposit, GetDeposit ctx cdpID depositor = some deposit →
      deposit.Amount.Amount ≤ totalDeposited ctx cdpID := by
  rw [totalDeposited_eq]
  have hnn' : ∀ kv ∈ ctx.deposits, 0 ≤ amountFor cdpID kv := by
    intro kv hkv
    unfold amountFor
    split
    · exact hnn kv hkv
    · exact le_refl _
  have h := le_sum_of_nonneg (amountFor cdpID) ctx.deposits hnn'
  refine ⟨h.1, ?_⟩
  intro depositor deposit hget
  have hmem := mem_of_kvGet hget
  have := h.2 _ hmem
  simpa [amountFor, DepositKey] using this

/-- The position's collateral read from the state after a deposit, whatever the outcome: the
collateral before the call, or that collateral plus the deposited coin. -/
theorem DepositCollateral_collateral {k : Keeper σ} (hk : k.Lawful) (hf : k.Framed)
    {ctx : Ctx σ} {owner : AccAddress} (depositor : AccAddress) (collateral : Coin)
    {ctype : String} {cdp0 : CDP}
    (hg : k.GetCdpByOwnerAndCollateralType ctx.ext owner ctype = some cdp0) :
    collateralOf k (DepositCollateral k ctx owner depositor collateral ctype).1.ext owner ctype
      = some cdp0.Collateral ∨
    ∃ coins newCollateral,
      NewCoins k.ValidateDenom collateral = some coins ∧
      cdp0.Collateral.Add collateral = some newCollateral ∧
      collateralOf k (DepositCollateral k ctx owner depositor collateral ctype).1.ext owner ctype
        = some newCollateral := by
  have h0 : collateralOf k ctx.ext owner ctype = some cdp0.Collateral := by
    simp [collateralOf, hg]
  have h2 := collateralOf_synced hk hf hg
  have hcol : (syncedCdp k ctx.ext cdp0).Collateral = cdp0.Collateral := hk.sync_Collateral _ _
  unfold syncedExt at h2
  unfold syncedCdp at hcol
  unfold DepositCollateral
  split
  · exact Or.inl h0
  simp only [hg]
  split
  · exact Or.inl h0
  split
  · exact Or.inl h2
  split
  · exact Or.inl h2
  rename_i coins hc
  have h3 : collateralOf k
      (k.SendCoinsFromAccountToModule (k.SynchronizeInterest (k.BeforeCDPModified ctx.ext cdp0)
        cdp0).1 depositor coins).1 owner ctype = some cdp0.Collateral := by
    rw [hf.sendIn_collateral]
    exact h2
  split
  · exact Or.inl h3
  split
  · exact Or.inl h3
  rename_i newCollateral hn
  split
  · exact Or.inl h3
  rename_i total ht
  split
  · rename_i err hu
    left
    simp only
    rw [hf.update_fail_collateral _ _ _ _ _ err hu]
    exact h3
  · rename_i hu
    right
    rw [hcol] at hn
    refine ⟨coins, newCollateral, hc, hn, ?_⟩
    have hp := persisted_get hk hg hu
    simp only [collateralOf]
    unfold syncedCdp at hp
    rw [hp]
    rfl

/-- The position's collateral read from the state after a withdrawal, whatever the outcome:
the collateral before the call, or that collateral minus the withdrawn coin. -/
theorem WithdrawCollateral_collateral {k : Keeper σ} (hk : k.Lawful) (hf : k.Framed)
    {ctx : Ctx σ} {owner : AccAddress} (depositor : AccAddress) (collateral : Coin)
    {ctype : String} {cdp0 : CDP}
    (hg : k.GetCdpByOwnerAndCollateralType ctx.ext owner ctype = some cdp0) :
    collateralOf k (WithdrawCollateral k ctx owner depositor collateral ctype).1.ext owner ctype
      = some cdp0.Collateral ∨
    ∃ newCollateral,
      cdp0.Collateral.Sub collateral = some newCollateral ∧
      collateralOf k (WithdrawCollateral k ctx owner depositor collateral ctype).1.ext owner ctype
        = some newCollateral := by
  have h0 : collateralOf k ctx.ext owner ctype = some cdp0.Collateral := by
    simp [collateralOf, hg]
  have h2 := collateralOf_synced hk hf hg
  have hcol : (syncedCdp k ctx.ext cdp0).Collateral = cdp0.Collateral := hk.sync_Collateral _ _
  unfold syncedExt at h2
  unfold syncedCdp at hcol
  unfold WithdrawCollateral
  split
  · exact Or.inl h0
  simp only [hg]
  split
  · exact Or.inl h0
  split
  · exact Or.inl h0
  split
  · exact Or.inl h2
  rename_i projected hp
  split
  · exact Or.inl h2
  split
  · exact Or.inl h2
  split
  · exact Or.inl h2
  rename_i coins hc
  have h3 : collateralOf k
      (k.SendCoinsFromModuleToAccount (k.SynchronizeInterest (k.BeforeCDPModified ctx.ext cdp0)
        cdp0).1 depositor coins).1 owner ctype = some cdp0.Collateral := by
    rw [hf.sendOut_collateral]
    exact h2
  split
  · exact Or.inl h3
  split
  · exact Or.inl h3
  rename_i newCollateral hn
  have hpn : projected = newCollateral := Option.some.inj hn
  subst hpn
  split
  · exact Or.inl h3
  rename_i total ht
  have hpersisted : ∀ hu : (k.UpdateCdpAndCollateralRatioIndex
      (k.SendCoinsFromModuleToAccount (k.SynchronizeInterest (k.BeforeCDPModified ctx.ext cdp0)
        cdp0).1 depositor coins).1
      { (k.SynchronizeInterest (k.BeforeCDPModified ctx.ext cdp0) cdp0).2 with
        Collateral := projected }
      (k.CalculateCollateralToDebtRatio
        (k.SendCoinsFromModuleToAccount (k.SynchronizeInterest (k.BeforeCDPModified ctx.ext cdp0)
          cdp0).1 depositor coins).1
        projected (k.SynchronizeInterest (k.BeforeCDPModified ctx.ext cdp0) cdp0).2.Type_
        total)).2 = none,
      collateralOf k (k.UpdateCdpAndCollateralRatioIndex
        (k.SendCoinsFromModuleToAccount (k.SynchronizeInterest (k.BeforeCDPModified ctx.ext cdp0)
          cdp0).1 depositor coins).1
        { (k.SynchronizeInterest (k.BeforeCDPModified ctx.ext cdp0) cdp0).2 with
          Collateral := projected }
        (k.CalculateCollateralToDebtRatio
          (k.SendCoinsFromModuleToAccount (k.SynchronizeInterest (k.BeforeCDPModified ctx.ext
            cdp0) cdp0).1 depositor coins).1
          projected (k.SynchronizeInterest (k.BeforeCDPModified ctx.ext cdp0) cdp0).2.Type_
          total)).1 owner ctype = some projected := by
    intro hu
    have hp' := persisted_get hk hg hu
    simp only [collateralOf]
    unfold syncedCdp at hp'
    rw [hp']
    rfl
  rw [hcol] at hp
  split
  · rename_i err hu
    left
    simp only
    rw [hf.update_fail_collateral _ _ _ _ _ err hu]
    exact h3
  · rename_i hu
    right
    refine ⟨projected, hp, ?_⟩
    split
    · exact hpersisted hu
    · split <;> exact hpersisted hu

/-- C16. Aggregate collateral never goes negative. In a state where the amounts of the deposit
records of the position add up to its aggregate collateral and all amounts are non-negative, a
withdrawal that passes the ceiling check asks for at most the aggregate collateral: the
subtraction from the synchronized collateral (made twice, for the ratio guard and for the
update) and the subtraction from the caller's record give non-negative results, so `Coin.Sub`
can only panic on a denomination mismatch. The position's collateral read from the state after
a deposit or a withdrawal, whatever the outcome, is non-negative. -/
theorem C16_collateral_nonneg (k : Keeper σ) (hk : k.Lawful) (hf : k.Framed) (ctx : Ctx σ)
    (owner depositor : AccAddress) (collateral : Coin) (ctype : String) (cdpID : Nat)
    (hc : Conserved k owner ctype cdpID ctx)
    (hnn : ∀ kv ∈ ctx.deposits, 0 ≤ kv.2.Amount.Amount) :
    (∀ cdp0 deposit, k.GetCdpByOwnerAndCollateralType ctx.ext owner ctype = some cdp0 →
      GetDeposit ctx cdp0.ID depositor = some deposit →
      collateral.Amount ≤ deposit.Amount.Amount →
      collateral.Amount ≤ (syncedCdp k ctx.ext cdp0).Collateral.Amount ∧
      0 ≤ (syncedCdp k ctx.ext cdp0).Collateral.Amount - collateral.Amount ∧
      0 ≤ deposit.Amount.Amount - collateral.Amount ∧
      ((syncedCdp k ctx.ext cdp0).Collateral.Denom = collateral.Denom →
        ∃ c, (syncedCdp k ctx.ext cdp0).Collateral.Sub collateral = some c ∧ 0 ≤ c.Amount) ∧
      (deposit.Amount.Denom = collateral.Denom →
        ∃ c, deposit.Amount.Sub collateral = some c ∧ 0 ≤ c.Amount)) ∧
    (∀ c, collateralOf k (WithdrawCollateral k ctx owner depositor collateral ctype).1.ext
        owner ctype = some c → 0 ≤ c.Amount) ∧
    (∀ c, collateralOf k (DepositCollateral k ctx owner depositor collateral ctype).1.ext
        owner ctype = some c → 0 ≤ c.Amount) := by
  obtain ⟨hwf, cdp, hget, hid, htot⟩ := hc
  have hb := total_bounds hnn cdpID
  have hcdp : 0 ≤ cdp.Collateral.Amount := htot ▸ hb.1
  refine ⟨?_, ?_, ?_⟩
  · intro cdp0 deposit hg hd hle
    rw [hget] at hg
    cases hg
    have hcol : (syncedCdp k ctx.ext cdp).Collateral = cdp.Collateral := hk.sync_Collateral _ _
    rw [hid] at hd
    have hdle := hb.2 depositor deposit hd
    rw [htot] at hdle
    rw [hcol]
    refine ⟨by omega, by omega, by omega, ?_, ?_⟩
    · intro hden
      refine ⟨⟨cdp.Collateral.Denom, cdp.Collateral.Amount - collateral.Amount⟩, ?_, by
        simp only; omega⟩
      unfold Coin.Sub
      simp only [ne_eq, hden, not_true_eq_false, if_false]
      rw [if_neg (by omega)]
    · intro hden
      refine ⟨⟨deposit.Amount.Denom, deposit.Amount.Amount - collateral.Amount⟩, ?_, by
        simp only; omega⟩
      unfold Coin.Sub
      simp only [ne_eq, hden, not_true_eq_false, if_false]
      rw [if_neg (by omega)]
  · intro c hcx
    rcases WithdrawCollateral_collateral hk hf depositor collateral hget with h | ⟨nc, hsub, h⟩
    · rw [h] at hcx
      cases hcx
      exact hcdp
    · rw [h] at hcx
      cases hcx
      exact (Coin.Sub_amount hsub).2.2.2
  · intro c hcx
    rcases DepositCollateral_collateral hk hf depositor collateral hget with
      h | ⟨coins, nc, hcoins, hadd, h⟩
    · rw [h] at hcx
      cases hcx
      exact hcdp
    · rw [h] at hcx
      cases hcx
      have ha := (Coin.Add_amount hadd).1
      have hcpos : 0 ≤ collateral.Amount := by
        unfold NewCoins at hcoins
        split at hcoins
        · rename_i hz
          omega
        · split at hcoins
          · rename_i hv
            exact le_of_lt hv.2
          · simp at hcoins
      omega

/-- Witness of C16, in the context where `alice` recorded 170 and `bob` 50 on a position holding
220: `bob` asks for his 50, which is at most 220; both subtractions are defined, with results
170 and 0; and the collateral read after his withdrawal is 170. -/
theorem C16_collateral_nonneg_witness :
    (exampleKeeper false).Lawful ∧ (exampleKeeper false).Framed ∧
    Conserved (exampleKeeper false) alice "bnb-a" 1 ctx3 ∧
    (∀ kv ∈ ctx3.deposits, 0 ≤ kv.2.Amount.Amount) ∧
    (bnb 50).Amount ≤
      (syncedCdp (exampleKeeper false) ctx3.ext { cdp1 with Collateral := bnb 220 }).Collateral.Amount ∧
    (syncedCdp (exampleKeeper false) ctx3.ext { cdp1 with Collateral := bnb 220 }).Collateral.Sub
      (bnb 50) = some (bnb 170) ∧
    (bnb 50).Sub (bnb 50) = some (bnb 0) ∧
    collateralOf (exampleKeeper false)
      (WithdrawCollateral (exampleKeeper false) ctx3 alice bob (bnb 50) "bnb-a").1.ext
      alice "bnb-a" = some (bnb 170) ∧
    0 ≤ (bnb 170).Amount :=
  ⟨exampleKeeper_lawful, exampleKeeper_framed false, ctx3_conserved, by decide,
    ((C16_collateral_nonneg (exampleKeeper false) exampleKeeper_lawful
      (exampleKeeper_framed false) ctx3 alice bob (bnb 50) "bnb-a" 1 ctx3_conserved
      (by decide)).1 { cdp1 with Collateral := bnb 220 } ⟨1, bob, bnb 50⟩ rfl rfl (by decide)).1,
    rfl, rfl, rfl,
    (C16_collateral_nonneg (exampleKeeper false) exampleKeeper_lawful
      (exampleKeeper_framed false) ctx3 alice bob (bnb 50) "bnb-a" 1 ctx3_conserved
      (by decide)).2.1 (bnb 170) rfl⟩

/-! ## Calls that return an error: where they stopped and what they left -/

/-- A deposit that returns an error stopped at one of five places; each comes with what made
it stop there and with the context it leaves. -/
theorem DepositCollateral_error_cases {k : Keeper σ} {ctx ctx' : Ctx σ}
    {owner depositor : AccAddress} {collateral : Coin} {ctype : String} {err : Error}
    (h : DepositCollateral k ctx owner depositor collateral ctype = (ctx', Result.error err)) :
    (k.ValidateCollateral ctx.ext collateral ctype = some err ∧ ctx' = ctx) ∨
    (k.ValidateCollateral ctx.ext collateral ctype = none ∧
      k.GetCdpByOwnerAndCollateralType ctx.ext owner ctype = none ∧
      err = Error.ErrCdpNotFound ∧ ctx' = ctx) ∨
    (∃ cdp0,
      k.ValidateCollateral ctx.ext collateral ctype = none ∧
      k.GetCdpByOwnerAndCollateralType ctx.ext owner ctype = some cdp0 ∧
      k.ValidateBalance ctx.ext collateral depositor = some err ∧ ctx' = ctx) ∨
    (∃ cdp0 deposit coins,
      k.ValidateCollateral ctx.ext collateral ctype = none ∧
      k.GetCdpByOwnerAndCollateralType ctx.ext owner ctype = some cdp0 ∧
      k.ValidateBalance ctx.ext collateral depositor = none ∧
      addToDeposit ctx (syncedCdp k ctx.ext cdp0).ID depositor collateral = some deposit ∧
      NewCoins k.ValidateDenom collateral = some coins ∧
      (k.SendCoinsFromAccountToModule (syncedExt k ctx.ext cdp0) depositor coins).2 = some err ∧
      ctx' = { ctx with
        ext := (k.SendCoinsFromAccountToModule (syncedExt k ctx.ext cdp0) depositor coins).1 }) ∨
    (∃ cdp0 deposit coins newCollateral totalPrincipal,
      k.ValidateCollateral ctx.ext collateral ctype = none ∧
      k.GetCdpByOwnerAndCollateralType ctx.ext owner ctype = some cdp0 ∧
      k.ValidateBalance ctx.ext collateral depositor = none ∧
      addToDeposit ctx (syncedCdp k ctx.ext cdp0).ID depositor collateral = some deposit ∧
      NewCoins k.ValidateDenom collateral = some coins ∧
      (k.SendCoinsFromAccountToModule (syncedExt k ctx.ext cdp0) depositor coins).2 = none ∧
      (syncedCdp k ctx.ext cdp0).Collateral.Add collateral = some newCollateral ∧
      CDP.GetTotalPrincipal { syncedCdp k ctx.ext cdp0 with Collateral := newCollateral }
        = some totalPrincipal ∧
      (k.UpdateCdpAndCollateralRatioIndex
        (k.SendCoinsFromAccountToModule (syncedExt k ctx.ext cdp0) depositor coins).1
        { syncedCdp k ctx.ext cdp0 with Collateral := newCollateral }
        (k.CalculateCollateralToDebtRatio
          (k.SendCoinsFromAccountToModule (syncedExt k ctx.ext cdp0) depositor coins).1
          newCollateral (syncedCdp k ctx.ext cdp0).Type_ totalPrincipal)).2 = some err ∧
      ctx' =
        { deposits := kvSet (DepositKey deposit.CdpID deposit.Depositor) deposit ctx.deposits
          events := ctx.events ++
            [Event.mk EventKind.EventTypeCdpDeposit collateral (syncedCdp k ctx.ext cdp0).ID]
          ext := (k.UpdateCdpAndCollateralRatioIndex
            (k.SendCoinsFromAccountToModule (syncedExt k ctx.ext cdp0) depositor coins).1
            { syncedCdp k ctx.ext cdp0 with Collateral := newCollateral }
            (k.CalculateCollateralToDebtRatio
              (k.SendCoinsFromAccountToModule (syncedExt k ctx.ext cdp0) depositor coins).1
              newCollateral (syncedCdp k ctx.ext cdp0).Type_ totalPrincipal)).1 }) := by
  unfold DepositCollateral at h
  split at h
  · rename_i e hv
    simp only [Prod.mk.injEq, Result.error.injEq] at h
    left
    exact ⟨h.2 ▸ hv, h.1.symm⟩
  rename_i hv
  split at h
  · rename_i hg
    simp only [Prod.mk.injEq, Result.error.injEq] at h
    right; left
    exact ⟨hv, hg, h.2.symm, h.1.symm⟩
  rename_i cdp0 hg
  split at h
  · rename_i e hb
    simp only [Prod.mk.injEq, Result.error.injEq] at h
    right; right; left
    exact ⟨cdp0, hv, hg, h.2 ▸ hb, h.1.symm⟩
  rename_i hb
  simp only at h
  split at h
  · simp at h
  rename_i deposit hd
  split at h
  · simp at h
  rename_i coins hc
  split at h
  · rename_i e hs
    simp only [Prod.mk.injEq, Result.error.injEq] at h
    right; right; right; left
    exact ⟨cdp0, deposit, coins, hv, hg, hb, hd, hc, h.2 ▸ hs, h.1.symm⟩
  rename_i hs
  split at h
  · simp at h
  rename_i newCollateral hn
  split at h
  · simp at h
  rename_i total ht
  split at h
  · rename_i e hu
    simp only [Prod.mk.injEq, Result.error.injEq] at h
    right; right; right; right
    exact ⟨cdp0, deposit, coins, newCollateral, total, hv, hg, hb, hd, hc, hs, hn, ht,
      h.2 ▸ hu, h.1.symm⟩
  · simp at h

theorem exampleKeeper_true_lawful : (exampleKeeper true).Lawful where
  get_key := exampleKeeper_lawful.get_key
  sync_ID := fun _ _ => rfl
  sync_Owner := fun _ _ => rfl
  sync_Type := fun _ _ => rfl
  sync_Collateral := fun _ _ => rfl
  update_get := by
    intro ext cdp ratio h
    simp [exampleKeeper] at h

/-- C8, as amended. For every deposit that returns an error the position's aggregate collateral,
read from the resulting state, is the one before the call. The call stopped at one of five
places: at the validator, at the position lookup or at the balance check, with the whole
context as it was; at the custody transfer, with the ledger and the events as they were and
the collaborators' state left by the failed transfer; or at the final position update, in
which case the deposit record of lines 31-36 has already been written to the ledger and the
event emitted. -/
theorem C8_deposit_error_states (k : Keeper σ) (hk : k.Lawful) (hf : k.Framed)
    (ctx ctx' : Ctx σ) (owner depositor : AccAddress) (collateral : Coin) (ctype : String)
    (err : Error)
    (h : DepositCollateral k ctx owner depositor collateral ctype = (ctx', Result.error err)) :
    collateralOf k ctx'.ext owner ctype = collateralOf k ctx.ext owner ctype ∧
    ((k.ValidateCollateral ctx.ext collateral ctype = some err ∧ ctx' = ctx) ∨
    (k.ValidateCollateral ctx.ext collateral ctype = none ∧
      k.GetCdpByOwnerAndCollateralType ctx.ext owner ctype = none ∧
      err = Error.ErrCdpNotFound ∧ ctx' = ctx) ∨
    (∃ cdp0,
      k.ValidateCollateral ctx.ext collateral ctype = none ∧
      k.GetCdpByOwnerAndCollateralType ctx.ext owner ctype = some cdp0 ∧
      k.ValidateBalance ctx.ext collateral depositor = some err ∧ ctx' = ctx) ∨
    (∃ cdp0 deposit coins,
      k.ValidateCollateral ctx.ext collateral ctype = none ∧
      k.GetCdpByOwnerAndCollateralType ctx.ext owner ctype = some cdp0 ∧
      k.ValidateBalance ctx.ext collateral depositor = none ∧
      addToDeposit ctx (syncedCdp k ctx.ext cdp0).ID depositor collateral = some deposit ∧
      NewCoins k.ValidateDenom collateral = some coins ∧
      (k.SendCoinsFromAccountToModule (syncedExt k ctx.ext cdp0) depositor coins).2 = some err ∧
      ctx'.deposits = ctx.deposits ∧ ctx'.events = ctx.events ∧
      ctx'.ext = (k.SendCoinsFromAccountToModule (syncedExt k ctx.ext cdp0) depositor coins).1) ∨
    (∃ cdp0 deposit coins newCollateral totalPrincipal,
      k.ValidateCollateral ctx.ext collateral ctype = none ∧
      k.GetCdpByOwnerAndCollateralType ctx.ext owner ctype = some cdp0 ∧
      k.ValidateBalance ctx.ext collateral depositor = none ∧
      addToDeposit ctx (syncedCdp k ctx.ext cdp0).ID depositor collateral = some deposit ∧
      NewCoins k.ValidateDenom collateral = some coins ∧
      (k.SendCoinsFromAccountToModule (syncedExt k ctx.ext cdp0) depositor coins).2 = none ∧
      (syncedCdp k ctx.ext cdp0).Collateral.Add collateral = some newCollateral ∧
      CDP.GetTotalPrincipal { syncedCdp k ctx.ext cdp0 with Collateral := newCollateral }
        = some totalPrincipal ∧
      (k.UpdateCdpAndCollateralRatioIndex
        (k.SendCoinsFromAccountToModule (syncedExt k ctx.ext cdp0) depositor coins).1
        { syncedCdp k ctx.ext cdp0 with Collateral := newCollateral }
        (k.CalculateCollateralToDebtRatio
          (k.SendCoinsFromAccountToModule (syncedExt k ctx.ext cdp0) depositor coins).1
          newCollateral (syncedCdp k ctx.ext cdp0).Type_ totalPrincipal)).2 = some err ∧
      ctx'.deposits = kvSet (DepositKey deposit.CdpID deposit.Depositor) deposit ctx.deposits ∧
      GetDeposit ctx' deposit.CdpID deposit.Depositor = some deposit ∧
      ctx'.events = ctx.events ++
        [Event.mk EventKind.EventTypeCdpDeposit collateral (syncedCdp k ctx.ext cdp0).ID] ∧
      ctx'.ext = (k.UpdateCdpAndCollateralRatioIndex
        (k.SendCoinsFromAccountToModule (syncedExt k ctx.ext cdp0) depositor coins).1
        { syncedCdp k ctx.ext cdp0 with Collateral := newCollateral }
        (k.CalculateCollateralToDebtRatio
          (k.SendCoinsFromAccountToModule (syncedExt k ctx.ext cdp0) depositor coins).1
          newCollateral (syncedCdp k ctx.ext cdp0).Type_ totalPrincipal)).1)) := by
  rcases DepositCollateral_error_cases h with ⟨hv, hctx⟩ | ⟨hv, hg, he, hctx⟩ |
    ⟨cdp0, hv, hg, hb, hctx⟩ | ⟨cdp0, deposit, coins, hv, hg, hb, hd, hc, hs, hctx⟩ |
    ⟨cdp0, deposit, coins, newCollateral, total, hv, hg, hb, hd, hc, hs, hn, ht, hu, hctx⟩
  · subst hctx
    exact ⟨rfl, Or.inl ⟨hv, rfl⟩⟩
  · subst hctx
    exact ⟨rfl, Or.inr (Or.inl ⟨hv, hg, he, rfl⟩)⟩
  · subst hctx
    exact ⟨rfl, Or.inr (Or.inr (Or.inl ⟨cdp0, hv, hg, hb, rfl⟩))⟩
  · subst hctx
    have h0 : collateralOf k ctx.ext owner ctype = some cdp0.Collateral := by
      simp [collateralOf, hg]
    refine ⟨?_, Or.inr (Or.inr (Or.inr (Or.inl
      ⟨cdp0, deposit, coins, hv, hg, hb, hd, hc, hs, rfl, rfl, rfl⟩)))⟩
    simp only
    rw [hf.sendIn_collateral, collateralOf_synced hk hf hg, h0]
  · subst hctx
    have h0 : collateralOf k ctx.ext owner ctype = some cdp0.Collateral := by
      simp [collateralOf, hg]
    refine ⟨?_, Or.inr (Or.inr (Or.inr (Or.inr
      ⟨cdp0, deposit, coins, newCollateral, total, hv, hg, hb, hd, hc, hs, hn, ht, hu, rfl,
        kvGet_kvSet_self _ _ _, rfl, rfl⟩)))⟩
    simp only
    rw [hf.update_fail_collateral _ _ _ _ _ err hu, hf.sendIn_collateral,
      collateralOf_synced hk hf hg, h0]

/-- Witness of C8 as amended: with a balance check that accepts everything, `alice`, who holds
800, tries to deposit 2000 and the transfer fails; the position's collateral, the ledger and
the events are as before. When instead the position update fails after her deposit of 200, the
position's collateral is as before although her record has been written. -/
theorem C8_deposit_error_states_witness :
    laxKeeper.Lawful ∧ laxKeeper.Framed ∧
    (DepositCollateral laxKeeper ctx1 alice alice (bnb 2000) "bnb-a").2
      = Result.error (Error.external 3) ∧
    collateralOf laxKeeper (DepositCollateral laxKeeper ctx1 alice alice (bnb 2000) "bnb-a").1.ext
      alice "bnb-a" = collateralOf laxKeeper ctx1.ext alice "bnb-a" ∧
    collateralOf laxKeeper ctx1.ext alice "bnb-a" = some (bnb 200) ∧
    (DepositCollateral laxKeeper ctx1 alice alice (bnb 2000) "bnb-a").1.deposits
      = ctx1.deposits ∧
    (DepositCollateral (exampleKeeper true) ctx0 alice alice (bnb 200) "bnb-a").2
      = Result.error (Error.external 6) ∧
    collateralOf (exampleKeeper true)
      (DepositCollateral (exampleKeeper true) ctx0 alice alice (bnb 200) "bnb-a").1.ext
      alice "bnb-a" = collateralOf (exampleKeeper true) ctx0.ext alice "bnb-a" :=
  ⟨laxKeeper_lawful, laxKeeper_framed, rfl,
    (C8_deposit_error_states laxKeeper laxKeeper_lawful laxKeeper_framed ctx1
      (DepositCollateral laxKeeper ctx1 alice alice (bnb 2000) "bnb-a").1 alice alice (bnb 2000)
      "bnb-a" (Error.external 3) rfl).1,
    rfl, rfl, rfl,
    (C8_deposit_error_states (exampleKeeper true) exampleKeeper_true_lawful
      (exampleKeeper_framed true) ctx0
      (DepositCollateral (exampleKeeper true) ctx0 alice alice (bnb 200) "bnb-a").1 alice alice
      (bnb 200) "bnb-a" (Error.external 6) rfl).1⟩

end Cdp
